import Mathlib

/-!
# Stonefish `Compound` solid: mass properties and fluid forces

A shallow embedding of `Library/src/entities/solids/Compound.cpp`.

* `Scalar` is an exact ordered field `K` (the source uses floating point numbers).
* `Vector3`, `Matrix3` and `Transform` follow the Bullet types `btVector3`, `btMatrix3x3`
  and `btTransform` the source is written against (row-major 3x3 basis, `Transform` =
  basis + origin, `inverse` = transposed basis, `v / s` = `v * (1 / s)`).
* A `SolidEntity` is the record of the values its getters return.
* Loops over `parts` are left folds over the part list.
* Functions that `Compound.cpp` calls but does not define (`btSqrt`, `btAcos`, `btCos`,
  `findInertiaAxis`, the two force integrators, `CorrectDampingForces`,
  `CheckBodyFluidPosition`) are parameters, gathered in `BulletMath` and `FluidEnv`.
-/

namespace sf

/-! ## Linear math -/

/-- Three scalars: `Vector3(x, y, z)`. -/
@[ext]
structure Vector3 (K : Type) where
  x : K
  y : K
  z : K
deriving DecidableEq, Repr

/-- Row-major 3x3 matrix: `Matrix3(xx,xy,xz, yx,yy,yz, zx,zy,zz)`, stored as three rows. -/
@[ext]
structure Matrix3 (K : Type) where
  r0 : Vector3 K
  r1 : Vector3 K
  r2 : Vector3 K
deriving DecidableEq, Repr

/-- Rigid transform: a basis matrix and an origin. -/
@[ext]
structure Transform (K : Type) where
  basis : Matrix3 K
  origin : Vector3 K
deriving DecidableEq, Repr

section LinearMath

variable {K : Type} [LinearOrderedField K]

instance : Zero (Vector3 K) := ⟨⟨0, 0, 0⟩⟩
instance : Add (Vector3 K) := ⟨fun a b => ⟨a.x + b.x, a.y + b.y, a.z + b.z⟩⟩
instance : Neg (Vector3 K) := ⟨fun a => ⟨-a.x, -a.y, -a.z⟩⟩
instance : Sub (Vector3 K) := ⟨fun a b => ⟨a.x - b.x, a.y - b.y, a.z - b.z⟩⟩

/-- Vector times scalar: `v * s`. -/
instance : HMul (Vector3 K) K (Vector3 K) := ⟨fun v s => ⟨v.x * s, v.y * s, v.z * s⟩⟩

/-- Scalar times vector: `s * v`. -/
instance : HMul K (Vector3 K) (Vector3 K) := ⟨fun s v => ⟨v.x * s, v.y * s, v.z * s⟩⟩

/-- Vector divided by scalar: `v / s` is `v * (1 / s)`. -/
instance : HDiv (Vector3 K) K (Vector3 K) := ⟨fun v s => v * ((1 : K) / s)⟩

/-- Dot product: `a.dot(b)`. -/
def Vector3.dot (a b : Vector3 K) : K := a.x * b.x + a.y * b.y + a.z * b.z

/-- Cross product: `a.cross(b)`. -/
def Vector3.cross (a b : Vector3 K) : Vector3 K :=
  ⟨a.y * b.z - a.z * b.y, a.z * b.x - a.x * b.z, a.x * b.y - a.y * b.x⟩

/-- Component by index: `v[i]`. -/
def Vector3.get (v : Vector3 K) (i : Fin 3) : K :=
  match i with
  | 0 => v.x
  | 1 => v.y
  | 2 => v.z

instance : Zero (Matrix3 K) := ⟨⟨0, 0, 0⟩⟩
instance : Add (Matrix3 K) := ⟨fun a b => ⟨a.r0 + b.r0, a.r1 + b.r1, a.r2 + b.r2⟩⟩

/-- Nine-scalar constructor, row by row. -/
def Matrix3.mk9 (xx xy xz yx yy yz zx zy zz : K) : Matrix3 K :=
  ⟨⟨xx, xy, xz⟩, ⟨yx, yy, yz⟩, ⟨zx, zy, zz⟩⟩

/-- The identity matrix. -/
def Matrix3.identity : Matrix3 K := Matrix3.mk9 1 0 0 0 1 0 0 0 1

/-- Row by index: `m.getRow(i)`, `m[i]`. -/
def Matrix3.getRow (m : Matrix3 K) (i : Fin 3) : Vector3 K :=
  match i with
  | 0 => m.r0
  | 1 => m.r1
  | 2 => m.r2

/-- Entry by indices: `m[i][j]`. -/
def Matrix3.at (m : Matrix3 K) (i j : Fin 3) : K := (m.getRow i).get j

/-- Column by index. -/
def Matrix3.getColumn (m : Matrix3 K) (j : Fin 3) : Vector3 K :=
  ⟨m.r0.get j, m.r1.get j, m.r2.get j⟩

/-- Transposed matrix: `m.transpose()`. -/
def Matrix3.transpose (m : Matrix3 K) : Matrix3 K :=
  ⟨m.getColumn 0, m.getColumn 1, m.getColumn 2⟩

/-- Matrix times vector. -/
instance : HMul (Matrix3 K) (Vector3 K) (Vector3 K) :=
  ⟨fun m v => ⟨m.r0.dot v, m.r1.dot v, m.r2.dot v⟩⟩

/-- Matrix product. -/
instance : Mul (Matrix3 K) :=
  ⟨fun a b =>
    Matrix3.mk9
      (a.r0.dot (b.getColumn 0)) (a.r0.dot (b.getColumn 1)) (a.r0.dot (b.getColumn 2))
      (a.r1.dot (b.getColumn 0)) (a.r1.dot (b.getColumn 1)) (a.r1.dot (b.getColumn 2))
      (a.r2.dot (b.getColumn 0)) (a.r2.dot (b.getColumn 1)) (a.r2.dot (b.getColumn 2))⟩

/-- Column scaling: `m.scaled(s)` multiplies column `j` by `s[j]`. -/
def Matrix3.scaled (m : Matrix3 K) (s : Vector3 K) : Matrix3 K :=
  Matrix3.mk9
    (m.r0.x * s.x) (m.r0.y * s.y) (m.r0.z * s.z)
    (m.r1.x * s.x) (m.r1.y * s.y) (m.r1.z * s.z)
    (m.r2.x * s.x) (m.r2.y * s.y) (m.r2.z * s.z)

/-- Determinant as the triple product of the rows: `m.determinant()`. -/
def Matrix3.determinant (m : Matrix3 K) : K := m.r0.dot (m.r1.cross m.r2)

/-- The identity transform: `Transform::getIdentity()`. -/
def Transform.getIdentity : Transform K := ⟨Matrix3.identity, 0⟩

/-- Apply a transform to a point: `t * v` is `basis * v + origin`. -/
instance : HMul (Transform K) (Vector3 K) (Vector3 K) :=
  ⟨fun t v => t.basis * v + t.origin⟩

/-- Compose transforms: `a * b` has basis `a.basis * b.basis` and origin `a * b.origin`. -/
instance : Mul (Transform K) :=
  ⟨fun a b => ⟨a.basis * b.basis, a * b.origin⟩⟩

/-- Inverse of a rigid transform: transposed basis, origin `inv * (-origin)`. -/
def Transform.inverse (t : Transform K) : Transform K :=
  ⟨t.basis.transpose, t.basis.transpose * (-t.origin)⟩

/-- Replace the origin: `t.setOrigin(o)`. -/
def Transform.setOrigin (t : Transform K) (o : Vector3 K) : Transform K :=
  ⟨t.basis, o⟩

end LinearMath

/-! ## Data model -/

/-- Handle of a physics mesh (`Mesh*`); `0` is the null pointer. -/
abbrev Mesh := Nat

/-- Material record; `Material()` is the default-constructed value. -/
structure Material where
  id : Nat
deriving DecidableEq, Repr

/-- The default-constructed material: `Material()`. -/
def Material.default : Material := ⟨0⟩

/-- A sub-body, given by the values its getters return. -/
structure SolidEntity (K : Type) where
  /-- Value of `getMass()`. -/
  getMass : K
  /-- Value of `getVolume()`. -/
  getVolume : K
  /-- Value of `isBuoyant()`. -/
  isBuoyant : Bool
  /-- Value of `getInertia()`: principal moments in the body frame. -/
  getInertia : Vector3 K
  /-- Value of `getCG2OTransform()`. -/
  getCG2OTransform : Transform K
  /-- Value of `getCG2CTransform()`. -/
  getCG2CTransform : Transform K
  /-- Value of `getO2CTransform()`. -/
  getO2CTransform : Transform K
  /-- Value of `getCB()`: centre of buoyancy in the body CG frame. -/
  getCB : Vector3 K
  /-- Value of `getPhysicsMesh()`. -/
  getPhysicsMesh : Mesh
  /-- Value of `getMaterial()`. -/
  getMaterial : Material
deriving DecidableEq, Repr

/-- One entry of `parts`: `CompoundPart`. -/
structure CompoundPart (K : Type) where
  solid : SolidEntity K
  origin : Transform K
  isExternal : Bool
deriving DecidableEq, Repr

/-- The fields of a `Compound` that the modelled methods read or write. -/
structure Compound (K : Type) where
  parts : List (CompoundPart K)
  collisionPartId : List Nat
  mass : K
  volume : K
  Ipri : Vector3 K
  T_CG2O : Transform K
  T_CG2C : Transform K
  T_CG2G : Transform K
  P_CB : Vector3 K
  /-- Flag `computeHydro` (constructor argument `enableHydrodynamicForces`). -/
  computeHydro : Bool
  /-- Value of the compound's own `isBuoyant()`. -/
  buoyant : Bool
  Fb : Vector3 K
  Tb : Vector3 K
  Fds : Vector3 K
  Tds : Vector3 K
  Fdp : Vector3 K
  Tdp : Vector3 K
deriving DecidableEq, Repr

/-- Scalar functions and constants the source takes from its math library, and the
axis search `findInertiaAxis`, none of which is defined in `Compound.cpp`. -/
structure BulletMath (K : Type) where
  btSqrt : K → K
  btAcos : K → K
  btCos : K → K
  M_PI : K
  SIMD_EPSILON : K
  findInertiaAxis : Matrix3 K → K → Vector3 K

section MassProperties

variable {K : Type} [LinearOrderedField K]

/-- Fuzzy zero test: `btFuzzyZero(x)` is `|x| < SIMD_EPSILON`. -/
def btFuzzyZero (bm : BulletMath K) (x : K) : Bool := decide (|x| < bm.SIMD_EPSILON)

/-- The locals of step 1 of `RecalculatePhysicalProperties`. -/
structure MassSums (K : Type) where
  compoundMass : K
  compoundCG : Vector3 K
  compoundVolume : K
  compoundCB : Vector3 K
deriving DecidableEq, Repr

/-- Body of the first loop (lines 135-142). -/
def massStep (a : MassSums K) (p : CompoundPart K) : MassSums K :=
  let compoundMass := a.compoundMass + p.solid.getMass
  let compoundCG := a.compoundCG
    + (p.origin * p.solid.getCG2OTransform.inverse).origin * p.solid.getMass
  if p.solid.isBuoyant then
    { compoundMass := compoundMass
      compoundCG := compoundCG
      compoundVolume := a.compoundVolume + p.solid.getVolume
      compoundCB := a.compoundCB
        + (p.origin * p.solid.getCG2OTransform.inverse * p.solid.getCB) * p.solid.getVolume }
  else
    { compoundMass := compoundMass
      compoundCG := compoundCG
      compoundVolume := a.compoundVolume
      compoundCB := a.compoundCB }

/-- The first loop (lines 126-143), started from zero. -/
def massLoop (parts : List (CompoundPart K)) : MassSums K :=
  parts.foldl massStep ⟨0, 0, 0, 0⟩

/-- Lines 146-147: divide the sums by mass and, when positive, by volume. -/
def massCentres (parts : List (CompoundPart K)) : MassSums K :=
  let a := massLoop parts
  let compoundCG := a.compoundCG / a.compoundMass
  let compoundCB := if a.compoundVolume > 0 then a.compoundCB / a.compoundVolume else a.compoundCB
  { compoundMass := a.compoundMass
    compoundCG := compoundCG
    compoundVolume := a.compoundVolume
    compoundCB := compoundCB }

/-- Body of the second loop (lines 156-171). -/
def inertiaStep (T_CG2O : Transform K) (I : Matrix3 K) (p : CompoundPart K) : Matrix3 K :=
  let solidPriInertia := p.solid.getInertia
  let solidInertia := Matrix3.mk9 solidPriInertia.x 0 0 0 solidPriInertia.y 0 0 0 solidPriInertia.z
  let compToPart := T_CG2O * p.origin * p.solid.getCG2OTransform.inverse
  let solidInertia := compToPart.basis * solidInertia * compToPart.basis.transpose
  let t := compToPart.origin
  let m := p.solid.getMass
  let solidInertia := solidInertia +
    (Matrix3.mk9 (t.y * t.y + t.z * t.z) (-t.x * t.y) (-t.x * t.z)
                 (-t.y * t.x) (t.x * t.x + t.z * t.z) (-t.y * t.z)
                 (-t.z * t.x) (-t.z * t.y) (t.x * t.x + t.y * t.y)).scaled ⟨m, m, m⟩
  I + solidInertia

/-- The transform `T_CG2O` as it stands after line 148: identity basis, origin `-compoundCG`. -/
def originFrame (parts : List (CompoundPart K)) : Transform K :=
  (Transform.getIdentity : Transform K).setOrigin (-(massCentres parts).compoundCG)

/-- The second loop (lines 151-172): the compound inertia matrix `I`. -/
def compoundInertia (parts : List (CompoundPart K)) : Matrix3 K :=
  parts.foldl (inertiaStep (originFrame parts)) (Matrix3.mk9 0 0 0 0 0 0 0 0 0)

/-- The test of lines 178-180: all six off-diagonal entries are fuzzy zero. -/
def isDiagonal (bm : BulletMath K) (I : Matrix3 K) : Bool :=
  btFuzzyZero bm (I.getRow 0).y && btFuzzyZero bm (I.getRow 0).z
    && btFuzzyZero bm (I.getRow 1).x && btFuzzyZero bm (I.getRow 1).z
    && btFuzzyZero bm (I.getRow 2).x && btFuzzyZero bm (I.getRow 2).y

/-- Local `T` of line 183. -/
def traceT (I : Matrix3 K) : K := I.at 0 0 + I.at 1 1 + I.at 2 2

/-- Local `II` of line 184. -/
def minorsII (I : Matrix3 K) : K :=
  I.at 0 0 * I.at 1 1 + I.at 0 0 * I.at 2 2 + I.at 1 1 * I.at 2 2
    - I.at 0 1 * I.at 0 1 - I.at 0 2 * I.at 0 2 - I.at 1 2 * I.at 1 2

/-- Local `U` of line 185. -/
def momentU (bm : BulletMath K) (I : Matrix3 K) : K :=
  bm.btSqrt (traceT I * traceT I - 3 * minorsII I) / 3

/-- Local `theta` of line 186. -/
def momentTheta (bm : BulletMath K) (I : Matrix3 K) : K :=
  bm.btAcos ((-2 * traceT I * traceT I * traceT I + 9 * traceT I * minorsII I
      - 27 * I.determinant)
    / (54 * momentU bm I * momentU bm I * momentU bm I))

/-- Lines 187-190: the vector `(A, B, C)` of principal moments. -/
def principalMoments (bm : BulletMath K) (I : Matrix3 K) : Vector3 K :=
  let T := traceT I
  let U := momentU bm I
  let theta := momentTheta bm I
  let A := T / 3 - 2 * U * bm.btCos (theta / 3)
  let B := T / 3 - 2 * U * bm.btCos (theta / 3 - 2 * bm.M_PI / 3)
  let C := T / 3 - 2 * U * bm.btCos (theta / 3 + 2 * bm.M_PI / 3)
  ⟨A, B, C⟩

/-- Lines 193-201: the matrix `rotMat` whose columns are `axis1`, `axis2`, `axis3`. -/
def principalAxes (bm : BulletMath K) (I : Matrix3 K) : Matrix3 K :=
  let A := (principalMoments bm I).x
  let B := (principalMoments bm I).y
  let axis1 := bm.findInertiaAxis I A
  let axis2 := bm.findInertiaAxis I B
  let axis3 := axis1.cross axis2
  let axis2 := axis3.cross axis1
  Matrix3.mk9 (axis1.get 0) (axis2.get 0) (axis3.get 0)
              (axis1.get 1) (axis2.get 1) (axis3.get 1)
              (axis1.get 2) (axis2.get 2) (axis3.get 2)

/-- `Compound::RecalculatePhysicalProperties` (lines 113-215). The closing call
`ComputeHydrodynamicProxy` writes none of the fields of `Compound K`. -/
def RecalculatePhysicalProperties (bm : BulletMath K) (c : Compound K) : Compound K :=
  let sums := massCentres c.parts
  let T_CG2O := originFrame c.parts
  let I := compoundInertia c.parts
  let compoundPriInertia : Vector3 K := ⟨(I.getRow 0).x, (I.getRow 1).y, (I.getRow 2).z⟩
  let nonDiagonal := !(isDiagonal bm I)
  let compoundPriInertia := if nonDiagonal then principalMoments bm I else compoundPriInertia
  let T_CG2O :=
    if nonDiagonal then (Transform.mk (principalAxes bm I) 0).inverse * T_CG2O else T_CG2O
  { c with
    T_CG2O := T_CG2O
    T_CG2C := T_CG2O
    T_CG2G := T_CG2O
    P_CB := T_CG2O * sums.compoundCB
    mass := sums.compoundMass
    volume := sums.compoundVolume
    Ipri := compoundPriInertia }

/-- `Compound::AddInternalPart` (lines 87-98); `none` is the null pointer. -/
def AddInternalPart (bm : BulletMath K) (c : Compound K) (solid : Option (SolidEntity K))
    (origin : Transform K) : Compound K :=
  match solid with
  | some s =>
    RecalculatePhysicalProperties bm
      { c with parts := c.parts ++ [{ solid := s, origin := origin, isExternal := false }] }
  | none => c

/-- `Compound::AddExternalPart` (lines 100-111); `none` is the null pointer. -/
def AddExternalPart (bm : BulletMath K) (c : Compound K) (solid : Option (SolidEntity K))
    (origin : Transform K) : Compound K :=
  match solid with
  | some s =>
    RecalculatePhysicalProperties bm
      { c with parts := c.parts ++ [{ solid := s, origin := origin, isExternal := true }] }
  | none => c

/-- The frame of a part's centre of gravity in the compound origin frame:
`parts[i].origin * parts[i].solid->getCG2OTransform().inverse()`. -/
def partFrame (p : CompoundPart K) : Transform K :=
  p.origin * p.solid.getCG2OTransform.inverse

/-- Entry `(i, j)` of the term the references give for one part about the point `cg`:
`B * diag(J) * Bᵀ + m * (|t|² * Id - t tᵀ)` with `B` the basis of the part frame, `J` the
part's principal moments, `m` its mass and `t` the part's centre of gravity minus `cg`. -/
def partInertiaEntry (cg : Vector3 K) (p : CompoundPart K) (i j : Fin 3) : K :=
  let B := (partFrame p).basis
  let J := p.solid.getInertia
  let t := (partFrame p).origin - cg
  (B.at i 0 * J.get 0 * B.at j 0 + B.at i 1 * J.get 1 * B.at j 1 + B.at i 2 * J.get 2 * B.at j 2)
    + p.solid.getMass * (t.dot t * (if i = j then 1 else 0) - t.get i * t.get j)

end MassProperties

/-! ## The characteristic cubic -/

section Cubic

variable {K : Type} [LinearOrderedField K]

/-- The characteristic cubic `x³ - T x² + II x - det I`, written with the locals `T` and `II`
of lines 183-184. -/
def charCubic (I : Matrix3 K) (x : K) : K :=
  x ^ 3 - traceT I * x ^ 2 + minorsII I * x - I.determinant

/-- The matrix `I - x * Id`. -/
def shiftDiagonal (I : Matrix3 K) (x : K) : Matrix3 K :=
  Matrix3.mk9 (I.at 0 0 - x) (I.at 0 1) (I.at 0 2)
              (I.at 1 0) (I.at 1 1 - x) (I.at 1 2)
              (I.at 2 0) (I.at 2 1) (I.at 2 2 - x)

end Cubic

/-- The scalar functions over the reals in exact arithmetic: square root, arccosine, cosine
and `π`; the tolerance and the axis search stay parameters. -/
noncomputable def realMath (eps : ℝ) (axis : Matrix3 ℝ → ℝ → Vector3 ℝ) : BulletMath ℝ :=
  { btSqrt := Real.sqrt
    btAcos := Real.arccos
    btCos := Real.cos
    M_PI := Real.pi
    SIMD_EPSILON := eps
    findInertiaAxis := axis }

/-! ## Fluid forces -/

/-- The two switches of `HydrodynamicsSettings` that `ComputeFluidForces` reads. -/
structure HydrodynamicsSettings where
  dampingForces : Bool
  reallisticBuoyancy : Bool
deriving DecidableEq, Repr

/-- Result of `CheckBodyFluidPosition`. -/
inductive BodyFluidPosition where
  | OUTSIDE_FLUID
  | INSIDE_FLUID
  | CROSSING_FLUID_SURFACE
deriving DecidableEq, Repr

/-- The fluid: `liquid->getLiquid()->density` is the only field the compound reads itself. -/
structure Ocean (K : Type) where
  density : K
deriving DecidableEq, Repr

/-- The four drag vectors: linear drag force and torque, quadratic drag force and torque. -/
structure DragForces (K : Type) where
  Fds : Vector3 K
  Tds : Vector3 K
  Fdp : Vector3 K
  Tdp : Vector3 K
deriving DecidableEq, Repr

/-- The six vectors the surface integrator hands back. -/
structure SurfaceForces (K : Type) where
  Fb : Vector3 K
  Tb : Vector3 K
  Fds : Vector3 K
  Tds : Vector3 K
  Fdp : Vector3 K
  Tdp : Vector3 K
deriving DecidableEq, Repr

/-- Modelled from the spec: the collaborators of `ComputeFluidForces` that `Compound.cpp`
calls but does not define (the two force integrators and the drag correction), with the
signatures of the external-interface section: `integrateFullySubmerged(mesh, fluid, cgFrame,
partFrame, linVel, angVel) -> (Flin, Tlin, Fquad, Tquad)`, `integrateSurfaceCrossing(settings,
mesh, fluid, cgFrame, partFrame, linVel, angVel) -> (Fb, Tb, Flin, Tlin, Fquad, Tquad)` and the
drag correction, which reads the body and rewrites its four drag vectors. Also the values the
body's getters return during the call. -/
structure FluidEnv (K : Type) where
  ComputeFluidForcesSubmerged :
    Mesh → Ocean K → Transform K → Transform K → Vector3 K → Vector3 K → DragForces K
  ComputeFluidForcesSurface :
    HydrodynamicsSettings → Mesh → Ocean K → Transform K → Transform K → Vector3 K → Vector3 K
      → SurfaceForces K
  CorrectDampingForces : Compound K → DragForces K
  /-- Value of `CheckBodyFluidPosition(liquid)`. -/
  CheckBodyFluidPosition : Ocean K → BodyFluidPosition
  /-- Value of `getSimulationManager()->getGravity()`. -/
  getGravity : Vector3 K
  /-- Value of `getCGTransform()`. -/
  getCGTransform : Transform K
  /-- Value of `getOTransform()`. -/
  getOTransform : Transform K
  /-- Value of `getLinearVelocity()`. -/
  getLinearVelocity : Vector3 K
  /-- Value of `getAngularVelocity()`. -/
  getAngularVelocity : Vector3 K

section FluidForces

variable {K : Type} [LinearOrderedField K]

/-- Local `T_C_part` of lines 282 and 324. -/
def partMeshFrame (env : FluidEnv K) (p : CompoundPart K) : Transform K :=
  env.getOTransform * p.origin * p.solid.getO2CTransform

/-- Lines 243-248: all six vectors set to zero. -/
def setZeroForces (c : Compound K) : Compound K :=
  { c with Fb := 0, Tb := 0, Fds := 0, Tds := 0, Fdp := 0, Tdp := 0 }

/-- Lines 264-267 and 304-307: the four drag vectors set to zero. -/
def setZeroDrag (c : Compound K) : Compound K :=
  { c with Fds := 0, Tds := 0, Fdp := 0, Tdp := 0 }

/-- Body of the loop of lines 279-288. -/
def submergedStep (env : FluidEnv K) (liquid : Ocean K) (c : Compound K)
    (p : CompoundPart K) : Compound K :=
  if p.isExternal then
    let T_C_part := partMeshFrame env p
    let r := env.ComputeFluidForcesSubmerged p.solid.getPhysicsMesh liquid env.getCGTransform
      T_C_part env.getLinearVelocity env.getAngularVelocity
    { c with Fds := c.Fds + r.Fds, Tds := c.Tds + r.Tds, Fdp := c.Fdp + r.Fdp,
             Tdp := c.Tdp + r.Tdp }
  else c

/-- The INSIDE branch, lines 254-289. -/
def insideFluid (env : FluidEnv K) (settings : HydrodynamicsSettings) (liquid : Ocean K)
    (c : Compound K) : Compound K :=
  let c :=
    if c.buoyant then
      let Fb := (-c.volume * liquid.density) * env.getGravity
      let Tb := (env.getCGTransform * c.P_CB - env.getCGTransform.origin).cross Fb
      { c with Fb := Fb, Tb := Tb }
    else c
  if settings.dampingForces then
    c.parts.foldl (submergedStep env liquid) (setZeroDrag c)
  else c

/-- Lines 325-326: the per-part settings `pSettings`. -/
def partSettings (settings : HydrodynamicsSettings) (p : CompoundPart K) :
    HydrodynamicsSettings :=
  { settings with reallisticBuoyancy := settings.reallisticBuoyancy && p.solid.isBuoyant }

/-- Body of the loop of lines 322-345. -/
def surfaceStep (env : FluidEnv K) (settings : HydrodynamicsSettings) (liquid : Ocean K)
    (c : Compound K) (p : CompoundPart K) : Compound K :=
  let T_C_part := partMeshFrame env p
  let pSettings := partSettings settings p
  if p.isExternal then
    let r := env.ComputeFluidForcesSurface pSettings p.solid.getPhysicsMesh liquid
      env.getCGTransform T_C_part env.getLinearVelocity env.getAngularVelocity
    { c with Fb := c.Fb + r.Fb, Tb := c.Tb + r.Tb, Fds := c.Fds + r.Fds, Tds := c.Tds + r.Tds,
             Fdp := c.Fdp + r.Fdp, Tdp := c.Tdp + r.Tdp }
  else if pSettings.reallisticBuoyancy then
    let pSettings := { pSettings with dampingForces := false }
    let r := env.ComputeFluidForcesSurface pSettings p.solid.getPhysicsMesh liquid
      env.getCGTransform T_C_part env.getLinearVelocity env.getAngularVelocity
    { c with Fb := c.Fb + r.Fb, Tb := c.Tb + r.Tb }
  else c

/-- The CROSSING branch, lines 293-346. -/
def crossingFluidSurface (env : FluidEnv K) (settings : HydrodynamicsSettings)
    (liquid : Ocean K) (c : Compound K) : Compound K :=
  if settings.reallisticBuoyancy || settings.dampingForces then
    let c := if settings.reallisticBuoyancy then { c with Fb := 0, Tb := 0 } else c
    let c := if settings.dampingForces then setZeroDrag c else c
    c.parts.foldl (surfaceStep env settings liquid) c
  else c

/-- Lines 252-347: the forces as assembled before the drag correction of lines 349-350,
for a body that is not outside the fluid. -/
def assembleFluidForces (env : FluidEnv K) (settings : HydrodynamicsSettings)
    (liquid : Ocean K) (c : Compound K) : Compound K :=
  if env.CheckBodyFluidPosition liquid = BodyFluidPosition.INSIDE_FLUID then
    insideFluid env settings liquid c
  else
    crossingFluidSurface env settings liquid c

/-- Line 350: the drag correction writes the four drag vectors back. -/
def applyCorrectDampingForces (env : FluidEnv K) (c : Compound K) : Compound K :=
  let d := env.CorrectDampingForces c
  { c with Fds := d.Fds, Tds := d.Tds, Fdp := d.Fdp, Tdp := d.Tdp }

/-- `Compound::ComputeFluidForces` (lines 234-351). -/
def ComputeFluidForces (env : FluidEnv K) (settings : HydrodynamicsSettings) (liquid : Ocean K)
    (c : Compound K) : Compound K :=
  if !c.computeHydro then c
  else if env.CheckBodyFluidPosition liquid = BodyFluidPosition.OUTSIDE_FLUID then
    setZeroForces c
  else
    let c := assembleFluidForces env settings liquid c
    if settings.dampingForces then applyCorrectDampingForces env c else c

/-- The settings with which the loop of lines 322-345 invokes the surface integrator for a
part, `none` when it does not invoke it. -/
def surfaceCall (settings : HydrodynamicsSettings) (p : CompoundPart K) :
    Option HydrodynamicsSettings :=
  let pSettings := partSettings settings p
  if p.isExternal then some pSettings
  else if pSettings.reallisticBuoyancy then some { pSettings with dampingForces := false }
  else none

/-- Whether the loop of lines 322-345 reaches one of its two integrator calls for a part:
the part is external (line 328) or its `pSettings.reallisticBuoyancy` is set (line 338). -/
def invoked (settings : HydrodynamicsSettings) (p : CompoundPart K) : Bool :=
  p.isExternal || (partSettings settings p).reallisticBuoyancy

/-- The settings argument of the integrator call the loop reaches for a part: `pSettings`
for an external part (line 330), `pSettings` with `dampingForces = false` otherwise
(lines 340-341). -/
def callSettings (settings : HydrodynamicsSettings) (p : CompoundPart K) :
    HydrodynamicsSettings :=
  if p.isExternal then partSettings settings p
  else { partSettings settings p with dampingForces := false }

/-- The surface integrator's result for a part under given settings, with the other
arguments as the loop passes them. -/
def surfaceResult (env : FluidEnv K) (liquid : Ocean K) (ps : HydrodynamicsSettings)
    (p : CompoundPart K) : SurfaceForces K :=
  env.ComputeFluidForcesSurface ps p.solid.getPhysicsMesh liquid env.getCGTransform
    (partMeshFrame env p) env.getLinearVelocity env.getAngularVelocity

/-- The submerged integrator's result for a part, with the arguments as the loop of
lines 279-288 passes them. -/
def submergedResult (env : FluidEnv K) (liquid : Ocean K) (p : CompoundPart K) : DragForces K :=
  env.ComputeFluidForcesSubmerged p.solid.getPhysicsMesh liquid env.getCGTransform
    (partMeshFrame env p) env.getLinearVelocity env.getAngularVelocity

end FluidForces

/-! ## Attaching part lists, and the reference behaviour -/

section Attach

variable {K : Type} [LinearOrderedField K]

/-- A basis `R` is orthonormal when `Rᵀ * R` is the identity. -/
def Matrix3.orthonormal (R : Matrix3 K) : Prop := R.transpose * R = Matrix3.identity

instance (R : Matrix3 K) : Decidable (Matrix3.orthonormal R) :=
  inferInstanceAs (Decidable (R.transpose * R = Matrix3.identity))

/-- Attach one part record: `AddExternalPart` when its flag is set, `AddInternalPart`
otherwise. -/
def attach (bm : BulletMath K) (c : Compound K) (p : CompoundPart K) : Compound K :=
  if p.isExternal then AddExternalPart bm c (some p.solid) p.origin
  else AddInternalPart bm c (some p.solid) p.origin

/-- Attach the parts of a list one at a time, in list order. -/
def attachAll (bm : BulletMath K) (c : Compound K) (l : List (CompoundPart K)) : Compound K :=
  l.foldl (attach bm) c

/-- The error of the reference behaviour for a body without positive mass. -/
inductive DegenerateBodyError where
  | nonPositiveMass
deriving DecidableEq, Repr

/-- The reference behaviour of the recalculation, in the words of the specification: it fails
with `DegenerateBodyError` if the total mass is `≤ 0` and otherwise yields the recalculated
mass properties. Stated for comparison with `RecalculatePhysicalProperties`. -/
def specRecalculate (bm : BulletMath K) (c : Compound K) :
    Except DegenerateBodyError (Compound K) :=
  if (c.parts.map (fun p => p.solid.getMass)).sum ≤ 0 then
    Except.error DegenerateBodyError.nonPositiveMass
  else
    Except.ok (RecalculatePhysicalProperties bm c)

/-- The compound with its six force and torque vectors replaced. -/
def withForces (c : Compound K) (a : SurfaceForces K) : Compound K :=
  { c with Fb := a.Fb, Tb := a.Tb, Fds := a.Fds, Tds := a.Tds, Fdp := a.Fdp, Tdp := a.Tdp }

/-- The six force and torque vectors of a compound. -/
def forcesOf (c : Compound K) : SurfaceForces K :=
  { Fb := c.Fb, Tb := c.Tb, Fds := c.Fds, Tds := c.Tds, Fdp := c.Fdp, Tdp := c.Tdp }

end Attach

/-- A reading of the surface integrator's contract: it returns a zero buoyancy pair when it
is given `reallisticBuoyancy = false` and zero drag pairs when it is given
`dampingForces = false`. -/
def zeroWhenDisabled {K : Type} [LinearOrderedField K] (env : FluidEnv K) : Prop :=
  ∀ (ps : HydrodynamicsSettings) (mesh : Mesh) (l : Ocean K) (t1 t2 : Transform K)
    (v w : Vector3 K),
    (ps.reallisticBuoyancy = false →
      (env.ComputeFluidForcesSurface ps mesh l t1 t2 v w).Fb = 0
      ∧ (env.ComputeFluidForcesSurface ps mesh l t1 t2 v w).Tb = 0)
    ∧ (ps.dampingForces = false →
      (env.ComputeFluidForcesSurface ps mesh l t1 t2 v w).Fds = 0
      ∧ (env.ComputeFluidForcesSurface ps mesh l t1 t2 v w).Tds = 0
      ∧ (env.ComputeFluidForcesSurface ps mesh l t1 t2 v w).Fdp = 0
      ∧ (env.ComputeFluidForcesSurface ps mesh l t1 t2 v w).Tdp = 0)

/-! ## Principal axes -/

section Axes

variable {K : Type} [LinearOrderedField K]

/-- Lines 197-201: the matrix `rotMat` built from the two vectors the axis search returned;
its columns are `axis1`, `(axis1 × axis2) × axis1` and `axis1 × axis2`. -/
def axesMatrix (axis1 axis2 : Vector3 K) : Matrix3 K :=
  let axis3 := axis1.cross axis2
  let axis2 := axis3.cross axis1
  Matrix3.mk9 (axis1.get 0) (axis2.get 0) (axis3.get 0)
              (axis1.get 1) (axis2.get 1) (axis3.get 1)
              (axis1.get 2) (axis2.get 2) (axis3.get 2)

/-- The quadratic form `vᵀ I v`. -/
def quadForm (I : Matrix3 K) (v : Vector3 K) : K := v.dot (I * v)

/-- A body of mass 1 with principal moments `(2, 3, 2)`, placed at the origin and turned
about `z` by the angle with cosine `3/5` and sine `4/5`. -/
def tiltedPart : CompoundPart K :=
  { solid :=
      { getMass := 1
        getVolume := 0
        isBuoyant := false
        getInertia := ⟨2, 3, 2⟩
        getCG2OTransform := Transform.getIdentity
        getCG2CTransform := Transform.getIdentity
        getO2CTransform := Transform.getIdentity
        getCB := 0
        getPhysicsMesh := 3
        getMaterial := ⟨3⟩ }
    origin := ⟨Matrix3.mk9 (3 / 5) (-4 / 5) 0 (4 / 5) (3 / 5) 0 0 0 1, 0⟩
    isExternal := true }

/-- A compound without parts, as the constructor sets it up. -/
def blankCompound : Compound K :=
  { parts := []
    collisionPartId := []
    mass := 0
    volume := 0
    Ipri := 0
    T_CG2O := Transform.getIdentity
    T_CG2C := Transform.getIdentity
    T_CG2G := Transform.getIdentity
    P_CB := 0
    computeHydro := true
    buoyant := true
    Fb := 0
    Tb := 0
    Fds := 0
    Tds := 0
    Fdp := 0
    Tdp := 0 }

end Axes

/-- The tilted part alone in a compound, before recalculation. -/
def tiltedBody {K : Type} [LinearOrderedField K] : Compound K :=
  { blankCompound with parts := [tiltedPart] }

/-! ## Lookups and the collision shape -/

section Lookups

variable {K : Type} [LinearOrderedField K]

/-- `Compound::getMaterial` (lines 36-42). -/
def getMaterial (c : Compound K) (partId : Nat) : Material :=
  if h : partId < c.parts.length then (c.parts.get ⟨partId, h⟩).solid.getMaterial
  else Material.default

/-- `Compound::getPartId` (lines 44-50). -/
def getPartId (c : Compound K) (collisionShapeId : Nat) : Nat :=
  if h : collisionShapeId < c.collisionPartId.length then
    c.collisionPartId.get ⟨collisionShapeId, h⟩
  else 0

/-- One child of the compound collision shape: the transform `childTrans` and the solid whose
own collision shape `parts[i].solid->BuildCollisionShape()` is added under it. -/
structure CollisionChild (K : Type) where
  childTrans : Transform K
  solid : SolidEntity K
deriving DecidableEq, Repr

/-- The locals of the loop of lines 221-230: the children of `colShape` and the member
`collisionPartId`. -/
structure CollisionBuild (K : Type) where
  colShape : List (CollisionChild K)
  collisionPartId : List Nat
deriving DecidableEq, Repr

/-- The loop of lines 221-230 from index `i` on, over the parts not yet visited. -/
def collisionLoop : List (CompoundPart K) → Nat → CollisionBuild K → CollisionBuild K
  | [], _, b => b
  | p :: rest, i, b =>
    if p.isExternal then
      let childTrans := p.origin * p.solid.getCG2OTransform.inverse * p.solid.getCG2CTransform
      collisionLoop rest (i + 1)
        { colShape := b.colShape ++ [{ childTrans := childTrans, solid := p.solid }]
          collisionPartId := b.collisionPartId ++ [i] }
    else collisionLoop rest (i + 1) b

/-- `Compound::BuildCollisionShape` (lines 217-232): the compound afterwards and the children
of the shape it returns. -/
def BuildCollisionShape (c : Compound K) : Compound K × List (CollisionChild K) :=
  let b := collisionLoop c.parts 0 { colShape := [], collisionPartId := c.collisionPartId }
  ({ c with collisionPartId := b.collisionPartId }, b.colShape)

/-- The part indices of the external parts of a list whose first part has index `i`, in
ascending order. -/
def externalIndicesFrom : List (CompoundPart K) → Nat → List Nat
  | [], _ => []
  | p :: rest, i =>
    if p.isExternal then i :: externalIndicesFrom rest (i + 1)
    else externalIndicesFrom rest (i + 1)

/-- The constructor (lines 17-27): mass, volume and `Ipri` zero, then `AddExternalPart` of the
first part. The members the base class sets up are taken as zero vectors, identity frames and
an empty collision map. -/
def newCompound (bm : BulletMath K) (firstExternalPart : Option (SolidEntity K))
    (origin : Transform K) (enableHydrodynamicForces : Bool) : Compound K :=
  AddExternalPart bm { blankCompound with computeHydro := enableHydrodynamicForces }
    firstExternalPart origin

/-- The operations on a compound. -/
inductive Operation (K : Type) where
  | addInternalPart (solid : Option (SolidEntity K)) (origin : Transform K)
  | addExternalPart (solid : Option (SolidEntity K)) (origin : Transform K)
  | recalculatePhysicalProperties
  | buildCollisionShape
  | computeFluidForces (env : FluidEnv K) (settings : HydrodynamicsSettings) (liquid : Ocean K)

/-- The compound after one operation. -/
def Operation.apply (bm : BulletMath K) (c : Compound K) : Operation K → Compound K
  | Operation.addInternalPart solid origin => AddInternalPart bm c solid origin
  | Operation.addExternalPart solid origin => AddExternalPart bm c solid origin
  | Operation.recalculatePhysicalProperties => RecalculatePhysicalProperties bm c
  | Operation.buildCollisionShape => (BuildCollisionShape c).1
  | Operation.computeFluidForces env settings liquid => ComputeFluidForces env settings liquid c

/-- The compound after a sequence of operations. -/
def runOperations (bm : BulletMath K) (c : Compound K) (ops : List (Operation K)) :
    Compound K :=
  ops.foldl (Operation.apply bm) c

end Lookups

/-- Whether an operation is `BuildCollisionShape`. -/
def Operation.isBuild {K : Type} : Operation K → Bool
  | Operation.buildCollisionShape => true
  | _ => false

/-- A finite binary floating-point number: the value `m * 2 ^ e`. -/
structure Dyadic where
  m : Int
  e : Int
deriving DecidableEq, Repr

/-- The rational value of a finite binary floating-point number. -/
def Dyadic.toRat (d : Dyadic) : ℚ := d.m * (2 : ℚ) ^ d.e

/-- The number of low bits to drop from `n` until it is below `2 ^ p`. The first argument
bounds the search; it is called with `n` itself, which is always enough. -/
def excessBits (p : Nat) : Nat → Nat → Nat
  | 0, _ => 0
  | fuel + 1, n => if n < 2 ^ p then 0 else excessBits p fuel (n / 2) + 1

/-- Dropping trailing zero bits of the mantissa `m`, so that it is odd; the first argument
bounds the search and is called with `|m|`. -/
def stripZeroBits : Nat → Int → Int → Dyadic
  | 0, m, e => ⟨m, e⟩
  | fuel + 1, m, e => if m % 2 = 0 then stripZeroBits fuel (m / 2) (e + 1) else ⟨m, e⟩

/-- The normal form of a finite number: zero is `0 * 2 ^ 0`, and otherwise the mantissa is
odd. Two numbers in normal form are equal exactly when their values are. -/
def Dyadic.normalize (d : Dyadic) : Dyadic :=
  if d.m = 0 then ⟨0, 0⟩ else stripZeroBits d.m.natAbs d.m d.e

/-- Rounding to `p` significant bits, to nearest, ties to even (the default rounding of
IEEE 754), in normal form. The exponent is not bounded: overflow and subnormal numbers are
outside the model. -/
def Dyadic.roundTo (p : Nat) (d : Dyadic) : Dyadic :=
  let n := d.m.natAbs
  let s := excessBits p n n
  if s = 0 then d.normalize
  else
    let q := n / 2 ^ s
    let r := n % 2 ^ s
    let half := 2 ^ (s - 1)
    let up := if r < half then 0 else if half < r then 1 else q % 2
    Dyadic.normalize ⟨Int.sign d.m * ((q + up : Nat) : Int), d.e + s⟩

/-- The exact sum of two finite numbers. -/
def Dyadic.addExact (a b : Dyadic) : Dyadic :=
  let e := min a.e b.e
  ⟨a.m * 2 ^ (a.e - e).toNat + b.m * 2 ^ (b.e - e).toNat, e⟩

/-- The exact negative. -/
def Dyadic.negExact (a : Dyadic) : Dyadic := ⟨-a.m, a.e⟩

/-- The exact product. -/
def Dyadic.mulExact (a b : Dyadic) : Dyadic := ⟨a.m * b.m, a.e + b.e⟩

/-- Whether `a < b`. -/
def Dyadic.less (a b : Dyadic) : Bool := decide ((a.addExact b.negExact).m < 0)

/-- The absolute value. -/
def Dyadic.abs (a : Dyadic) : Dyadic := ⟨(a.m.natAbs : Int), a.e⟩

/-- The result of an operation that need not be a finite number. -/
inductive ScalarResult where
  | finite (d : Dyadic)
  | infinite
  | nan
deriving DecidableEq, Repr

/-- Floating-point addition: the exact sum, rounded. -/
def flAdd (p : Nat) (a b : Dyadic) : Dyadic := (a.addExact b).roundTo p

/-- Floating-point subtraction: the exact difference, rounded. -/
def flSub (p : Nat) (a b : Dyadic) : Dyadic := (a.addExact b.negExact).roundTo p

/-- Floating-point multiplication: the exact product, rounded. -/
def flMul (p : Nat) (a b : Dyadic) : Dyadic := (a.mulExact b).roundTo p

/-- Floating-point division: `0 / 0` is NaN, `x / 0` an infinity, and otherwise the exact
quotient, rounded. The quotient is cut after at least `p + 2` bits and a last bit records
whether anything was cut off, which rounds like the exact quotient. -/
def flDiv (p : Nat) (a b : Dyadic) : ScalarResult :=
  if b.m = 0 then (if a.m = 0 then ScalarResult.nan else ScalarResult.infinite)
  else if a.m = 0 then ScalarResult.finite ⟨0, 0⟩
  else
    let k := p + 2 + excessBits 0 b.m.natAbs b.m.natAbs
    let N := a.m.natAbs * 2 ^ k
    let q := N / b.m.natAbs
    let sticky := if N % b.m.natAbs = 0 then 0 else 1
    ScalarResult.finite
      (Dyadic.roundTo p
        ⟨Int.sign a.m * Int.sign b.m * ((2 * q + sticky : Nat) : Int), a.e - b.e - k - 1⟩)

/-- The largest `s` of the form `acc + (bits below 2 ^ b)` with `s * s ≤ n`. -/
def natSqrtBits : Nat → Nat → Nat → Nat
  | 0, _, acc => acc
  | b + 1, n, acc =>
    if (acc + 2 ^ b) * (acc + 2 ^ b) ≤ n then natSqrtBits b n (acc + 2 ^ b)
    else natSqrtBits b n acc

/-- Floating-point square root: NaN for a negative number, and otherwise the exact root,
rounded (cut after at least `p + 2` bits, with a last bit for what was cut off). -/
def flSqrt (p : Nat) (a : Dyadic) : ScalarResult :=
  if a.m < 0 then ScalarResult.nan
  else if a.m = 0 then ScalarResult.finite ⟨0, 0⟩
  else
    let k := 2 * (p + 1) + (a.e % 2).toNat
    let N := a.m.natAbs * 2 ^ k
    let s := natSqrtBits (excessBits 0 N N / 2 + 1) N 0
    let sticky := if s * s = N then 0 else 1
    ScalarResult.finite (Dyadic.roundTo p ⟨((2 * s + sticky : Nat) : Int), (a.e - k) / 2 - 1⟩)

/-- The number of significant bits of `Scalar`: Stonefish builds Bullet in double precision,
so `Scalar` is `double` with 53 significant bits. -/
def scalarBits : Nat := 53

/-- `SIMD_EPSILON` in double precision: `DBL_EPSILON`, that is `2 ^ (-52)`. -/
def SIMD_EPSILON64 : Dyadic := ⟨1, -52⟩

/-- `btFuzzyZero(x)` in double precision: `btFabs(x) < SIMD_EPSILON`. -/
def btFuzzyZero64 (x : Dyadic) : Bool := x.abs.less SIMD_EPSILON64

/-- The test of lines 178-180 in double precision. -/
def isDiagonal64 (I : Matrix3 Dyadic) : Bool :=
  btFuzzyZero64 (I.getRow 0).y && btFuzzyZero64 (I.getRow 0).z
    && btFuzzyZero64 (I.getRow 1).x && btFuzzyZero64 (I.getRow 1).z
    && btFuzzyZero64 (I.getRow 2).x && btFuzzyZero64 (I.getRow 2).y

/-- Local `T` of line 183 in double precision: two rounded additions. -/
def traceT64 (I : Matrix3 Dyadic) : Dyadic :=
  flAdd scalarBits (flAdd scalarBits (I.at 0 0) (I.at 1 1)) (I.at 2 2)

/-- Local `II` of line 184 in double precision: every product and every sum or difference,
taken from left to right, is rounded. -/
def minorsII64 (I : Matrix3 Dyadic) : Dyadic :=
  flSub scalarBits
    (flSub scalarBits
      (flSub scalarBits
        (flAdd scalarBits
          (flAdd scalarBits (flMul scalarBits (I.at 0 0) (I.at 1 1))
            (flMul scalarBits (I.at 0 0) (I.at 2 2)))
          (flMul scalarBits (I.at 1 1) (I.at 2 2)))
        (flMul scalarBits (I.at 0 1) (I.at 0 1)))
      (flMul scalarBits (I.at 0 2) (I.at 0 2)))
    (flMul scalarBits (I.at 1 2) (I.at 1 2))

/-- The argument `T*T-Scalar(3.)*II` of `btSqrt` in line 185, in double precision. -/
def radicand64 (I : Matrix3 Dyadic) : Dyadic :=
  flSub scalarBits (flMul scalarBits (traceT64 I) (traceT64 I))
    (flMul scalarBits ⟨3, 0⟩ (minorsII64 I))

/-- Local `U` of line 185 in double precision: the rounded square root, divided by 3. -/
def momentU64 (I : Matrix3 Dyadic) : ScalarResult :=
  match flSqrt scalarBits (radicand64 I) with
  | ScalarResult.finite r => flDiv scalarBits r ⟨3, 0⟩
  | ScalarResult.infinite => ScalarResult.infinite
  | ScalarResult.nan => ScalarResult.nan

/-- `I.determinant()` in double precision: the triple product of the rows,
`r0.x * (r1.y * r2.z - r1.z * r2.y) + r0.y * (r1.z * r2.x - r1.x * r2.z)
  + r0.z * (r1.x * r2.y - r1.y * r2.x)`, every operation rounded. -/
def determinant64 (I : Matrix3 Dyadic) : Dyadic :=
  flAdd scalarBits
    (flAdd scalarBits
      (flMul scalarBits I.r0.x
        (flSub scalarBits (flMul scalarBits I.r1.y I.r2.z) (flMul scalarBits I.r1.z I.r2.y)))
      (flMul scalarBits I.r0.y
        (flSub scalarBits (flMul scalarBits I.r1.z I.r2.x) (flMul scalarBits I.r1.x I.r2.z))))
    (flMul scalarBits I.r0.z
      (flSub scalarBits (flMul scalarBits I.r1.x I.r2.y) (flMul scalarBits I.r1.y I.r2.x)))

/-- The dividend `-Scalar(2.)*T*T*T + Scalar(9.)*T*II - Scalar(27.)*I.determinant()` of
line 186 in double precision. -/
def numerator64 (I : Matrix3 Dyadic) : Dyadic :=
  flSub scalarBits
    (flAdd scalarBits
      (flMul scalarBits (flMul scalarBits (flMul scalarBits ⟨-2, 0⟩ (traceT64 I)) (traceT64 I))
        (traceT64 I))
      (flMul scalarBits (flMul scalarBits ⟨9, 0⟩ (traceT64 I)) (minorsII64 I)))
    (flMul scalarBits ⟨27, 0⟩ (determinant64 I))

/-- The divisor `Scalar(54.)*U*U*U` of line 186 in double precision. -/
def divisor64 (U : Dyadic) : Dyadic :=
  flMul scalarBits (flMul scalarBits (flMul scalarBits ⟨54, 0⟩ U) U) U

/-- The argument of `btAcos` in line 186 in double precision; NaN when `U` is NaN. -/
def acosArgument64 (I : Matrix3 Dyadic) : ScalarResult :=
  match momentU64 I with
  | ScalarResult.finite U => flDiv scalarBits (numerator64 I) (divisor64 U)
  | _ => ScalarResult.nan

/-! ## Sample data -/

section Samples

/-- Sample scalar functions over the rationals; the trigonometric ones are placeholders that
the diagonal branch never calls. -/
def sampleMath : BulletMath ℚ :=
  { btSqrt := fun x => x
    btAcos := fun x => x
    btCos := fun x => x
    M_PI := 3
    SIMD_EPSILON := 1 / 1000000
    findInertiaAxis := fun _ _ => ⟨1, 0, 0⟩ }

/-- Pure translation to the point `(x, y, z)`. -/
def translation (x y z : ℚ) : Transform ℚ := ⟨Matrix3.identity, ⟨x, y, z⟩⟩

/-- The state the constructor sets up before its first `AddExternalPart`. -/
def emptyCompound : Compound ℚ :=
  { parts := []
    collisionPartId := []
    mass := 0
    volume := 0
    Ipri := 0
    T_CG2O := Transform.getIdentity
    T_CG2C := Transform.getIdentity
    T_CG2G := Transform.getIdentity
    P_CB := 0
    computeHydro := true
    buoyant := true
    Fb := 0
    Tb := 0
    Fds := 0
    Tds := 0
    Fdp := 0
    Tdp := 0 }

/-- External cylinder: mass 10, buoyant, volume 0.01. -/
def cylinder : SolidEntity ℚ :=
  { getMass := 10
    getVolume := 1 / 100
    isBuoyant := true
    getInertia := ⟨1, 1, 2⟩
    getCG2OTransform := Transform.getIdentity
    getCG2CTransform := Transform.getIdentity
    getO2CTransform := Transform.getIdentity
    getCB := ⟨0, 0, 1 / 10⟩
    getPhysicsMesh := 1
    getMaterial := ⟨1⟩ }

/-- Internal battery pack: mass 5, not buoyant. -/
def batteryPack : SolidEntity ℚ :=
  { getMass := 5
    getVolume := 1 / 500
    isBuoyant := false
    getInertia := ⟨1, 1, 1⟩
    getCG2OTransform := Transform.getIdentity
    getCG2CTransform := Transform.getIdentity
    getO2CTransform := Transform.getIdentity
    getCB := 0
    getPhysicsMesh := 2
    getMaterial := ⟨2⟩ }

/-- The cylinder attached as external part at the origin. -/
def onePart : Compound ℚ :=
  AddExternalPart sampleMath emptyCompound (some cylinder) Transform.getIdentity

/-- The cylinder and, at `(0, 0, -3)`, the battery pack as internal part. -/
def twoPart : Compound ℚ :=
  AddInternalPart sampleMath onePart (some batteryPack) (translation 0 0 (-3))

/-- Unit-mass point part placed at `(x, 0, 0)`. -/
def pointPart (x : ℚ) : CompoundPart ℚ :=
  { solid :=
      { getMass := 1
        getVolume := 0
        isBuoyant := false
        getInertia := 0
        getCG2OTransform := Transform.getIdentity
        getCG2CTransform := Transform.getIdentity
        getO2CTransform := Transform.getIdentity
        getCB := 0
        getPhysicsMesh := 0
        getMaterial := Material.default }
    origin := translation x 0 0
    isExternal := true }

/-- Two unit-mass point parts placed symmetrically at `(2, 0, 0)` and `(-2, 0, 0)`. -/
def symmetricPair : List (CompoundPart ℚ) := [pointPart 2, pointPart (-2)]

/-- Water of density 1000. -/
def water : Ocean ℚ := ⟨1000⟩

/-- Sample collaborators: the submerged integrator reports a drag along `x` equal to the mesh
handle; the surface integrator reports a buoyancy along `-z` equal to the mesh handle when
`reallisticBuoyancy` is set and the same drag when `dampingForces` is set; the drag correction
halves the linear drag force. The fluid position is the argument. -/
def sampleEnv (bf : BodyFluidPosition) : FluidEnv ℚ :=
  { ComputeFluidForcesSubmerged := fun mesh _ _ _ _ _ =>
      ⟨⟨mesh, 0, 0⟩, 0, ⟨2 * mesh, 0, 0⟩, 0⟩
    ComputeFluidForcesSurface := fun s mesh _ _ _ _ _ =>
      { Fb := if s.reallisticBuoyancy then ⟨0, 0, -mesh⟩ else 0
        Tb := 0
        Fds := if s.dampingForces then ⟨mesh, 0, 0⟩ else 0
        Tds := 0
        Fdp := if s.dampingForces then ⟨2 * mesh, 0, 0⟩ else 0
        Tdp := 0 }
    CorrectDampingForces := fun c => ⟨c.Fds * (1 / 2 : ℚ), c.Tds, c.Fdp, c.Tdp⟩
    CheckBodyFluidPosition := fun _ => bf
    getGravity := ⟨0, 0, 981 / 100⟩
    getCGTransform := Transform.getIdentity
    getOTransform := Transform.getIdentity
    getLinearVelocity := 0
    getAngularVelocity := 0 }

/-- The two-part sample with force vectors left over from an earlier call. -/
def loadedCompound : Compound ℚ :=
  { twoPart with
    Fb := ⟨0, 0, -98⟩
    Tb := ⟨1, 0, 0⟩
    Fds := ⟨3, 0, 0⟩
    Tds := ⟨0, 1, 0⟩
    Fdp := ⟨5, 0, 0⟩
    Tdp := ⟨0, 0, 1⟩ }

/-- Collaborators whose surface integrator reports a buoyancy along `-z` equal to the mesh
handle whatever the settings it is given; the body is crossing the surface. -/
def leakyEnv : FluidEnv ℚ :=
  { sampleEnv BodyFluidPosition.CROSSING_FLUID_SURFACE with
    ComputeFluidForcesSurface := fun _ mesh _ _ _ _ _ =>
      { Fb := ⟨0, 0, -mesh⟩, Tb := 0, Fds := 0, Tds := 0, Fdp := 0, Tdp := 0 } }

/-- A compound of one external part that is not buoyancy-eligible. -/
def shellCompound : Compound ℚ :=
  AddExternalPart sampleMath emptyCompound (some batteryPack) Transform.getIdentity

/-- The symmetric pair of point parts as a compound, before recalculation. -/
def pairCompound : Compound ℚ := { emptyCompound with parts := symmetricPair }

/-- The cylinder and the battery pack both placed at the origin with identity rotation,
before recalculation. -/
def stackedCompound : Compound ℚ :=
  { emptyCompound with
    parts := [{ solid := cylinder, origin := Transform.getIdentity, isExternal := true },
              { solid := batteryPack, origin := Transform.getIdentity, isExternal := false }] }

/-- The loaded two-part sample with hydrodynamics disabled. -/
def idleCompound : Compound ℚ := { loadedCompound with computeHydro := false }

/-- A part without mass, placed at the origin. -/
def masslessPart : CompoundPart ℚ :=
  { solid := { cylinder with getMass := 0 }
    origin := Transform.getIdentity
    isExternal := true }

/-- The state reached by attaching the massless part to the empty compound, before the
recalculation that the attach runs. -/
def masslessCompound : Compound ℚ := { emptyCompound with parts := [masslessPart] }

/-- The cylinder as external part at the origin. -/
def samplePartA : CompoundPart ℚ :=
  { solid := cylinder, origin := Transform.getIdentity, isExternal := true }

/-- The battery pack as internal part at `(0, 0, -3)`. -/
def samplePartB : CompoundPart ℚ :=
  { solid := batteryPack, origin := translation 0 0 (-3), isExternal := false }

/-- The two-part sample with a second cylinder attached as external part at `(0, 0, 2)`:
external, internal, external. -/
def threePart : Compound ℚ :=
  AddExternalPart sampleMath twoPart (some cylinder) (translation 0 0 2)

/-- A compound as the constructor leaves it, with the cylinder as first external part. -/
def freshCompound : Compound ℚ :=
  newCompound sampleMath (some cylinder) Transform.getIdentity true

/-- Two attach operations: the battery pack as internal part, a cylinder as external part. -/
def sampleOps : List (Operation ℚ) :=
  [Operation.addInternalPart (some batteryPack) (translation 0 0 (-3)),
    Operation.addExternalPart (some cylinder) (translation 0 0 2)]

/-- A part of mass `1/2` with principal moments `(1/2 - 2⁻³¹, 1/2 - 2⁻³¹, 1/2 - 2⁻³⁰)`, not
turned, with its centre of gravity at `(s * 2⁻¹⁵, -s * 2⁻¹⁵, 0)`. -/
def nearDiagonalPart (s : ℚ) : CompoundPart ℚ :=
  { solid :=
      { getMass := 1 / 2
        getVolume := 0
        isBuoyant := false
        getInertia := ⟨1 / 2 - 1 / 2 ^ 31, 1 / 2 - 1 / 2 ^ 31, 1 / 2 - 1 / 2 ^ 30⟩
        getCG2OTransform := Transform.getIdentity
        getCG2CTransform := Transform.getIdentity
        getO2CTransform := Transform.getIdentity
        getCB := 0
        getPhysicsMesh := 0
        getMaterial := Material.default }
    origin := translation (s / 2 ^ 15) (-s / 2 ^ 15) 0
    isExternal := true }

/-- Two such parts placed opposite each other. Every number in this part list, and every
intermediate value of the two loops of lines 130-172 on it, is a binary fraction of at most
31 significant bits, so the double-precision loops compute the entries of `I` without
rounding. -/
def nearDiagonalParts : List (CompoundPart ℚ) := [nearDiagonalPart 1, nearDiagonalPart (-1)]

/-- The inertia matrix of `nearDiagonalParts`: the identity with `2⁻³⁰` at `(0, 1)` and
`(1, 0)`. -/
def nearDiagonalInertia : Matrix3 ℚ := Matrix3.mk9 1 (1 / 2 ^ 30) 0 (1 / 2 ^ 30) 1 0 0 0 1

/-- The same matrix as double-precision numbers. -/
def nearDiagonalInertia64 : Matrix3 Dyadic :=
  Matrix3.mk9 ⟨1, 0⟩ ⟨1, -30⟩ ⟨0, 0⟩ ⟨1, -30⟩ ⟨1, 0⟩ ⟨0, 0⟩ ⟨0, 0⟩ ⟨0, 0⟩ ⟨1, 0⟩

end Samples

/-! ## Lemmas on the linear math -/

section LinearLemmas

variable {K : Type} [LinearOrderedField K]

theorem vec_add_def (a b : Vector3 K) : a + b = ⟨a.x + b.x, a.y + b.y, a.z + b.z⟩ := rfl

theorem vec_zero_def : (0 : Vector3 K) = ⟨0, 0, 0⟩ := rfl

theorem vec_neg_def (a : Vector3 K) : -a = ⟨-a.x, -a.y, -a.z⟩ := rfl

theorem vec_sub_def (a b : Vector3 K) : a - b = ⟨a.x - b.x, a.y - b.y, a.z - b.z⟩ := rfl

theorem vec_mul_scalar_def (v : Vector3 K) (s : K) : v * s = ⟨v.x * s, v.y * s, v.z * s⟩ := rfl

theorem vec_scalar_mul_def (s : K) (v : Vector3 K) : s * v = ⟨v.x * s, v.y * s, v.z * s⟩ := rfl

theorem vec_div_scalar_def (v : Vector3 K) (s : K) : v / s = v * ((1 : K) / s) := rfl

theorem mat_add_def (a b : Matrix3 K) : a + b = ⟨a.r0 + b.r0, a.r1 + b.r1, a.r2 + b.r2⟩ := rfl

theorem mat_zero_def : (0 : Matrix3 K) = ⟨0, 0, 0⟩ := rfl

theorem mat_mul_vec_def (m : Matrix3 K) (v : Vector3 K) :
    m * v = ⟨m.r0.dot v, m.r1.dot v, m.r2.dot v⟩ := rfl

theorem mat_mul_def (a b : Matrix3 K) :
    a * b = Matrix3.mk9
      (a.r0.dot (b.getColumn 0)) (a.r0.dot (b.getColumn 1)) (a.r0.dot (b.getColumn 2))
      (a.r1.dot (b.getColumn 0)) (a.r1.dot (b.getColumn 1)) (a.r1.dot (b.getColumn 2))
      (a.r2.dot (b.getColumn 0)) (a.r2.dot (b.getColumn 1)) (a.r2.dot (b.getColumn 2)) := rfl

theorem tf_apply_def (t : Transform K) (v : Vector3 K) : t * v = t.basis * v + t.origin := rfl

theorem tf_mul_def (a b : Transform K) : a * b = ⟨a.basis * b.basis, a * b.origin⟩ := rfl

theorem vec_add_assoc3 (a b c : Vector3 K) : a + b + c = a + (b + c) := by
  simp only [vec_add_def, add_assoc]

theorem vec_add_zero3 (a : Vector3 K) : a + 0 = a := by
  simp only [vec_add_def, vec_zero_def, add_zero]

theorem vec_zero_add3 (a : Vector3 K) : 0 + a = a := by
  simp only [vec_add_def, vec_zero_def, zero_add]

theorem vec_add_comm3 (a b : Vector3 K) : a + b = b + a := by
  simp only [vec_add_def, add_comm]

theorem mat_add_assoc3 (a b c : Matrix3 K) : a + b + c = a + (b + c) := by
  simp only [mat_add_def, vec_add_assoc3]

theorem mat_add_zero3 (a : Matrix3 K) : a + 0 = a := by
  simp only [mat_add_def, mat_zero_def, vec_add_zero3]

theorem vec_sum_x (l : List (Vector3 K)) : l.sum.x = (l.map Vector3.x).sum := by
  induction l with
  | nil => rfl
  | cons a t ih => simp only [List.sum_cons, List.map_cons, vec_add_def, ih]

theorem vec_sum_y (l : List (Vector3 K)) : l.sum.y = (l.map Vector3.y).sum := by
  induction l with
  | nil => rfl
  | cons a t ih => simp only [List.sum_cons, List.map_cons, vec_add_def, ih]

theorem vec_sum_z (l : List (Vector3 K)) : l.sum.z = (l.map Vector3.z).sum := by
  induction l with
  | nil => rfl
  | cons a t ih => simp only [List.sum_cons, List.map_cons, vec_add_def, ih]

theorem mat_zero_add3 (a : Matrix3 K) : 0 + a = a := by
  simp only [mat_add_def, mat_zero_def, vec_zero_add3]

theorem mat_add_at (a b : Matrix3 K) (i j : Fin 3) :
    (a + b).at i j = a.at i j + b.at i j := by
  fin_cases i <;> fin_cases j <;> rfl

theorem mat_sum_at (l : List (Matrix3 K)) (i j : Fin 3) :
    l.sum.at i j = (l.map (fun m => m.at i j)).sum := by
  induction l with
  | nil => fin_cases i <;> fin_cases j <;> rfl
  | cons a t ih => simp only [List.sum_cons, List.map_cons, mat_add_at, ih]

theorem mat_identity_mul (m : Matrix3 K) : Matrix3.identity * m = m := by
  obtain ⟨⟨a, b, c⟩, ⟨d, e, f⟩, ⟨g, h, k⟩⟩ := m
  simp [mat_mul_def, Matrix3.identity, Matrix3.mk9, Vector3.dot, Matrix3.getColumn,
    Vector3.get]

theorem mat_identity_mul_vec (v : Vector3 K) : (Matrix3.identity : Matrix3 K) * v = v := by
  obtain ⟨a, b, c⟩ := v
  simp [mat_mul_vec_def, Matrix3.identity, Matrix3.mk9, Vector3.dot]

end LinearLemmas

section IndexLemmas

variable {K : Type}

theorem mat_at_00 (m : Matrix3 K) : m.at 0 0 = m.r0.x := rfl
theorem mat_at_01 (m : Matrix3 K) : m.at 0 1 = m.r0.y := rfl
theorem mat_at_02 (m : Matrix3 K) : m.at 0 2 = m.r0.z := rfl
theorem mat_at_10 (m : Matrix3 K) : m.at 1 0 = m.r1.x := rfl
theorem mat_at_11 (m : Matrix3 K) : m.at 1 1 = m.r1.y := rfl
theorem mat_at_12 (m : Matrix3 K) : m.at 1 2 = m.r1.z := rfl
theorem mat_at_20 (m : Matrix3 K) : m.at 2 0 = m.r2.x := rfl
theorem mat_at_21 (m : Matrix3 K) : m.at 2 1 = m.r2.y := rfl
theorem mat_at_22 (m : Matrix3 K) : m.at 2 2 = m.r2.z := rfl
theorem vec_get_0 (v : Vector3 K) : v.get 0 = v.x := rfl
theorem vec_get_1 (v : Vector3 K) : v.get 1 = v.y := rfl
theorem vec_get_2 (v : Vector3 K) : v.get 2 = v.z := rfl

end IndexLemmas

/-! ## The first loop: mass, volume and the two centres -/

section MassLemmas

variable {K : Type} [LinearOrderedField K]

/-- The first loop adds, to whatever it starts from, the sums over the part list. -/
theorem foldl_massStep (parts : List (CompoundPart K)) (a : MassSums K) :
    parts.foldl massStep a =
      { compoundMass := a.compoundMass + (parts.map (fun p => p.solid.getMass)).sum
        compoundCG := a.compoundCG
          + (parts.map (fun p => (partFrame p).origin * p.solid.getMass)).sum
        compoundVolume := a.compoundVolume
          + ((parts.filter (fun p => p.solid.isBuoyant)).map (fun p => p.solid.getVolume)).sum
        compoundCB := a.compoundCB
          + ((parts.filter (fun p => p.solid.isBuoyant)).map
              (fun p => (partFrame p * p.solid.getCB) * p.solid.getVolume)).sum } := by
  induction parts generalizing a with
  | nil =>
    simp only [List.foldl_nil, List.map_nil, List.filter_nil, List.sum_nil, add_zero,
      vec_add_zero3]
  | cons p ps ih =>
    rw [List.foldl_cons, ih]
    by_cases hb : p.solid.isBuoyant = true
    · simp only [massStep, hb, if_true, List.map_cons, List.sum_cons, List.filter_cons_of_pos,
        add_assoc, vec_add_assoc3, partFrame]
    · simp only [massStep, hb, if_false, List.map_cons, List.sum_cons, add_assoc,
        vec_add_assoc3, partFrame, List.filter_cons_of_neg, not_false_eq_true,
        Bool.false_eq_true]

/-- Closed form of the first loop. -/
theorem massLoop_eq (parts : List (CompoundPart K)) :
    massLoop parts =
      { compoundMass := (parts.map (fun p => p.solid.getMass)).sum
        compoundCG := (parts.map (fun p => (partFrame p).origin * p.solid.getMass)).sum
        compoundVolume :=
          ((parts.filter (fun p => p.solid.isBuoyant)).map (fun p => p.solid.getVolume)).sum
        compoundCB := ((parts.filter (fun p => p.solid.isBuoyant)).map
              (fun p => (partFrame p * p.solid.getCB) * p.solid.getVolume)).sum } := by
  unfold massLoop
  rw [foldl_massStep]
  simp only [zero_add, vec_zero_add3]

end MassLemmas

/-! ## The second loop: the compound inertia matrix -/

section InertiaLemmas

variable {K : Type} [LinearOrderedField K]

/-- One pass of the second loop adds the part's own term to the running matrix. -/
theorem inertiaStep_add (T : Transform K) (I : Matrix3 K) (p : CompoundPart K) :
    inertiaStep T I p = I + inertiaStep T 0 p := by
  simp only [inertiaStep, mat_zero_add3]

theorem foldl_inertiaStep (T : Transform K) (parts : List (CompoundPart K)) (I : Matrix3 K) :
    parts.foldl (inertiaStep T) I = I + (parts.map (inertiaStep T 0)).sum := by
  induction parts generalizing I with
  | nil => simp only [List.foldl_nil, List.map_nil, List.sum_nil, mat_add_zero3]
  | cons p ps ih =>
    rw [List.foldl_cons, ih, inertiaStep_add, List.map_cons, List.sum_cons, mat_add_assoc3]

theorem compoundInertia_eq (parts : List (CompoundPart K)) :
    compoundInertia parts = (parts.map (inertiaStep (originFrame parts) 0)).sum := by
  unfold compoundInertia
  rw [foldl_inertiaStep]
  exact mat_zero_add3 _

/-- The local `compToPart` of line 160 while `T_CG2O` is the pure translation by `-cg`. -/
theorem compToPart_eq (cg : Vector3 K) (p : CompoundPart K) :
    (Transform.getIdentity : Transform K).setOrigin (-cg) * p.origin
        * p.solid.getCG2OTransform.inverse
      = ⟨(partFrame p).basis, (partFrame p).origin - cg⟩ := by
  simp only [tf_mul_def, tf_apply_def, Transform.setOrigin, Transform.getIdentity,
    mat_identity_mul, mat_identity_mul_vec, partFrame]
  congr 1
  simp only [vec_add_def, vec_sub_def, vec_neg_def, Vector3.mk.injEq]
  refine ⟨?_, ?_, ?_⟩ <;> ring

theorem inertiaTerm_at (B : Matrix3 K) (J t : Vector3 K) (m : K) (i j : Fin 3) :
    ((0 : Matrix3 K) + (B * Matrix3.mk9 J.x 0 0 0 J.y 0 0 0 J.z * B.transpose
        + (Matrix3.mk9 (t.y * t.y + t.z * t.z) (-t.x * t.y) (-t.x * t.z)
                 (-t.y * t.x) (t.x * t.x + t.z * t.z) (-t.y * t.z)
                 (-t.z * t.x) (-t.z * t.y) (t.x * t.x + t.y * t.y)).scaled ⟨m, m, m⟩)).at i j
      = (B.at i 0 * J.get 0 * B.at j 0 + B.at i 1 * J.get 1 * B.at j 1
          + B.at i 2 * J.get 2 * B.at j 2)
        + m * (t.dot t * (if i = j then 1 else 0) - t.get i * t.get j) := by
  obtain ⟨⟨b00, b01, b02⟩, ⟨b10, b11, b12⟩, ⟨b20, b21, b22⟩⟩ := B
  obtain ⟨jx, jy, jz⟩ := J
  obtain ⟨tx, ty, tz⟩ := t
  fin_cases i <;> fin_cases j <;>
  · simp only [Fin.zero_eta, Fin.mk_one, Fin.reduceFinMk, mat_at_00, mat_at_01,
      mat_at_02, mat_at_10, mat_at_11, mat_at_12, mat_at_20, mat_at_21,
      mat_at_22, vec_get_0, vec_get_1, vec_get_2,
      mat_mul_def, mat_add_def,
      vec_add_def, mat_zero_def, vec_zero_def, Matrix3.mk9, Matrix3.scaled,
      Matrix3.transpose, Matrix3.getColumn, Vector3.dot, Fin.isValue, if_true, if_false,
      Fin.reduceEq, reduceIte]
    ring

theorem inertiaStep_at (cg : Vector3 K) (p : CompoundPart K) (i j : Fin 3) :
    (inertiaStep ((Transform.getIdentity : Transform K).setOrigin (-cg)) 0 p).at i j
      = partInertiaEntry cg p i j := by
  unfold inertiaStep partInertiaEntry
  simp only [compToPart_eq]
  exact inertiaTerm_at _ _ _ _ i j

theorem partInertiaEntry_symm (cg : Vector3 K) (p : CompoundPart K) (i j : Fin 3) :
    partInertiaEntry cg p i j = partInertiaEntry cg p j i := by
  unfold partInertiaEntry
  by_cases h : i = j
  · subst h; rfl
  · have h2 : ¬ j = i := fun e => h e.symm
    simp only [h, h2, if_false]
    ring

/-- The matrix accumulated by the second loop is symmetric. -/
theorem compoundInertia_symm (parts : List (CompoundPart K)) (i j : Fin 3) :
    (compoundInertia parts).at i j = (compoundInertia parts).at j i := by
  rw [compoundInertia_eq, mat_sum_at, mat_sum_at, List.map_map, List.map_map]
  congr 1
  apply List.map_congr_left
  intro p _
  simp only [Function.comp_def, originFrame]
  rw [inertiaStep_at, inertiaStep_at, partInertiaEntry_symm]

end InertiaLemmas


/-! ## The force loops -/

section FluidLemmas

variable {K : Type} [LinearOrderedField K]

/-- The loop of lines 279-288 adds the submerged integrator's results of the external parts
to the four drag vectors and touches nothing else. -/
theorem foldl_submergedStep (env : FluidEnv K) (liquid : Ocean K)
    (parts : List (CompoundPart K)) (c : Compound K) :
    parts.foldl (submergedStep env liquid) c =
      { c with
        Fds := c.Fds + ((parts.filter (fun p => p.isExternal)).map
          (fun p => (submergedResult env liquid p).Fds)).sum
        Tds := c.Tds + ((parts.filter (fun p => p.isExternal)).map
          (fun p => (submergedResult env liquid p).Tds)).sum
        Fdp := c.Fdp + ((parts.filter (fun p => p.isExternal)).map
          (fun p => (submergedResult env liquid p).Fdp)).sum
        Tdp := c.Tdp + ((parts.filter (fun p => p.isExternal)).map
          (fun p => (submergedResult env liquid p).Tdp)).sum } := by
  induction parts generalizing c with
  | nil =>
    simp only [List.foldl_nil, List.filter_nil, List.map_nil, List.sum_nil, vec_add_zero3]
  | cons p ps ih =>
    rw [List.foldl_cons, ih]
    by_cases he : p.isExternal = true
    · simp only [submergedStep, he, if_true, List.filter_cons_of_pos, List.map_cons,
        List.sum_cons, vec_add_assoc3, submergedResult]
    · simp only [submergedStep, he, if_false, Bool.false_eq_true, not_false_eq_true,
        List.filter_cons_of_neg]

/-- The loop of lines 322-345 adds, for every part it invokes the surface integrator on, the
buoyancy pair of the result, and for every external part the four drag vectors as well. -/
theorem foldl_surfaceStep (env : FluidEnv K) (settings : HydrodynamicsSettings)
    (liquid : Ocean K) (parts : List (CompoundPart K)) (c : Compound K) :
    parts.foldl (surfaceStep env settings liquid) c =
      { c with
        Fb := c.Fb + ((parts.filter (invoked settings)).map
          (fun p => (surfaceResult env liquid (callSettings settings p) p).Fb)).sum
        Tb := c.Tb + ((parts.filter (invoked settings)).map
          (fun p => (surfaceResult env liquid (callSettings settings p) p).Tb)).sum
        Fds := c.Fds + ((parts.filter (fun p => p.isExternal)).map
          (fun p => (surfaceResult env liquid (partSettings settings p) p).Fds)).sum
        Tds := c.Tds + ((parts.filter (fun p => p.isExternal)).map
          (fun p => (surfaceResult env liquid (partSettings settings p) p).Tds)).sum
        Fdp := c.Fdp + ((parts.filter (fun p => p.isExternal)).map
          (fun p => (surfaceResult env liquid (partSettings settings p) p).Fdp)).sum
        Tdp := c.Tdp + ((parts.filter (fun p => p.isExternal)).map
          (fun p => (surfaceResult env liquid (partSettings settings p) p).Tdp)).sum } := by
  induction parts generalizing c with
  | nil =>
    simp only [List.foldl_nil, List.filter_nil, List.map_nil, List.sum_nil, vec_add_zero3]
  | cons p ps ih =>
    rw [List.foldl_cons, ih]
    by_cases he : p.isExternal = true
    · have hi : invoked settings p = true := by simp [invoked, he]
      simp only [surfaceStep, he, hi, if_true, List.filter_cons_of_pos, List.map_cons,
        List.sum_cons, vec_add_assoc3, surfaceResult, callSettings]
    · by_cases hb : (partSettings settings p).reallisticBuoyancy = true
      · have hi : invoked settings p = true := by
          simp only [invoked, Bool.or_eq_true]
          right
          exact hb
        simp only [surfaceStep, he, hb, hi, if_true, if_false, Bool.false_eq_true,
          not_false_eq_true, List.filter_cons_of_neg, List.filter_cons_of_pos, List.map_cons,
          List.sum_cons, vec_add_assoc3, surfaceResult, callSettings]
      · have hi : ¬ invoked settings p = true := by
          simp only [invoked, Bool.or_eq_true, not_or]
          exact ⟨he, hb⟩
        simp only [surfaceStep, he, hb, hi, if_false, Bool.false_eq_true, not_false_eq_true,
          List.filter_cons_of_neg]

/-- A sum over a filtered list may drop the entries whose term is zero. -/
theorem sum_filter_shrink {α : Type} (l : List α) (P Q : α → Bool) (f : α → Vector3 K)
    (hQP : ∀ a, Q a = true → P a = true)
    (hzero : ∀ a, P a = true → Q a = false → f a = 0) :
    ((l.filter P).map f).sum = ((l.filter Q).map f).sum := by
  induction l with
  | nil => rfl
  | cons a t ih =>
    by_cases hq : Q a = true
    · rw [List.filter_cons_of_pos (hQP a hq), List.filter_cons_of_pos hq, List.map_cons,
        List.map_cons, List.sum_cons, List.sum_cons, ih]
    · have hqf : Q a = false := by simpa using hq
      by_cases hp : P a = true
      · rw [List.filter_cons_of_pos hp, List.filter_cons_of_neg hq, List.map_cons,
          List.sum_cons, ih, hzero a hp hqf, vec_zero_add3]
      · rw [List.filter_cons_of_neg hp, List.filter_cons_of_neg hq, ih]

end FluidLemmas

section CallLemmas

variable {K : Type}

/-- Whether the loop of lines 322-345 invokes the surface integrator for a part. -/
theorem surfaceCall_isSome (settings : HydrodynamicsSettings) (p : CompoundPart K) :
    (surfaceCall settings p).isSome
      = (p.isExternal || (settings.reallisticBuoyancy && p.solid.isBuoyant)) := by
  unfold surfaceCall partSettings
  cases p.isExternal <;> cases settings.reallisticBuoyancy <;> cases p.solid.isBuoyant <;> rfl

/-- The settings the loop of lines 322-345 uses when it invokes the integrator. -/
theorem surfaceCall_getD (settings : HydrodynamicsSettings) (p : CompoundPart K)
    (h : (p.isExternal || (settings.reallisticBuoyancy && p.solid.isBuoyant)) = true) :
    surfaceCall settings p = some (callSettings settings p) := by
  unfold surfaceCall callSettings partSettings
  revert h
  cases p.isExternal <;> cases settings.reallisticBuoyancy <;> cases p.solid.isBuoyant <;>
    simp

end CallLemmas

/-! ## The cubic of the principal moments -/

section CubicLemmas

variable {K : Type} [LinearOrderedField K]

/-- For a symmetric matrix `4 * (T² - 3 II)³ - N²` is `27` times a sum of squares, `N` being
the numerator of the `btAcos` argument of line 186. -/
theorem disc_sum_of_squares (a b c d e f : K) :
    4 * ((a + b + c) * (a + b + c) - 3 * (a * b + a * c + b * c - d * d - e * e - f * f)) ^ 3
      - (-2 * (a + b + c) * (a + b + c) * (a + b + c)
          + 9 * (a + b + c) * (a * b + a * c + b * c - d * d - e * e - f * f)
          - 27 * (a * (b * c - f * f) + d * (f * e - d * c) + e * (d * f - b * e))) ^ 2
    = 27 * (
      1 * (1 * (b * (e * e + f * f + c * c) - c * (d * d + b * b + f * f)) - 1 * (a * (e * e + f * f + c * c) - c * (a * a + d * d + e * e)) + 1 * (a * (d * d + b * b + f * f) - b * (a * a + d * d + e * e))) ^ 2 +
      2 * (1 * (b * (a * d + d * b + e * f) - d * (d * d + b * b + f * f)) - 1 * (a * (a * d + d * b + e * f) - d * (a * a + d * d + e * e)) + 0 * (a * (d * d + b * b + f * f) - b * (a * a + d * d + e * e))) ^ 2 +
      2 * (1 * (b * (a * e + d * f + e * c) - e * (d * d + b * b + f * f)) - 1 * (a * (a * e + d * f + e * c) - e * (a * a + d * d + e * e)) + 0 * (a * (d * d + b * b + f * f) - b * (a * a + d * d + e * e))) ^ 2 +
      2 * (1 * (b * (d * e + b * f + f * c) - f * (d * d + b * b + f * f)) - 1 * (a * (d * e + b * f + f * c) - f * (a * a + d * d + e * e)) + 0 * (a * (d * d + b * b + f * f) - b * (a * a + d * d + e * e))) ^ 2 +
      2 * (1 * (c * (a * d + d * b + e * f) - d * (e * e + f * f + c * c)) - 1 * (a * (a * d + d * b + e * f) - d * (a * a + d * d + e * e)) + 0 * (a * (e * e + f * f + c * c) - c * (a * a + d * d + e * e))) ^ 2 +
      2 * (1 * (c * (a * e + d * f + e * c) - e * (e * e + f * f + c * c)) - 1 * (a * (a * e + d * f + e * c) - e * (a * a + d * d + e * e)) + 0 * (a * (e * e + f * f + c * c) - c * (a * a + d * d + e * e))) ^ 2 +
      2 * (1 * (c * (d * e + b * f + f * c) - f * (e * e + f * f + c * c)) - 1 * (a * (d * e + b * f + f * c) - f * (a * a + d * d + e * e)) + 0 * (a * (e * e + f * f + c * c) - c * (a * a + d * d + e * e))) ^ 2 +
      4 * (1 * (d * (a * e + d * f + e * c) - e * (a * d + d * b + e * f)) - 0 * (a * (a * e + d * f + e * c) - e * (a * a + d * d + e * e)) + 0 * (a * (a * d + d * b + e * f) - d * (a * a + d * d + e * e))) ^ 2 +
      4 * (1 * (d * (d * e + b * f + f * c) - f * (a * d + d * b + e * f)) - 0 * (a * (d * e + b * f + f * c) - f * (a * a + d * d + e * e)) + 0 * (a * (a * d + d * b + e * f) - d * (a * a + d * d + e * e))) ^ 2 +
      4 * (1 * (e * (d * e + b * f + f * c) - f * (a * e + d * f + e * c)) - 0 * (a * (d * e + b * f + f * c) - f * (a * a + d * d + e * e)) + 0 * (a * (a * e + d * f + e * c) - e * (a * a + d * d + e * e))) ^ 2 +
      2 * (1 * (c * (a * d + d * b + e * f) - d * (e * e + f * f + c * c)) - 1 * (b * (a * d + d * b + e * f) - d * (d * d + b * b + f * f)) + 0 * (b * (e * e + f * f + c * c) - c * (d * d + b * b + f * f))) ^ 2 +
      2 * (1 * (c * (a * e + d * f + e * c) - e * (e * e + f * f + c * c)) - 1 * (b * (a * e + d * f + e * c) - e * (d * d + b * b + f * f)) + 0 * (b * (e * e + f * f + c * c) - c * (d * d + b * b + f * f))) ^ 2 +
      2 * (1 * (c * (d * e + b * f + f * c) - f * (e * e + f * f + c * c)) - 1 * (b * (d * e + b * f + f * c) - f * (d * d + b * b + f * f)) + 0 * (b * (e * e + f * f + c * c) - c * (d * d + b * b + f * f))) ^ 2 +
      4 * (1 * (d * (a * e + d * f + e * c) - e * (a * d + d * b + e * f)) - 0 * (b * (a * e + d * f + e * c) - e * (d * d + b * b + f * f)) + 0 * (b * (a * d + d * b + e * f) - d * (d * d + b * b + f * f))) ^ 2 +
      4 * (1 * (d * (d * e + b * f + f * c) - f * (a * d + d * b + e * f)) - 0 * (b * (d * e + b * f + f * c) - f * (d * d + b * b + f * f)) + 0 * (b * (a * d + d * b + e * f) - d * (d * d + b * b + f * f))) ^ 2 +
      4 * (1 * (e * (d * e + b * f + f * c) - f * (a * e + d * f + e * c)) - 0 * (b * (d * e + b * f + f * c) - f * (d * d + b * b + f * f)) + 0 * (b * (a * e + d * f + e * c) - e * (d * d + b * b + f * f))) ^ 2 +
      4 * (1 * (d * (a * e + d * f + e * c) - e * (a * d + d * b + e * f)) - 0 * (c * (a * e + d * f + e * c) - e * (e * e + f * f + c * c)) + 0 * (c * (a * d + d * b + e * f) - d * (e * e + f * f + c * c))) ^ 2 +
      4 * (1 * (d * (d * e + b * f + f * c) - f * (a * d + d * b + e * f)) - 0 * (c * (d * e + b * f + f * c) - f * (e * e + f * f + c * c)) + 0 * (c * (a * d + d * b + e * f) - d * (e * e + f * f + c * c))) ^ 2 +
      4 * (1 * (e * (d * e + b * f + f * c) - f * (a * e + d * f + e * c)) - 0 * (c * (d * e + b * f + f * c) - f * (e * e + f * f + c * c)) + 0 * (c * (a * e + d * f + e * c) - e * (e * e + f * f + c * c))) ^ 2) := by
  ring

theorem disc_nonneg (a b c d e f : K) :
    (-2 * (a + b + c) * (a + b + c) * (a + b + c)
          + 9 * (a + b + c) * (a * b + a * c + b * c - d * d - e * e - f * f)
          - 27 * (a * (b * c - f * f) + d * (f * e - d * c) + e * (d * f - b * e))) ^ 2
      ≤ 4 * ((a + b + c) * (a + b + c)
          - 3 * (a * b + a * c + b * c - d * d - e * e - f * f)) ^ 3 := by
  have h := disc_sum_of_squares a b c d e f
  rw [← sub_nonneg, h]
  positivity

theorem trace_sq_nonneg (a b c d e f : K) :
    0 ≤ (a + b + c) * (a + b + c) - 3 * (a * b + a * c + b * c - d * d - e * e - f * f) := by
  nlinarith [sq_nonneg (a - b), sq_nonneg (a - c), sq_nonneg (b - c), sq_nonneg d, sq_nonneg e,
    sq_nonneg f]

/-- The substitution behind the closed form: with `U² = (T² - 3 II) / 9` and
`54 U³ (4x³ - 3x) = N`, the value `T/3 - 2 U x` is a root of `X³ - T X² + II X - D`. -/
theorem cubic_root_of_triple (T II D U x : K) (hU : U * U = (T * T - 3 * II) / 9)
    (hx : 54 * U * U * U * (4 * x ^ 3 - 3 * x) = -2 * T * T * T + 9 * T * II - 27 * D) :
    (T / 3 - 2 * U * x) ^ 3 - T * (T / 3 - 2 * U * x) ^ 2 + II * (T / 3 - 2 * U * x) - D = 0 := by
  linear_combination (-(1 / 27 : K)) * hx - 6 * U * x * hU

end CubicLemmas

section RealCubic

/-- With real square root, arccosine and cosine, every angle `φ` with `cos (3 φ) = cos θ`
gives a root `T/3 - 2 U cos φ` of the cubic, as soon as `T² - 3 II ≥ 0` and `N² ≤ 4 (T² - 3 II)³`. -/
theorem closed_form_root (T II D φ : ℝ) (hs : 0 ≤ T * T - 3 * II)
    (hN : (-2 * T * T * T + 9 * T * II - 27 * D) ^ 2 ≤ 4 * (T * T - 3 * II) ^ 3)
    (hφ : Real.cos (3 * φ)
      = Real.cos (Real.arccos ((-2 * T * T * T + 9 * T * II - 27 * D)
          / (54 * (Real.sqrt (T * T - 3 * II) / 3) * (Real.sqrt (T * T - 3 * II) / 3)
              * (Real.sqrt (T * T - 3 * II) / 3))))) :
    (T / 3 - 2 * (Real.sqrt (T * T - 3 * II) / 3) * Real.cos φ) ^ 3
      - T * (T / 3 - 2 * (Real.sqrt (T * T - 3 * II) / 3) * Real.cos φ) ^ 2
      + II * (T / 3 - 2 * (Real.sqrt (T * T - 3 * II) / 3) * Real.cos φ) - D = 0 := by
  have hsq : Real.sqrt (T * T - 3 * II) * Real.sqrt (T * T - 3 * II) = T * T - 3 * II :=
    Real.mul_self_sqrt hs
  have hr0 : 0 ≤ Real.sqrt (T * T - 3 * II) := Real.sqrt_nonneg _
  set r := Real.sqrt (T * T - 3 * II) with hr
  set N := -2 * T * T * T + 9 * T * II - 27 * D with hNdef
  have hU : r / 3 * (r / 3) = (T * T - 3 * II) / 9 := by
    rw [← hsq]; ring
  rcases eq_or_lt_of_le hr0 with h0 | hpos
  · -- degenerate case: `U = 0`, the three values are `T / 3`
    have hr00 : r = 0 := h0.symm
    have hs0 : T * T - 3 * II = 0 := by rw [← hsq, hr00]; ring
    have hN0 : N = 0 := by
      have : N ^ 2 ≤ 0 := by rw [hs0] at hN; simpa using hN
      exact pow_eq_zero_iff (two_ne_zero) |>.mp (le_antisymm this (sq_nonneg N))
    rw [hr00]
    linear_combination (1 / 27 : ℝ) * hN0
  · have hB : 0 < 54 * (r / 3) * (r / 3) * (r / 3) := by positivity
    have hBsq : (54 * (r / 3) * (r / 3) * (r / 3)) ^ 2 = 4 * (T * T - 3 * II) ^ 3 := by
      rw [← hsq]; ring
    have hle : N ≤ 54 * (r / 3) * (r / 3) * (r / 3) := by
      rw [← hBsq] at hN
      nlinarith
    have hge : -(54 * (r / 3) * (r / 3) * (r / 3)) ≤ N := by
      rw [← hBsq] at hN
      nlinarith
    have hcos : Real.cos (Real.arccos (N / (54 * (r / 3) * (r / 3) * (r / 3))))
        = N / (54 * (r / 3) * (r / 3) * (r / 3)) := by
      apply Real.cos_arccos
      · rw [le_div_iff₀ hB]; linarith
      · rw [div_le_one hB]; exact hle
    rw [hcos, Real.cos_three_mul] at hφ
    apply cubic_root_of_triple T II D (r / 3) (Real.cos φ) hU
    rw [hφ]
    field_simp
    simp only [hNdef]
    ring

end RealCubic

/-! ## Attaching parts -/

section AttachLemmas

variable {K : Type} [LinearOrderedField K]

/-- Attaching a part record appends it and recalculates. -/
theorem attach_eq (bm : BulletMath K) (c : Compound K) (p : CompoundPart K) :
    attach bm c p = RecalculatePhysicalProperties bm { c with parts := c.parts ++ [p] } := by
  obtain ⟨s, o, e⟩ := p
  cases e <;> rfl

end AttachLemmas

section ExtLemmas

variable {K : Type}

/-- Two matrices with the same nine entries are equal. -/
theorem mat_ext_at (A B : Matrix3 K) (h : ∀ i j : Fin 3, A.at i j = B.at i j) : A = B := by
  ext
  · exact h 0 0
  · exact h 0 1
  · exact h 0 2
  · exact h 1 0
  · exact h 1 1
  · exact h 1 2
  · exact h 2 0
  · exact h 2 1
  · exact h 2 2

end ExtLemmas

/-! ## Claims -/

section Claims

variable {K : Type} [LinearOrderedField K]

theorem RecalculatePhysicalProperties_parts (bm : BulletMath K) (c : Compound K) :
    (RecalculatePhysicalProperties bm c).parts = c.parts := rfl

theorem RecalculatePhysicalProperties_mass (bm : BulletMath K) (c : Compound K) :
    (RecalculatePhysicalProperties bm c).mass = (c.parts.map (fun p => p.solid.getMass)).sum := by
  simp only [RecalculatePhysicalProperties, massCentres, massLoop_eq]

theorem RecalculatePhysicalProperties_volume (bm : BulletMath K) (c : Compound K) :
    (RecalculatePhysicalProperties bm c).volume =
      ((c.parts.filter (fun p => p.solid.isBuoyant)).map (fun p => p.solid.getVolume)).sum := by
  simp only [RecalculatePhysicalProperties, massCentres, massLoop_eq]

/-- C2: after an attach with a non-null body (external or internal) the compound mass is the
sum of `getMass()` over all attached parts and the compound volume is the sum of `getVolume()`
over the parts whose `isBuoyant()` is true; a non-buoyant new part leaves the volume sum of
the earlier parts as it was while its mass is added. -/
theorem C2_attach_mass_volume (bm : BulletMath K) (c : Compound K) (s : SolidEntity K)
    (origin : Transform K) (ext : Bool) :
    let c1 := if ext then AddExternalPart bm c (some s) origin
              else AddInternalPart bm c (some s) origin
    c1.parts = c.parts ++ [{ solid := s, origin := origin, isExternal := ext }]
    ∧ c1.mass = (c1.parts.map (fun p => p.solid.getMass)).sum
    ∧ c1.volume =
        ((c1.parts.filter (fun p => p.solid.isBuoyant)).map (fun p => p.solid.getVolume)).sum
    ∧ c1.mass = (c.parts.map (fun p => p.solid.getMass)).sum + s.getMass
    ∧ c1.volume =
        ((c.parts.filter (fun p => p.solid.isBuoyant)).map (fun p => p.solid.getVolume)).sum
          + (if s.isBuoyant then s.getVolume else 0) := by
  cases ext <;>
  · simp only [AddExternalPart, AddInternalPart, if_true, if_false, Bool.false_eq_true,
      RecalculatePhysicalProperties_parts, RecalculatePhysicalProperties_mass,
      RecalculatePhysicalProperties_volume, true_and]
    refine ⟨?_, ?_⟩
    · simp only [List.map_append, List.sum_append, List.map_cons, List.map_nil, List.sum_cons,
        List.sum_nil, add_zero]
    · cases hb : s.isBuoyant <;>
        simp [List.filter_append, List.filter_cons, hb]

theorem twoPart_parts :
    twoPart.parts =
      [ { solid := cylinder, origin := Transform.getIdentity, isExternal := true },
        { solid := batteryPack, origin := translation 0 0 (-3), isExternal := false } ] := rfl

/-- C2 at the two-part sample: mass 10 buoyant volume 0.01 plus mass 5 non-buoyant gives
mass 15 and volume 0.01. -/
theorem C2_attach_mass_volume_witness : twoPart.mass = 15 ∧ twoPart.volume = 1 / 100 := by
  have h := C2_attach_mass_volume sampleMath onePart batteryPack (translation 0 0 (-3)) false
  simp only [Bool.false_eq_true, if_false] at h
  obtain ⟨_, h2, h3, _, _⟩ := h
  refine ⟨?_, ?_⟩
  · show (AddInternalPart _ _ _ _).mass = _
    rw [h2]
    show (twoPart.parts.map _).sum = _
    rw [twoPart_parts]
    norm_num [cylinder, batteryPack]
  · show (AddInternalPart _ _ _ _).volume = _
    rw [h3]
    show ((twoPart.parts.filter _).map _).sum = _
    rw [twoPart_parts]
    norm_num [cylinder, batteryPack]

/-- C1: for a part list with non-zero total mass, entry `(i, j)` of the compound inertia
matrix `I` accumulated by `RecalculatePhysicalProperties` is the sum over the parts of entry
`(i, j)` of `B * diag(J) * Bᵀ + m * (|t|² * Id - t tᵀ)`, where `B` is the basis of
`origin * getCG2OTransform().inverse()`, `J` the part's principal moments, `m` its mass and
`t` the origin of that frame minus the compound centre of gravity. -/
theorem C1_compound_inertia_sum (parts : List (CompoundPart K))
    (hM : (parts.map (fun p => p.solid.getMass)).sum ≠ 0) (i j : Fin 3) :
    (compoundInertia parts).at i j
      = (parts.map (fun p => partInertiaEntry (massCentres parts).compoundCG p i j)).sum := by
  have _ := hM
  rw [compoundInertia_eq, mat_sum_at, List.map_map]
  congr 1
  apply List.map_congr_left
  intro p _
  exact inertiaStep_at _ p i j

/-- C1 at the two-part sample, entry `(0, 0)`. -/
theorem C1_compound_inertia_sum_witness :
    (twoPart.parts.map (fun p => p.solid.getMass)).sum ≠ 0
    ∧ (compoundInertia twoPart.parts).at 0 0
      = (twoPart.parts.map
          (fun p => partInertiaEntry (massCentres twoPart.parts).compoundCG p 0 0)).sum :=
  ⟨by rw [twoPart_parts]; norm_num [cylinder, batteryPack],
   C1_compound_inertia_sum twoPart.parts
     (by rw [twoPart_parts]; norm_num [cylinder, batteryPack]) 0 0⟩

/-- C3: for a part list with non-zero total mass `M`, the compound centre of gravity computed
by `RecalculatePhysicalProperties` is `(Σ m_i * p_i) / M` with `p_i` the origin of
`origin_i * getCG2OTransform().inverse()`, the stored mass is `M`, and the origin of the frame
set on line 148 is the negated centre; when the list is two parts of equal mass placed at
`p` and `-p`, the mass is twice the part mass and the centre of gravity is the midpoint `0`. -/
theorem C3_centre_of_gravity (parts : List (CompoundPart K))
    (hM : (parts.map (fun p => p.solid.getMass)).sum ≠ 0) :
    (massCentres parts).compoundMass = (parts.map (fun p => p.solid.getMass)).sum
    ∧ (massCentres parts).compoundCG =
        ⟨(parts.map (fun p => p.solid.getMass * (partFrame p).origin.x)).sum
            / (parts.map (fun p => p.solid.getMass)).sum,
         (parts.map (fun p => p.solid.getMass * (partFrame p).origin.y)).sum
            / (parts.map (fun p => p.solid.getMass)).sum,
         (parts.map (fun p => p.solid.getMass * (partFrame p).origin.z)).sum
            / (parts.map (fun p => p.solid.getMass)).sum⟩
    ∧ (originFrame parts).origin = -(massCentres parts).compoundCG
    ∧ ∀ a b : CompoundPart K, parts = [a, b] → a.solid.getMass = b.solid.getMass →
        (partFrame b).origin = -(partFrame a).origin →
        (massCentres parts).compoundMass = 2 * a.solid.getMass
        ∧ (massCentres parts).compoundCG = 0 := by
  have hCG : (massCentres parts).compoundCG =
        ⟨(parts.map (fun p => p.solid.getMass * (partFrame p).origin.x)).sum
            / (parts.map (fun p => p.solid.getMass)).sum,
         (parts.map (fun p => p.solid.getMass * (partFrame p).origin.y)).sum
            / (parts.map (fun p => p.solid.getMass)).sum,
         (parts.map (fun p => p.solid.getMass * (partFrame p).origin.z)).sum
            / (parts.map (fun p => p.solid.getMass)).sum⟩ := by
    simp only [massCentres, massLoop_eq, vec_div_scalar_def, vec_mul_scalar_def,
      vec_sum_x, vec_sum_y, vec_sum_z, List.map_map, Function.comp_def,
      Vector3.mk.injEq]
    refine ⟨?_, ?_, ?_⟩ <;>
    · rw [one_div, div_eq_mul_inv]
      simp only [mul_comm]
  refine ⟨by simp only [massCentres, massLoop_eq], hCG, rfl, ?_⟩
  intro a b hp hm hpos
  subst hp
  have hne : a.solid.getMass + b.solid.getMass ≠ 0 := by
    simpa only [List.map_cons, List.map_nil, List.sum_cons, List.sum_nil, add_zero] using hM
  refine ⟨?_, ?_⟩
  · simp only [massCentres, massLoop_eq, List.map_cons, List.map_nil, List.sum_cons, List.sum_nil,
      add_zero, ← hm]
    ring
  · rw [hCG]
    simp only [List.map_cons, List.map_nil, List.sum_cons, List.sum_nil, add_zero, hpos,
      vec_neg_def, vec_zero_def, Vector3.mk.injEq, ← hm]
    refine ⟨?_, ?_, ?_⟩ <;>
    · rw [div_eq_zero_iff]
      left
      ring

/-- Two unit-mass point parts at `(2, 0, 0)` and `(-2, 0, 0)`. -/
theorem C3_centre_of_gravity_witness :
    (massCentres symmetricPair).compoundMass = 2
    ∧ (massCentres symmetricPair).compoundCG = 0 := by
  have hM : (symmetricPair.map (fun p => p.solid.getMass)).sum ≠ 0 := by
    norm_num [symmetricPair, pointPart]
  have h := (C3_centre_of_gravity symmetricPair hM).2.2.2 _ _ rfl rfl
    (by
      simp [pointPart, partFrame, translation, tf_mul_def, tf_apply_def,
        Transform.inverse, Transform.getIdentity, mat_mul_vec_def, Matrix3.identity,
        Matrix3.mk9, Matrix3.transpose, Matrix3.getColumn, Vector3.get, Vector3.dot,
        vec_neg_def, vec_add_def, vec_zero_def])
  refine ⟨?_, h.2⟩
  rw [h.1]
  norm_num [pointPart]

/-- C4: when the total buoyant volume `V` is positive, the stored `P_CB` is the final
`T_CG2O` applied to `(Σ V_i * c_i) / V`, the sum running over the buoyant parts only, with
`c_i` the part's own centre of buoyancy mapped by `origin_i * getCG2OTransform().inverse()`. -/
theorem C4_centre_of_buoyancy (bm : BulletMath K) (c : Compound K)
    (hV : 0 < ((c.parts.filter (fun p => p.solid.isBuoyant)).map
      (fun p => p.solid.getVolume)).sum) :
    (RecalculatePhysicalProperties bm c).volume
      = ((c.parts.filter (fun p => p.solid.isBuoyant)).map (fun p => p.solid.getVolume)).sum
    ∧ (RecalculatePhysicalProperties bm c).P_CB
      = (RecalculatePhysicalProperties bm c).T_CG2O *
        (⟨((c.parts.filter (fun p => p.solid.isBuoyant)).map
              (fun p => p.solid.getVolume * (partFrame p * p.solid.getCB).x)).sum
            / ((c.parts.filter (fun p => p.solid.isBuoyant)).map
                (fun p => p.solid.getVolume)).sum,
          ((c.parts.filter (fun p => p.solid.isBuoyant)).map
              (fun p => p.solid.getVolume * (partFrame p * p.solid.getCB).y)).sum
            / ((c.parts.filter (fun p => p.solid.isBuoyant)).map
                (fun p => p.solid.getVolume)).sum,
          ((c.parts.filter (fun p => p.solid.isBuoyant)).map
              (fun p => p.solid.getVolume * (partFrame p * p.solid.getCB).z)).sum
            / ((c.parts.filter (fun p => p.solid.isBuoyant)).map
                (fun p => p.solid.getVolume)).sum⟩ : Vector3 K) := by
  refine ⟨RecalculatePhysicalProperties_volume bm c, ?_⟩
  have hCB : (massCentres c.parts).compoundCB =
      (⟨((c.parts.filter (fun p => p.solid.isBuoyant)).map
              (fun p => p.solid.getVolume * (partFrame p * p.solid.getCB).x)).sum
            / ((c.parts.filter (fun p => p.solid.isBuoyant)).map
                (fun p => p.solid.getVolume)).sum,
          ((c.parts.filter (fun p => p.solid.isBuoyant)).map
              (fun p => p.solid.getVolume * (partFrame p * p.solid.getCB).y)).sum
            / ((c.parts.filter (fun p => p.solid.isBuoyant)).map
                (fun p => p.solid.getVolume)).sum,
          ((c.parts.filter (fun p => p.solid.isBuoyant)).map
              (fun p => p.solid.getVolume * (partFrame p * p.solid.getCB).z)).sum
            / ((c.parts.filter (fun p => p.solid.isBuoyant)).map
                (fun p => p.solid.getVolume)).sum⟩ : Vector3 K) := by
    simp only [massCentres, massLoop_eq, gt_iff_lt, hV, if_true, vec_div_scalar_def,
      vec_mul_scalar_def, vec_sum_x, vec_sum_y, vec_sum_z, List.map_map,
      Function.comp_def, Vector3.mk.injEq]
    refine ⟨?_, ?_, ?_⟩ <;>
    · rw [one_div, div_eq_mul_inv]
      simp only [mul_comm]
  rw [← hCB]
  rfl

/-- C4 at the two-part sample: only the cylinder is buoyant. -/
theorem C4_centre_of_buoyancy_witness :
    0 < ((twoPart.parts.filter (fun p => p.solid.isBuoyant)).map
      (fun p => p.solid.getVolume)).sum
    ∧ (RecalculatePhysicalProperties sampleMath twoPart).P_CB
      = (RecalculatePhysicalProperties sampleMath twoPart).T_CG2O * (⟨0, 0, 1 / 10⟩ : Vector3 ℚ) := by
  have hV : 0 < ((twoPart.parts.filter (fun p => p.solid.isBuoyant)).map
      (fun p => p.solid.getVolume)).sum := by
    rw [twoPart_parts]; norm_num [cylinder, batteryPack]
  refine ⟨hV, ?_⟩
  rw [(C4_centre_of_buoyancy sampleMath twoPart hV).2]
  congr 1
  rw [twoPart_parts]
  norm_num [cylinder, batteryPack, partFrame, tf_mul_def, tf_apply_def,
    Transform.inverse, Transform.getIdentity, mat_mul_vec_def, mat_mul_def,
    Matrix3.identity, Matrix3.mk9, Matrix3.transpose, Matrix3.getColumn, Vector3.get,
    Vector3.dot, vec_neg_def, vec_add_def, vec_zero_def]

theorem twoPart_volume : twoPart.volume = 1 / 100 := by
  show (RecalculatePhysicalProperties _ _).volume = _
  rw [RecalculatePhysicalProperties_volume]
  show ((twoPart.parts.filter _).map _).sum = _
  rw [twoPart_parts]
  norm_num [cylinder, batteryPack]

/-- C5: with hydrodynamics enabled, the body INSIDE the fluid and the compound buoyant,
`ComputeFluidForces` leaves `Fb = -(volume * density) * gravity` and
`Tb = (T_CG * P_CB - T_CG.origin) × Fb`; for positive volume and density and non-zero
gravity `Fb` is non-zero and a strictly negative multiple of gravity. -/
theorem C5_inside_buoyancy (env : FluidEnv K) (settings : HydrodynamicsSettings)
    (liquid : Ocean K) (c : Compound K)
    (hHydro : c.computeHydro = true)
    (hIn : env.CheckBodyFluidPosition liquid = BodyFluidPosition.INSIDE_FLUID)
    (hB : c.buoyant = true) :
    (ComputeFluidForces env settings liquid c).Fb
        = (-(c.volume * liquid.density)) * env.getGravity
    ∧ (ComputeFluidForces env settings liquid c).Tb
        = (env.getCGTransform * c.P_CB - env.getCGTransform.origin).cross
            (ComputeFluidForces env settings liquid c).Fb
    ∧ (0 < c.volume → 0 < liquid.density → env.getGravity ≠ 0 →
        (ComputeFluidForces env settings liquid c).Fb ≠ 0
        ∧ ∃ k : K, k < 0 ∧ (ComputeFluidForces env settings liquid c).Fb
            = ⟨k * env.getGravity.x, k * env.getGravity.y, k * env.getGravity.z⟩) := by
  have hFb : (ComputeFluidForces env settings liquid c).Fb
      = (-(c.volume * liquid.density)) * env.getGravity := by
    cases hd : settings.dampingForces <;>
      simp [ComputeFluidForces, assembleFluidForces, insideFluid, applyCorrectDampingForces,
        foldl_submergedStep, setZeroDrag, hHydro, hIn, hB, hd]
  have hTb : (ComputeFluidForces env settings liquid c).Tb
      = (env.getCGTransform * c.P_CB - env.getCGTransform.origin).cross
          ((-(c.volume * liquid.density)) * env.getGravity) := by
    cases hd : settings.dampingForces <;>
      simp [ComputeFluidForces, assembleFluidForces, insideFluid, applyCorrectDampingForces,
        foldl_submergedStep, setZeroDrag, hHydro, hIn, hB, hd]
  refine ⟨hFb, by rw [hFb]; exact hTb, ?_⟩
  intro hv hrho hg
  have hk : -(c.volume * liquid.density) < 0 := neg_neg_of_pos (mul_pos hv hrho)
  have hform : (ComputeFluidForces env settings liquid c).Fb
      = ⟨-(c.volume * liquid.density) * env.getGravity.x,
         -(c.volume * liquid.density) * env.getGravity.y,
         -(c.volume * liquid.density) * env.getGravity.z⟩ := by
    rw [hFb, vec_scalar_mul_def]
    simp only [Vector3.mk.injEq]
    exact ⟨mul_comm _ _, mul_comm _ _, mul_comm _ _⟩
  refine ⟨?_, -(c.volume * liquid.density), hk, hform⟩
  intro h0
  apply hg
  rw [hform, vec_zero_def] at h0
  simp only [Vector3.mk.injEq, mul_eq_zero, hk.ne, false_or] at h0
  ext
  · exact h0.1
  · exact h0.2.1
  · exact h0.2.2

/-- C5 at the two-part sample: volume 0.01 and density 1000 give `-10 * gravity`. -/
theorem C5_inside_buoyancy_witness :
    twoPart.computeHydro = true
    ∧ (sampleEnv BodyFluidPosition.INSIDE_FLUID).CheckBodyFluidPosition water
        = BodyFluidPosition.INSIDE_FLUID
    ∧ twoPart.buoyant = true
    ∧ (ComputeFluidForces (sampleEnv BodyFluidPosition.INSIDE_FLUID) ⟨true, true⟩ water
        twoPart).Fb = (-10 : ℚ) * (sampleEnv BodyFluidPosition.INSIDE_FLUID).getGravity := by
  refine ⟨rfl, rfl, rfl, ?_⟩
  rw [(C5_inside_buoyancy (sampleEnv BodyFluidPosition.INSIDE_FLUID) ⟨true, true⟩ water twoPart
    rfl rfl rfl).1, twoPart_volume]
  norm_num [water]

/-- C6: with hydrodynamics enabled and the body OUTSIDE the fluid, all six force and torque
vectors are zero after `ComputeFluidForces`, whatever the parts, settings, velocities and
earlier values. -/
theorem C6_outside_all_zero (env : FluidEnv K) (settings : HydrodynamicsSettings)
    (liquid : Ocean K) (c : Compound K)
    (hHydro : c.computeHydro = true)
    (hOut : env.CheckBodyFluidPosition liquid = BodyFluidPosition.OUTSIDE_FLUID) :
    (ComputeFluidForces env settings liquid c).Fb = 0
    ∧ (ComputeFluidForces env settings liquid c).Tb = 0
    ∧ (ComputeFluidForces env settings liquid c).Fds = 0
    ∧ (ComputeFluidForces env settings liquid c).Tds = 0
    ∧ (ComputeFluidForces env settings liquid c).Fdp = 0
    ∧ (ComputeFluidForces env settings liquid c).Tdp = 0 := by
  have h : ComputeFluidForces env settings liquid c = setZeroForces c := by
    unfold ComputeFluidForces
    rw [hHydro, hOut]
    rfl
  rw [h]
  exact ⟨rfl, rfl, rfl, rfl, rfl, rfl⟩

/-- C6 at a sample whose accumulators start non-zero. -/
theorem C6_outside_all_zero_witness :
    loadedCompound.computeHydro = true
    ∧ (sampleEnv BodyFluidPosition.OUTSIDE_FLUID).CheckBodyFluidPosition water
        = BodyFluidPosition.OUTSIDE_FLUID
    ∧ loadedCompound.Fb ≠ 0
    ∧ (ComputeFluidForces (sampleEnv BodyFluidPosition.OUTSIDE_FLUID) ⟨true, true⟩ water
        loadedCompound).Fb = 0 :=
  ⟨rfl, rfl, by decide,
   (C6_outside_all_zero (sampleEnv BodyFluidPosition.OUTSIDE_FLUID) ⟨true, true⟩ water
      loadedCompound rfl rfl).1⟩

/-- C7: with damping enabled, each of the four drag vectors assembled before the drag
correction is the sum of the integrator's drag outputs over the external parts only, in the
INSIDE state (submerged integrator) and in the CROSSING state (surface integrator with the
part's `pSettings`); so two compounds with the same external parts, in the same environment,
get the same four drag vectors whatever their internal parts. -/
theorem C7_drag_external_only (env : FluidEnv K) (settings : HydrodynamicsSettings)
    (liquid : Ocean K) (c : Compound K) (hd : settings.dampingForces = true) :
    (env.CheckBodyFluidPosition liquid = BodyFluidPosition.INSIDE_FLUID →
      (assembleFluidForces env settings liquid c).Fds
        = ((c.parts.filter (fun p => p.isExternal)).map
            (fun p => (submergedResult env liquid p).Fds)).sum
      ∧ (assembleFluidForces env settings liquid c).Tds
        = ((c.parts.filter (fun p => p.isExternal)).map
            (fun p => (submergedResult env liquid p).Tds)).sum
      ∧ (assembleFluidForces env settings liquid c).Fdp
        = ((c.parts.filter (fun p => p.isExternal)).map
            (fun p => (submergedResult env liquid p).Fdp)).sum
      ∧ (assembleFluidForces env settings liquid c).Tdp
        = ((c.parts.filter (fun p => p.isExternal)).map
            (fun p => (submergedResult env liquid p).Tdp)).sum)
    ∧ (env.CheckBodyFluidPosition liquid = BodyFluidPosition.CROSSING_FLUID_SURFACE →
      (assembleFluidForces env settings liquid c).Fds
        = ((c.parts.filter (fun p => p.isExternal)).map
            (fun p => (surfaceResult env liquid (partSettings settings p) p).Fds)).sum
      ∧ (assembleFluidForces env settings liquid c).Tds
        = ((c.parts.filter (fun p => p.isExternal)).map
            (fun p => (surfaceResult env liquid (partSettings settings p) p).Tds)).sum
      ∧ (assembleFluidForces env settings liquid c).Fdp
        = ((c.parts.filter (fun p => p.isExternal)).map
            (fun p => (surfaceResult env liquid (partSettings settings p) p).Fdp)).sum
      ∧ (assembleFluidForces env settings liquid c).Tdp
        = ((c.parts.filter (fun p => p.isExternal)).map
            (fun p => (surfaceResult env liquid (partSettings settings p) p).Tdp)).sum)
    ∧ (∀ c2 : Compound K,
        c2.parts.filter (fun p => p.isExternal) = c.parts.filter (fun p => p.isExternal) →
        env.CheckBodyFluidPosition liquid ≠ BodyFluidPosition.OUTSIDE_FLUID →
        (assembleFluidForces env settings liquid c2).Fds
            = (assembleFluidForces env settings liquid c).Fds
        ∧ (assembleFluidForces env settings liquid c2).Tds
            = (assembleFluidForces env settings liquid c).Tds
        ∧ (assembleFluidForces env settings liquid c2).Fdp
            = (assembleFluidForces env settings liquid c).Fdp
        ∧ (assembleFluidForces env settings liquid c2).Tdp
            = (assembleFluidForces env settings liquid c).Tdp) := by
  have hin : ∀ c1 : Compound K,
      env.CheckBodyFluidPosition liquid = BodyFluidPosition.INSIDE_FLUID →
      (assembleFluidForces env settings liquid c1).Fds
        = ((c1.parts.filter (fun p => p.isExternal)).map
            (fun p => (submergedResult env liquid p).Fds)).sum
      ∧ (assembleFluidForces env settings liquid c1).Tds
        = ((c1.parts.filter (fun p => p.isExternal)).map
            (fun p => (submergedResult env liquid p).Tds)).sum
      ∧ (assembleFluidForces env settings liquid c1).Fdp
        = ((c1.parts.filter (fun p => p.isExternal)).map
            (fun p => (submergedResult env liquid p).Fdp)).sum
      ∧ (assembleFluidForces env settings liquid c1).Tdp
        = ((c1.parts.filter (fun p => p.isExternal)).map
            (fun p => (submergedResult env liquid p).Tdp)).sum := by
    intro c1 hbf
    cases hb : c1.buoyant <;>
      simp [assembleFluidForces, insideFluid, foldl_submergedStep, setZeroDrag, hbf, hd, hb,
        vec_zero_add3]
  have hcr : ∀ c1 : Compound K,
      env.CheckBodyFluidPosition liquid ≠ BodyFluidPosition.INSIDE_FLUID →
      (assembleFluidForces env settings liquid c1).Fds
        = ((c1.parts.filter (fun p => p.isExternal)).map
            (fun p => (surfaceResult env liquid (partSettings settings p) p).Fds)).sum
      ∧ (assembleFluidForces env settings liquid c1).Tds
        = ((c1.parts.filter (fun p => p.isExternal)).map
            (fun p => (surfaceResult env liquid (partSettings settings p) p).Tds)).sum
      ∧ (assembleFluidForces env settings liquid c1).Fdp
        = ((c1.parts.filter (fun p => p.isExternal)).map
            (fun p => (surfaceResult env liquid (partSettings settings p) p).Fdp)).sum
      ∧ (assembleFluidForces env settings liquid c1).Tdp
        = ((c1.parts.filter (fun p => p.isExternal)).map
            (fun p => (surfaceResult env liquid (partSettings settings p) p).Tdp)).sum := by
    intro c1 hbf
    cases hr : settings.reallisticBuoyancy <;>
      simp [assembleFluidForces, crossingFluidSurface, foldl_surfaceStep, setZeroDrag, hbf, hd,
        hr, vec_zero_add3]
  refine ⟨hin c, ?_, ?_⟩
  · intro hbf
    exact hcr c (by rw [hbf]; decide)
  · intro c2 hparts _
    by_cases hbf : env.CheckBodyFluidPosition liquid = BodyFluidPosition.INSIDE_FLUID
    · obtain ⟨h1, h2, h3, h4⟩ := hin c hbf
      obtain ⟨g1, g2, g3, g4⟩ := hin c2 hbf
      rw [h1, h2, h3, h4, g1, g2, g3, g4, hparts]
      exact ⟨rfl, rfl, rfl, rfl⟩
    · obtain ⟨h1, h2, h3, h4⟩ := hcr c hbf
      obtain ⟨g1, g2, g3, g4⟩ := hcr c2 hbf
      rw [h1, h2, h3, h4, g1, g2, g3, g4, hparts]
      exact ⟨rfl, rfl, rfl, rfl⟩

/-- C7 at the samples: the cylinder alone and the cylinder with the internal battery pack get
the same linear drag force in the CROSSING state. -/
theorem C7_drag_external_only_witness :
    (⟨true, true⟩ : HydrodynamicsSettings).dampingForces = true
    ∧ (assembleFluidForces (sampleEnv BodyFluidPosition.CROSSING_FLUID_SURFACE) ⟨true, true⟩
        water onePart).Fds
      = (assembleFluidForces (sampleEnv BodyFluidPosition.CROSSING_FLUID_SURFACE) ⟨true, true⟩
        water twoPart).Fds :=
  ⟨rfl,
   ((C7_drag_external_only (sampleEnv BodyFluidPosition.CROSSING_FLUID_SURFACE) ⟨true, true⟩
      water twoPart rfl).2.2 onePart rfl (by decide)).1⟩

/-- In the CROSSING state with realistic buoyancy enabled the buoyancy pair is the sum of the
surface integrator's buoyancy outputs over the external parts and the buoyant internal parts. -/
theorem crossing_buoyancy_sum (env : FluidEnv K) (settings : HydrodynamicsSettings)
    (liquid : Ocean K) (c : Compound K)
    (hHydro : c.computeHydro = true)
    (hCr : env.CheckBodyFluidPosition liquid = BodyFluidPosition.CROSSING_FLUID_SURFACE)
    (hr : settings.reallisticBuoyancy = true) :
    (ComputeFluidForces env settings liquid c).Fb
        = ((c.parts.filter (fun p => p.isExternal || p.solid.isBuoyant)).map
            (fun p => (surfaceResult env liquid (callSettings settings p) p).Fb)).sum
      ∧ (ComputeFluidForces env settings liquid c).Tb
        = ((c.parts.filter (fun p => p.isExternal || p.solid.isBuoyant)).map
            (fun p => (surfaceResult env liquid (callSettings settings p) p).Tb)).sum := by
  have hinv : (invoked settings : CompoundPart K → Bool)
      = fun p => p.isExternal || p.solid.isBuoyant := by
    funext p
    simp [invoked, partSettings, hr]
  cases hd : settings.dampingForces <;>
    simp [ComputeFluidForces, assembleFluidForces, crossingFluidSurface, foldl_surfaceStep,
      applyCorrectDampingForces, setZeroDrag, hHydro, hCr, hr, hd, hinv, vec_zero_add3]

theorem shellCompound_parts :
    shellCompound.parts
      = [{ solid := batteryPack, origin := Transform.getIdentity, isExternal := true }] := rfl

/-- C8, as first stated, fails: with an integrator that reports buoyancy whatever its
settings, an external part that is not buoyancy-eligible still adds to `Fb` in the CROSSING
state, so `Fb` is not the sum over the buoyancy-eligible parts. -/
theorem C8_counterexample :
    (ComputeFluidForces leakyEnv ⟨false, true⟩ water shellCompound).Fb = ⟨0, 0, -2⟩
    ∧ ((shellCompound.parts.filter (fun p => p.solid.isBuoyant)).map
          (fun p => (surfaceResult leakyEnv water (callSettings ⟨false, true⟩ p) p).Fb)).sum = 0
    ∧ (ComputeFluidForces leakyEnv ⟨false, true⟩ water shellCompound).Fb
      ≠ ((shellCompound.parts.filter (fun p => p.solid.isBuoyant)).map
          (fun p => (surfaceResult leakyEnv water (callSettings ⟨false, true⟩ p) p).Fb)).sum := by
  have hL : (ComputeFluidForces leakyEnv ⟨false, true⟩ water shellCompound).Fb = ⟨0, 0, -2⟩ := by
    rw [(crossing_buoyancy_sum leakyEnv ⟨false, true⟩ water shellCompound rfl rfl rfl).1,
      shellCompound_parts]
    simp [batteryPack, surfaceResult, leakyEnv, vec_add_def, vec_zero_def]
  have hR : ((shellCompound.parts.filter (fun p => p.solid.isBuoyant)).map
      (fun p => (surfaceResult leakyEnv water (callSettings ⟨false, true⟩ p) p).Fb)).sum = 0 := by
    rw [shellCompound_parts]
    simp [batteryPack]
  refine ⟨hL, hR, ?_⟩
  rw [hL, hR, vec_zero_def]
  simp

/-- C8 (amended): in the CROSSING state with realistic buoyancy enabled, `Fb` and `Tb` after
`ComputeFluidForces` are the sums of the surface integrator's buoyancy outputs over every
external part and every buoyancy-eligible internal part, each integrated with
`reallisticBuoyancy` equal to the part's own eligibility; an internal part that is not
eligible adds nothing; and when the integrator returns zero buoyancy for
`reallisticBuoyancy = false`, the sums run over exactly the buoyancy-eligible parts. -/
theorem C8_crossing_buoyancy (env : FluidEnv K) (settings : HydrodynamicsSettings)
    (liquid : Ocean K) (c : Compound K)
    (hHydro : c.computeHydro = true)
    (hCr : env.CheckBodyFluidPosition liquid = BodyFluidPosition.CROSSING_FLUID_SURFACE)
    (hr : settings.reallisticBuoyancy = true) :
    ((ComputeFluidForces env settings liquid c).Fb
        = ((c.parts.filter (fun p => p.isExternal || p.solid.isBuoyant)).map
            (fun p => (surfaceResult env liquid (callSettings settings p) p).Fb)).sum
      ∧ (ComputeFluidForces env settings liquid c).Tb
        = ((c.parts.filter (fun p => p.isExternal || p.solid.isBuoyant)).map
            (fun p => (surfaceResult env liquid (callSettings settings p) p).Tb)).sum)
    ∧ (∀ p : CompoundPart K, (callSettings settings p).reallisticBuoyancy = p.solid.isBuoyant)
    ∧ ((∀ ps mesh l t1 t2 v w, ps.reallisticBuoyancy = false →
          (env.ComputeFluidForcesSurface ps mesh l t1 t2 v w).Fb = 0
          ∧ (env.ComputeFluidForcesSurface ps mesh l t1 t2 v w).Tb = 0) →
        (ComputeFluidForces env settings liquid c).Fb
          = ((c.parts.filter (fun p => p.solid.isBuoyant)).map
              (fun p => (surfaceResult env liquid (callSettings settings p) p).Fb)).sum
        ∧ (ComputeFluidForces env settings liquid c).Tb
          = ((c.parts.filter (fun p => p.solid.isBuoyant)).map
              (fun p => (surfaceResult env liquid (callSettings settings p) p).Tb)).sum) := by
  have hcs : ∀ p : CompoundPart K,
      (callSettings settings p).reallisticBuoyancy = p.solid.isBuoyant := by
    intro p
    cases he : p.isExternal <;> simp [callSettings, partSettings, hr, he]
  have hsum := crossing_buoyancy_sum env settings liquid c hHydro hCr hr
  refine ⟨hsum, hcs, ?_⟩
  intro hzero
  rw [hsum.1, hsum.2]
  refine ⟨?_, ?_⟩
  · apply sum_filter_shrink
    · intro p hp
      simp [hp]
    · intro p _ hq
      have hb : (callSettings settings p).reallisticBuoyancy = false := by
        rw [hcs p]
        simpa using hq
      exact (hzero _ _ _ _ _ _ _ hb).1
  · apply sum_filter_shrink
    · intro p hp
      simp [hp]
    · intro p _ hq
      have hb : (callSettings settings p).reallisticBuoyancy = false := by
        rw [hcs p]
        simpa using hq
      exact (hzero _ _ _ _ _ _ _ hb).2

/-- C8 (amended) at the two-part sample, whose integrator reports no buoyancy when
`reallisticBuoyancy` is off: only the buoyant cylinder (mesh 1) adds to `Fb`. -/
theorem C8_crossing_buoyancy_witness :
    twoPart.computeHydro = true
    ∧ (sampleEnv BodyFluidPosition.CROSSING_FLUID_SURFACE).CheckBodyFluidPosition water
        = BodyFluidPosition.CROSSING_FLUID_SURFACE
    ∧ (⟨true, true⟩ : HydrodynamicsSettings).reallisticBuoyancy = true
    ∧ (ComputeFluidForces (sampleEnv BodyFluidPosition.CROSSING_FLUID_SURFACE) ⟨true, true⟩
        water twoPart).Fb = ⟨0, 0, -1⟩ := by
  refine ⟨rfl, rfl, rfl, ?_⟩
  rw [((C8_crossing_buoyancy (sampleEnv BodyFluidPosition.CROSSING_FLUID_SURFACE) ⟨true, true⟩
    water twoPart rfl rfl rfl).2.2 (by
      intro ps mesh l t1 t2 v w h
      simp [sampleEnv, h])).1, twoPart_parts]
  simp [cylinder, batteryPack, surfaceResult, callSettings, partSettings, sampleEnv,
    vec_add_def, vec_zero_def]

/-- C9: in the loop of the CROSSING state the settings handed to the surface integrator for a
part have `reallisticBuoyancy` equal to the global flag AND the part's `isBuoyant()`; an
external part is always integrated, with the damping flag unchanged; an internal part is
integrated exactly when that conjunction is true, and then with `dampingForces = false`; the
loop body is the integrator call at those settings followed by the additions. -/
theorem C9_surface_call_settings (settings : HydrodynamicsSettings) (p : CompoundPart K) :
    (∀ ps, surfaceCall settings p = some ps →
        ps.reallisticBuoyancy = (settings.reallisticBuoyancy && p.solid.isBuoyant))
    ∧ (p.isExternal = true →
        surfaceCall settings p
          = some { dampingForces := settings.dampingForces
                   reallisticBuoyancy := settings.reallisticBuoyancy && p.solid.isBuoyant })
    ∧ (p.isExternal = false →
        (surfaceCall settings p).isSome = (settings.reallisticBuoyancy && p.solid.isBuoyant)
        ∧ ∀ ps, surfaceCall settings p = some ps → ps.dampingForces = false)
    ∧ (∀ (env : FluidEnv K) (liquid : Ocean K) (c : Compound K),
        surfaceStep env settings liquid c p =
          match surfaceCall settings p with
          | none => c
          | some ps =>
            if p.isExternal then
              { c with
                Fb := c.Fb + (surfaceResult env liquid ps p).Fb
                Tb := c.Tb + (surfaceResult env liquid ps p).Tb
                Fds := c.Fds + (surfaceResult env liquid ps p).Fds
                Tds := c.Tds + (surfaceResult env liquid ps p).Tds
                Fdp := c.Fdp + (surfaceResult env liquid ps p).Fdp
                Tdp := c.Tdp + (surfaceResult env liquid ps p).Tdp }
            else
              { c with
                Fb := c.Fb + (surfaceResult env liquid ps p).Fb
                Tb := c.Tb + (surfaceResult env liquid ps p).Tb }) := by
  refine ⟨?_, ?_, ?_, ?_⟩
  · intro ps h
    unfold surfaceCall partSettings at h
    cases he : p.isExternal <;> cases hr : settings.reallisticBuoyancy <;>
      cases hb : p.solid.isBuoyant <;> simp [he, hr, hb] at h <;> (subst h; rfl)
  · intro he
    simp [surfaceCall, partSettings, he]
  · intro he
    refine ⟨?_, ?_⟩
    · rw [surfaceCall_isSome, he, Bool.false_or]
    · intro ps h
      unfold surfaceCall partSettings at h
      cases hr : settings.reallisticBuoyancy <;> cases hb : p.solid.isBuoyant <;>
        simp [he, hr, hb] at h <;> (subst h; rfl)
  · intro env liquid c
    unfold surfaceStep surfaceCall surfaceResult
    cases he : p.isExternal <;> cases hr : (partSettings settings p).reallisticBuoyancy <;>
      simp [he, hr]

/-- C9 at an internal buoyant part under settings with both flags on: the integrator is called
with `reallisticBuoyancy = true` and `dampingForces = false`. -/
theorem C9_surface_call_settings_witness :
    (⟨cylinder, Transform.getIdentity, false⟩ : CompoundPart ℚ).isExternal = false
    ∧ (surfaceCall ⟨true, true⟩ (⟨cylinder, Transform.getIdentity, false⟩ : CompoundPart ℚ)).isSome
        = true
    ∧ ∀ ps, surfaceCall ⟨true, true⟩ (⟨cylinder, Transform.getIdentity, false⟩ : CompoundPart ℚ)
        = some ps → ps.dampingForces = false :=
  ⟨rfl,
   ((C9_surface_call_settings ⟨true, true⟩
      (⟨cylinder, Transform.getIdentity, false⟩ : CompoundPart ℚ)).2.2.1 rfl).1,
   ((C9_surface_call_settings ⟨true, true⟩
      (⟨cylinder, Transform.getIdentity, false⟩ : CompoundPart ℚ)).2.2.1 rfl).2⟩

/-- For a symmetric matrix the determinant of `I - x * Id` is minus the characteristic cubic
written with the locals `T` and `II` of lines 183-184. -/
theorem shiftDiagonal_determinant (I : Matrix3 K) (x : K)
    (hsym : I.at 1 0 = I.at 0 1 ∧ I.at 2 0 = I.at 0 2 ∧ I.at 2 1 = I.at 1 2) :
    (shiftDiagonal I x).determinant = -charCubic I x := by
  obtain ⟨⟨a, d, e⟩, ⟨d1, b, f⟩, ⟨e1, f1, c⟩⟩ := I
  obtain ⟨h1, h2, h3⟩ := hsym
  simp only [mat_at_10, mat_at_01, mat_at_20, mat_at_02, mat_at_21, mat_at_12] at h1 h2 h3
  subst h1 h2 h3
  simp only [shiftDiagonal, charCubic, traceT, minorsII, Matrix3.determinant, Matrix3.mk9,
    Vector3.dot, Vector3.cross, mat_at_00, mat_at_01, mat_at_02, mat_at_10, mat_at_11,
    mat_at_12, mat_at_20, mat_at_21, mat_at_22]
  ring

/-- The three values of lines 187-189 over the reals are roots of the characteristic cubic of
a symmetric matrix. -/
theorem principalMoments_roots (eps : ℝ) (axis : Matrix3 ℝ → ℝ → Vector3 ℝ) (I : Matrix3 ℝ)
    (hsym : I.at 1 0 = I.at 0 1 ∧ I.at 2 0 = I.at 0 2 ∧ I.at 2 1 = I.at 1 2) :
    charCubic I (principalMoments (realMath eps axis) I).x = 0
    ∧ charCubic I (principalMoments (realMath eps axis) I).y = 0
    ∧ charCubic I (principalMoments (realMath eps axis) I).z = 0 := by
  have hs : 0 ≤ traceT I * traceT I - 3 * minorsII I := by
    obtain ⟨⟨a, d, e⟩, ⟨d1, b, f⟩, ⟨e1, f1, c⟩⟩ := I
    exact trace_sq_nonneg a b c d e f
  have hN : (-2 * traceT I * traceT I * traceT I + 9 * traceT I * minorsII I
      - 27 * I.determinant) ^ 2 ≤ 4 * (traceT I * traceT I - 3 * minorsII I) ^ 3 := by
    obtain ⟨⟨a, d, e⟩, ⟨d1, b, f⟩, ⟨e1, f1, c⟩⟩ := I
    obtain ⟨h1, h2, h3⟩ := hsym
    simp only [mat_at_10, mat_at_01, mat_at_20, mat_at_02, mat_at_21, mat_at_12] at h1 h2 h3
    subst h1 h2 h3
    exact disc_nonneg _ _ _ _ _ _
  refine ⟨?_, ?_, ?_⟩
  · apply closed_form_root (traceT I) (minorsII I) I.determinant _ hs hN
    have h3 : 3 * (momentTheta (realMath eps axis) I / 3) = momentTheta (realMath eps axis) I := by
      ring
    rw [h3]
    rfl
  · apply closed_form_root (traceT I) (minorsII I) I.determinant _ hs hN
    have h3 : 3 * (momentTheta (realMath eps axis) I / 3 - 2 * (realMath eps axis).M_PI / 3)
        = momentTheta (realMath eps axis) I - 2 * Real.pi := by
      simp only [realMath]
      ring
    rw [h3, Real.cos_sub_two_pi]
    rfl
  · apply closed_form_root (traceT I) (minorsII I) I.determinant _ hs hN
    have h3 : 3 * (momentTheta (realMath eps axis) I / 3 + 2 * (realMath eps axis).M_PI / 3)
        = momentTheta (realMath eps axis) I + 2 * Real.pi := by
      simp only [realMath]
      ring
    rw [h3, Real.cos_add_two_pi]
    rfl

/-- C10: over the reals, with the exact square root, arccosine and cosine, each of the three
values `A`, `B`, `C` that the non-diagonal branch computes from a symmetric matrix `I` is a
root of `x³ - T x² + II x - det I`, and so makes `det (I - x * Id)` vanish; on the
non-diagonal branch these three values are the stored `Ipri`. -/
theorem C10_closed_form_eigenvalues (eps : ℝ) (axis : Matrix3 ℝ → ℝ → Vector3 ℝ)
    (I : Matrix3 ℝ)
    (hsym : I.at 1 0 = I.at 0 1 ∧ I.at 2 0 = I.at 0 2 ∧ I.at 2 1 = I.at 1 2) :
    (charCubic I (principalMoments (realMath eps axis) I).x = 0
      ∧ charCubic I (principalMoments (realMath eps axis) I).y = 0
      ∧ charCubic I (principalMoments (realMath eps axis) I).z = 0)
    ∧ ((shiftDiagonal I (principalMoments (realMath eps axis) I).x).determinant = 0
      ∧ (shiftDiagonal I (principalMoments (realMath eps axis) I).y).determinant = 0
      ∧ (shiftDiagonal I (principalMoments (realMath eps axis) I).z).determinant = 0)
    ∧ (∀ c : Compound ℝ, compoundInertia c.parts = I →
        isDiagonal (realMath eps axis) I = false →
        (RecalculatePhysicalProperties (realMath eps axis) c).Ipri
          = principalMoments (realMath eps axis) I) := by
  have h := principalMoments_roots eps axis I hsym
  refine ⟨h, ⟨?_, ?_, ?_⟩, ?_⟩
  · rw [shiftDiagonal_determinant I _ hsym, h.1, neg_zero]
  · rw [shiftDiagonal_determinant I _ hsym, h.2.1, neg_zero]
  · rw [shiftDiagonal_determinant I _ hsym, h.2.2, neg_zero]
  · intro c hI hnd
    simp only [RecalculatePhysicalProperties, hI, hnd, Bool.not_false, if_true]

/-- C10 at the symmetric matrix with rows `(2, 1, 0)`, `(1, 2, 0)`, `(0, 0, 3)`. -/
theorem C10_closed_form_eigenvalues_witness :
    ((Matrix3.mk9 2 1 0 1 2 0 0 0 3 : Matrix3 ℝ).at 1 0 = (Matrix3.mk9 2 1 0 1 2 0 0 0 3).at 0 1
      ∧ (Matrix3.mk9 2 1 0 1 2 0 0 0 3 : Matrix3 ℝ).at 2 0 = (Matrix3.mk9 2 1 0 1 2 0 0 0 3).at 0 2
      ∧ (Matrix3.mk9 2 1 0 1 2 0 0 0 3 : Matrix3 ℝ).at 2 1 = (Matrix3.mk9 2 1 0 1 2 0 0 0 3).at 1 2)
    ∧ charCubic (Matrix3.mk9 2 1 0 1 2 0 0 0 3 : Matrix3 ℝ)
        (principalMoments (realMath (1 / 1000000) (fun _ _ => ⟨1, 0, 0⟩))
          (Matrix3.mk9 2 1 0 1 2 0 0 0 3)).x = 0 :=
  ⟨⟨rfl, rfl, rfl⟩,
   (C10_closed_form_eigenvalues (1 / 1000000) (fun _ _ => ⟨1, 0, 0⟩)
      (Matrix3.mk9 2 1 0 1 2 0 0 0 3) ⟨rfl, rfl, rfl⟩).1.1⟩

/-- The test of lines 178-180 spelled out: every off-diagonal entry is below the tolerance
in absolute value. -/
theorem isDiagonal_of_small (bm : BulletMath K) (I : Matrix3 K)
    (h : ∀ i j : Fin 3, i ≠ j → |I.at i j| < bm.SIMD_EPSILON) :
    isDiagonal bm I = true := by
  have h01 := h 0 1 (by decide)
  have h02 := h 0 2 (by decide)
  have h10 := h 1 0 (by decide)
  have h12 := h 1 2 (by decide)
  have h20 := h 2 0 (by decide)
  have h21 := h 2 1 (by decide)
  simp only [mat_at_01, mat_at_02, mat_at_10, mat_at_12, mat_at_20, mat_at_21] at h01 h02 h10 h12 h20 h21
  simp only [isDiagonal, btFuzzyZero, Matrix3.getRow, Bool.and_eq_true, decide_eq_true_eq]
  exact ⟨⟨⟨⟨⟨h01, h02⟩, h10⟩, h12⟩, h20⟩, h21⟩

/-- The diagonal branch: `Ipri` is the diagonal of `I` and `T_CG2O` is the translation by
`-compoundCG`. -/
theorem recalculate_diagonal (bm : BulletMath K) (c : Compound K)
    (hd : isDiagonal bm (compoundInertia c.parts) = true) :
    (RecalculatePhysicalProperties bm c).Ipri
        = ⟨(compoundInertia c.parts).at 0 0, (compoundInertia c.parts).at 1 1,
           (compoundInertia c.parts).at 2 2⟩
    ∧ (RecalculatePhysicalProperties bm c).T_CG2O
        = ⟨Matrix3.identity, -(massCentres c.parts).compoundCG⟩ := by
  have hnd : (!isDiagonal bm (compoundInertia c.parts)) = false := by rw [hd]; rfl
  constructor
  · show (if (!isDiagonal bm (compoundInertia c.parts)) = true then _ else _) = _
    rw [hnd]
    rfl
  · show (if (!isDiagonal bm (compoundInertia c.parts)) = true then _ else _) = _
    rw [hnd]
    rfl

/-- The centre of gravity of the symmetric pair of point parts is the origin. -/
theorem symmetricPair_cg : (massCentres symmetricPair).compoundCG = 0 := by
  simp [massCentres, massLoop_eq, symmetricPair, pointPart, partFrame, translation,
    tf_mul_def, tf_apply_def, Transform.inverse, Transform.getIdentity, mat_mul_vec_def,
    Matrix3.identity, Matrix3.mk9, Matrix3.transpose, Matrix3.getColumn, Vector3.get,
    Vector3.dot, vec_neg_def, vec_add_def, vec_zero_def, vec_div_scalar_def,
    vec_mul_scalar_def]

/-- The inertia matrix of the symmetric pair of point parts. -/
theorem symmetricPair_inertia :
    compoundInertia symmetricPair = Matrix3.mk9 0 0 0 0 8 0 0 0 8 := by
  have hcg := symmetricPair_cg
  have hf : ∀ x : ℚ, partFrame (pointPart x) = ⟨Matrix3.identity, ⟨x, 0, 0⟩⟩ := by
    intro x
    simp [pointPart, partFrame, translation, tf_mul_def, tf_apply_def, Transform.inverse,
      Transform.getIdentity, mat_mul_vec_def, mat_mul_def, Matrix3.identity, Matrix3.mk9,
      Matrix3.transpose, Matrix3.getColumn, Vector3.get, Vector3.dot, vec_neg_def,
      vec_add_def, vec_zero_def]
  have hentry : ∀ i j : Fin 3, (compoundInertia symmetricPair).at i j
      = (Matrix3.mk9 0 0 0 0 8 0 0 0 8 : Matrix3 ℚ).at i j := by
    intro i j
    rw [compoundInertia_eq]
    simp only [originFrame, hcg, mat_sum_at, List.map_map, Function.comp_def, inertiaStep_at]
    simp only [symmetricPair, List.map_cons, List.map_nil, List.sum_cons, List.sum_nil,
      partInertiaEntry, hf]
    have hm : ∀ x : ℚ, (pointPart x).solid.getMass = 1 := fun _ => rfl
    have hJ : ∀ x : ℚ, (pointPart x).solid.getInertia = 0 := fun _ => rfl
    simp only [hm, hJ]
    fin_cases i <;> fin_cases j <;>
      simp only [Fin.zero_eta, Fin.mk_one, Fin.reduceFinMk, mat_at_00, mat_at_01, mat_at_02,
        mat_at_10, mat_at_11, mat_at_12, mat_at_20, mat_at_21, mat_at_22, vec_get_0,
        vec_get_1, vec_get_2, Matrix3.identity, Matrix3.mk9, vec_zero_def, vec_sub_def,
        Vector3.dot, Fin.isValue, Fin.reduceEq, if_true, if_false] <;>
      norm_num
  ext
  · exact hentry 0 0
  · exact hentry 0 1
  · exact hentry 0 2
  · exact hentry 1 0
  · exact hentry 1 1
  · exact hentry 1 2
  · exact hentry 2 0
  · exact hentry 2 1
  · exact hentry 2 2

/-- C13: if the six off-diagonal entries of the compound inertia matrix `I` are below the
tolerance in absolute value, `RecalculatePhysicalProperties` stores the diagonal
`(I00, I11, I22)` as `Ipri`, and `T_CG2O` has the identity basis and the origin
`-compoundCG`. -/
theorem C13_diagonal_branch (bm : BulletMath K) (c : Compound K)
    (h : ∀ i j : Fin 3, i ≠ j → |(compoundInertia c.parts).at i j| < bm.SIMD_EPSILON) :
    (RecalculatePhysicalProperties bm c).Ipri
        = ⟨(compoundInertia c.parts).at 0 0, (compoundInertia c.parts).at 1 1,
           (compoundInertia c.parts).at 2 2⟩
    ∧ (RecalculatePhysicalProperties bm c).T_CG2O.basis = Matrix3.identity
    ∧ (RecalculatePhysicalProperties bm c).T_CG2O.origin = -(massCentres c.parts).compoundCG := by
  obtain ⟨h1, h2⟩ := recalculate_diagonal bm c (isDiagonal_of_small bm _ h)
  refine ⟨h1, ?_, ?_⟩
  · rw [h2]
  · rw [h2]

/-- C13 at two unit-mass point parts at `(2, 0, 0)` and `(-2, 0, 0)`: `Ipri = (0, 8, 8)` and
the origin of `T_CG2O` is minus the midpoint, the zero vector. -/
theorem C13_diagonal_branch_witness :
    (∀ i j : Fin 3, i ≠ j →
      |(compoundInertia pairCompound.parts).at i j| < sampleMath.SIMD_EPSILON)
    ∧ (RecalculatePhysicalProperties sampleMath pairCompound).Ipri = ⟨0, 8, 8⟩
    ∧ (RecalculatePhysicalProperties sampleMath pairCompound).T_CG2O.basis = Matrix3.identity
    ∧ (RecalculatePhysicalProperties sampleMath pairCompound).T_CG2O.origin = 0 := by
  have hI : compoundInertia pairCompound.parts = Matrix3.mk9 0 0 0 0 8 0 0 0 8 :=
    symmetricPair_inertia
  have hsmall : ∀ i j : Fin 3, i ≠ j →
      |(compoundInertia pairCompound.parts).at i j| < sampleMath.SIMD_EPSILON := by
    intro i j hij
    rw [hI]
    fin_cases i <;> fin_cases j <;>
      first
        | exact absurd rfl hij
        | norm_num [Matrix3.at, Matrix3.getRow, Vector3.get, Matrix3.mk9, sampleMath]
  obtain ⟨h1, h2, h3⟩ := C13_diagonal_branch sampleMath pairCompound hsmall
  refine ⟨hsmall, ?_, h2, ?_⟩
  · rw [h1, hI]
    rfl
  · rw [h3]
    show -(massCentres symmetricPair).compoundCG = 0
    rw [symmetricPair_cg]
    rfl

/-- A sum of equal-shaped terms over a list, each term given on the members only. -/
theorem sum_map_congr_mem {α : Type} (l : List α) (f g : α → K)
    (h : ∀ a ∈ l, f a = g a) : (l.map f).sum = (l.map g).sum := by
  rw [List.map_congr_left h]

theorem sum_map_mul_left (l : List (CompoundPart K)) (q : K) (f : CompoundPart K → K) :
    (l.map (fun p => q * f p)).sum = q * (l.map f).sum := by
  induction l with
  | nil => simp
  | cons a t ih => simp only [List.map_cons, List.sum_cons, ih, mul_add]

theorem sum_map_zero {α : Type} (l : List α) : (l.map (fun _ => (0 : K))).sum = 0 := by
  induction l with
  | nil => rfl
  | cons a t ih => simp only [List.map_cons, List.sum_cons, ih, add_zero]

/-- When every part frame is the pure translation to `q` and the total mass is not zero, the
compound centre of gravity is `q`. -/
theorem massCentres_cg_of_common (parts : List (CompoundPart K)) (q : Vector3 K)
    (hM : (parts.map (fun p => p.solid.getMass)).sum ≠ 0)
    (hf : ∀ p ∈ parts, partFrame p = ⟨Matrix3.identity, q⟩) :
    (massCentres parts).compoundCG = q := by
  have hx : (parts.map (fun p => (partFrame p).origin * p.solid.getMass)).sum
      = q * (parts.map (fun p => p.solid.getMass)).sum := by
    ext
    · rw [vec_sum_x, List.map_map, vec_mul_scalar_def]
      rw [sum_map_congr_mem parts _ (fun p => q.x * p.solid.getMass)
        (fun p hp => by simp [Function.comp_def, hf p hp, vec_mul_scalar_def])]
      exact sum_map_mul_left parts q.x _
    · rw [vec_sum_y, List.map_map, vec_mul_scalar_def]
      rw [sum_map_congr_mem parts _ (fun p => q.y * p.solid.getMass)
        (fun p hp => by simp [Function.comp_def, hf p hp, vec_mul_scalar_def])]
      exact sum_map_mul_left parts q.y _
    · rw [vec_sum_z, List.map_map, vec_mul_scalar_def]
      rw [sum_map_congr_mem parts _ (fun p => q.z * p.solid.getMass)
        (fun p hp => by simp [Function.comp_def, hf p hp, vec_mul_scalar_def])]
      exact sum_map_mul_left parts q.z _
  simp only [massCentres, massLoop_eq]
  rw [hx, vec_div_scalar_def, vec_mul_scalar_def, vec_mul_scalar_def]
  ext <;> simp only [] <;> field_simp

/-- With identity basis and the part's centre of gravity at `cg`, the part adds its own
principal moments on the diagonal and nothing elsewhere. -/
theorem partInertiaEntry_of_common (cg : Vector3 K) (p : CompoundPart K)
    (hf : partFrame p = ⟨Matrix3.identity, cg⟩) (i j : Fin 3) :
    partInertiaEntry cg p i j = if i = j then p.solid.getInertia.get i else 0 := by
  unfold partInertiaEntry
  rw [hf]
  fin_cases i <;> fin_cases j <;>
    simp only [Fin.zero_eta, Fin.mk_one, Fin.reduceFinMk, mat_at_00, mat_at_01, mat_at_02,
      mat_at_10, mat_at_11, mat_at_12, mat_at_20, mat_at_21, mat_at_22, vec_get_0,
      vec_get_1, vec_get_2, Matrix3.identity, Matrix3.mk9, vec_sub_def,
      Vector3.dot, Fin.isValue, Fin.reduceEq, if_true, if_false] <;>
    ring

/-- C20: for a part list with non-zero total mass in which every part frame
`origin * getCG2OTransform().inverse()` has the identity basis and the same origin `q`, and
with a positive tolerance, `Ipri` is the component-wise sum of the parts' principal moments
and the basis of `T_CG2O` is the identity. -/
theorem C20_coincident_axis_aligned (bm : BulletMath K) (c : Compound K) (q : Vector3 K)
    (heps : 0 < bm.SIMD_EPSILON)
    (hM : (c.parts.map (fun p => p.solid.getMass)).sum ≠ 0)
    (hf : ∀ p ∈ c.parts, partFrame p = ⟨Matrix3.identity, q⟩) :
    (RecalculatePhysicalProperties bm c).Ipri
        = ⟨(c.parts.map (fun p => p.solid.getInertia.x)).sum,
           (c.parts.map (fun p => p.solid.getInertia.y)).sum,
           (c.parts.map (fun p => p.solid.getInertia.z)).sum⟩
    ∧ (RecalculatePhysicalProperties bm c).T_CG2O.basis = Matrix3.identity := by
  have hcg := massCentres_cg_of_common c.parts q hM hf
  have hentry : ∀ i j : Fin 3, (compoundInertia c.parts).at i j
      = (c.parts.map (fun p => if i = j then p.solid.getInertia.get i else 0)).sum := by
    intro i j
    rw [compoundInertia_eq, mat_sum_at, List.map_map]
    apply sum_map_congr_mem
    intro p hp
    simp only [Function.comp_def, originFrame, inertiaStep_at, hcg]
    exact partInertiaEntry_of_common q p (hf p hp) i j
  have hoff : ∀ i j : Fin 3, i ≠ j → (compoundInertia c.parts).at i j = 0 := by
    intro i j hij
    rw [hentry i j]
    simp only [hij, if_false]
    exact sum_map_zero c.parts
  have hd : isDiagonal bm (compoundInertia c.parts) = true := by
    apply isDiagonal_of_small
    intro i j hij
    rw [hoff i j hij, abs_zero]
    exact heps
  obtain ⟨h1, h2⟩ := recalculate_diagonal bm c hd
  refine ⟨?_, by rw [h2]⟩
  rw [h1, hentry 0 0, hentry 1 1, hentry 2 2]
  simp only [if_true, vec_get_0, vec_get_1, vec_get_2]

/-- C20 at the cylinder and the battery pack both placed at the origin with identity
rotation: `Ipri = (1, 1, 2) + (1, 1, 1)`. -/
theorem C20_coincident_axis_aligned_witness :
    0 < sampleMath.SIMD_EPSILON
    ∧ (stackedCompound.parts.map (fun p => p.solid.getMass)).sum ≠ 0
    ∧ (∀ p ∈ stackedCompound.parts, partFrame p = ⟨Matrix3.identity, 0⟩)
    ∧ (RecalculatePhysicalProperties sampleMath stackedCompound).Ipri = ⟨2, 2, 3⟩
    ∧ (RecalculatePhysicalProperties sampleMath stackedCompound).T_CG2O.basis
        = Matrix3.identity := by
  have heps : 0 < sampleMath.SIMD_EPSILON := by norm_num [sampleMath]
  have hM : (stackedCompound.parts.map (fun p => p.solid.getMass)).sum ≠ 0 := by
    norm_num [stackedCompound, emptyCompound, cylinder, batteryPack]
  have hf : ∀ p ∈ stackedCompound.parts, partFrame p = ⟨Matrix3.identity, 0⟩ := by
    intro p hp
    simp only [stackedCompound, List.mem_cons, List.mem_singleton, List.not_mem_nil,
      or_false] at hp
    rcases hp with rfl | rfl <;>
      simp [cylinder, batteryPack, partFrame, tf_mul_def, tf_apply_def, Transform.inverse,
        Transform.getIdentity, mat_mul_vec_def, mat_mul_def, Matrix3.identity, Matrix3.mk9,
        Matrix3.transpose, Matrix3.getColumn, Vector3.get, Vector3.dot, vec_neg_def,
        vec_add_def, vec_zero_def]
  obtain ⟨h1, h2⟩ := C20_coincident_axis_aligned sampleMath stackedCompound 0 heps hM hf
  refine ⟨heps, hM, hf, ?_, h2⟩
  rw [h1]
  norm_num [stackedCompound, emptyCompound, cylinder, batteryPack]

/-- C16, as first stated, fails: with hydrodynamics disabled the earlier content of the
force vectors is still there after `ComputeFluidForces`. -/
theorem C16_counterexample :
    idleCompound.computeHydro = false
    ∧ (ComputeFluidForces (sampleEnv BodyFluidPosition.INSIDE_FLUID) ⟨true, true⟩ water
        idleCompound).Fb = ⟨0, 0, -98⟩
    ∧ (ComputeFluidForces (sampleEnv BodyFluidPosition.INSIDE_FLUID) ⟨true, true⟩ water
        idleCompound).Fb ≠ 0 := by
  refine ⟨rfl, rfl, ?_⟩
  show (⟨0, 0, -98⟩ : Vector3 ℚ) ≠ 0
  decide

/-- C16 (amended): with hydrodynamics disabled `ComputeFluidForces` returns the body as it
was, so each of the six force and torque vectors keeps its earlier content, for every fluid
position and settings value; they are all zero afterwards when they were all zero before. -/
theorem C16_disabled_unchanged (env : FluidEnv K) (settings : HydrodynamicsSettings)
    (liquid : Ocean K) (c : Compound K) (hHydro : c.computeHydro = false) :
    ComputeFluidForces env settings liquid c = c
    ∧ forcesOf (ComputeFluidForces env settings liquid c) = forcesOf c
    ∧ (forcesOf c = ⟨0, 0, 0, 0, 0, 0⟩ →
        forcesOf (ComputeFluidForces env settings liquid c) = ⟨0, 0, 0, 0, 0, 0⟩) := by
  have h : ComputeFluidForces env settings liquid c = c := by
    unfold ComputeFluidForces
    rw [hHydro]
    rfl
  refine ⟨h, by rw [h], ?_⟩
  intro h0
  rw [h, h0]

/-- C16 (amended) at the loaded sample with hydrodynamics disabled. -/
theorem C16_disabled_unchanged_witness :
    idleCompound.computeHydro = false
    ∧ ComputeFluidForces (sampleEnv BodyFluidPosition.CROSSING_FLUID_SURFACE) ⟨true, true⟩ water
        idleCompound = idleCompound :=
  ⟨rfl,
   (C16_disabled_unchanged (sampleEnv BodyFluidPosition.CROSSING_FLUID_SURFACE) ⟨true, true⟩
      water idleCompound rfl).1⟩

/-- C15, as first stated, fails: for a part list of total mass zero the reference behaviour
is the error, while the recalculation returns a body, of mass zero and with the part list
as it was. -/
theorem C15_counterexample :
    (masslessCompound.parts.map (fun p => p.solid.getMass)).sum ≤ 0
    ∧ specRecalculate sampleMath masslessCompound
        = Except.error DegenerateBodyError.nonPositiveMass
    ∧ (RecalculatePhysicalProperties sampleMath masslessCompound).mass = 0
    ∧ (RecalculatePhysicalProperties sampleMath masslessCompound).parts = [masslessPart]
    ∧ specRecalculate sampleMath masslessCompound
        ≠ Except.ok (RecalculatePhysicalProperties sampleMath masslessCompound) := by
  have hM : (masslessCompound.parts.map (fun p => p.solid.getMass)).sum = 0 := by
    norm_num [masslessCompound, masslessPart]
  have hspec : specRecalculate sampleMath masslessCompound
      = Except.error DegenerateBodyError.nonPositiveMass := by
    unfold specRecalculate
    rw [hM]
    rfl
  refine ⟨hM.le, hspec, ?_, rfl, ?_⟩
  · rw [RecalculatePhysicalProperties_mass, hM]
  · rw [hspec]
    intro h
    cases h

/-- C15 (amended): the recalculation and the two attach operations report no error. For
every part list, also of total mass `≤ 0`, they return a body whose part list is the one
given, whose mass is the sum of the part masses and whose volume is the buoyant volume sum;
the reference behaviour is an error exactly when the total mass is `≤ 0`, and otherwise it is
the body the recalculation returns. -/
theorem C15_no_degenerate_error (bm : BulletMath K) (c : Compound K) :
    ((RecalculatePhysicalProperties bm c).parts = c.parts
      ∧ (RecalculatePhysicalProperties bm c).mass = (c.parts.map (fun p => p.solid.getMass)).sum
      ∧ (RecalculatePhysicalProperties bm c).volume
          = ((c.parts.filter (fun p => p.solid.isBuoyant)).map (fun p => p.solid.getVolume)).sum)
    ∧ (∀ p : CompoundPart K,
        attach bm c p = RecalculatePhysicalProperties bm { c with parts := c.parts ++ [p] })
    ∧ ((c.parts.map (fun p => p.solid.getMass)).sum ≤ 0 →
        specRecalculate bm c = Except.error DegenerateBodyError.nonPositiveMass
        ∧ specRecalculate bm c ≠ Except.ok (RecalculatePhysicalProperties bm c))
    ∧ (0 < (c.parts.map (fun p => p.solid.getMass)).sum →
        specRecalculate bm c = Except.ok (RecalculatePhysicalProperties bm c)) := by
  refine ⟨⟨rfl, RecalculatePhysicalProperties_mass bm c,
    RecalculatePhysicalProperties_volume bm c⟩, ?_, ?_, ?_⟩
  · intro p
    exact attach_eq bm c p
  · intro hM
    have hspec : specRecalculate bm c = Except.error DegenerateBodyError.nonPositiveMass := by
      unfold specRecalculate
      rw [if_pos hM]
    refine ⟨hspec, ?_⟩
    rw [hspec]
    intro h
    cases h
  · intro hM
    unfold specRecalculate
    rw [if_neg (not_le.mpr hM)]

/-- C15 (amended) at the samples: total mass zero gives the error only in the reference
behaviour, total mass 15 gives the recalculated body in both. -/
theorem C15_no_degenerate_error_witness :
    (masslessCompound.parts.map (fun p => p.solid.getMass)).sum ≤ 0
    ∧ specRecalculate sampleMath masslessCompound
        ≠ Except.ok (RecalculatePhysicalProperties sampleMath masslessCompound)
    ∧ 0 < (twoPart.parts.map (fun p => p.solid.getMass)).sum
    ∧ specRecalculate sampleMath twoPart
        = Except.ok (RecalculatePhysicalProperties sampleMath twoPart) := by
  have hM0 : (masslessCompound.parts.map (fun p => p.solid.getMass)).sum ≤ 0 := by
    norm_num [masslessCompound, masslessPart]
  have hM1 : 0 < (twoPart.parts.map (fun p => p.solid.getMass)).sum := by
    rw [twoPart_parts]; norm_num [cylinder, batteryPack]
  exact ⟨hM0, ((C15_no_degenerate_error sampleMath masslessCompound).2.2.1 hM0).2, hM1,
    (C15_no_degenerate_error sampleMath twoPart).2.2.2 hM1⟩

theorem vec_sum_map_zero {α : Type} (l : List α) :
    (l.map (fun _ => (0 : Vector3 K))).sum = 0 := by
  induction l with
  | nil => rfl
  | cons a t ih => simp only [List.map_cons, List.sum_cons, ih, vec_add_zero3]

theorem vec_sum_replicate_zero (n : Nat) : (List.replicate n (0 : Vector3 K)).sum = 0 := by
  induction n with
  | zero => rfl
  | succ n ih => simp only [List.replicate_succ, List.sum_cons, ih, vec_add_zero3]

theorem idem_no_contract (env : FluidEnv K) (settings : HydrodynamicsSettings)
    (liquid : Ocean K) (c : Compound K)
    (h : env.CheckBodyFluidPosition liquid ≠ BodyFluidPosition.CROSSING_FLUID_SURFACE
      ∨ settings.reallisticBuoyancy = settings.dampingForces) :
    ComputeFluidForces env settings liquid (ComputeFluidForces env settings liquid c)
      = ComputeFluidForces env settings liquid c := by
  cases hH : c.computeHydro
  · simp [ComputeFluidForces, hH]
  · cases hbf : env.CheckBodyFluidPosition liquid
    · simp [ComputeFluidForces, setZeroForces, hH, hbf]
    · cases hb : c.buoyant <;> cases hd : settings.dampingForces <;>
        simp [ComputeFluidForces, assembleFluidForces, insideFluid, foldl_submergedStep,
          applyCorrectDampingForces, setZeroDrag, hH, hbf, hb, hd, vec_zero_add3]
    · rcases h with h | h
      · exact absurd hbf h
      · cases hd : settings.dampingForces <;> rw [hd] at h <;>
          simp [ComputeFluidForces, assembleFluidForces, crossingFluidSurface, foldl_surfaceStep,
            applyCorrectDampingForces, setZeroDrag, hH, hbf, h, hd, vec_zero_add3]

theorem idem_contract (env : FluidEnv K) (settings : HydrodynamicsSettings)
    (liquid : Ocean K) (c : Compound K)
    (hbf : env.CheckBodyFluidPosition liquid = BodyFluidPosition.CROSSING_FLUID_SURFACE)
    (hz : zeroWhenDisabled env) :
    ComputeFluidForces env settings liquid (ComputeFluidForces env settings liquid c)
      = ComputeFluidForces env settings liquid c := by
  cases hr : settings.reallisticBuoyancy <;> cases hd : settings.dampingForces
  · exact idem_no_contract env settings liquid c (Or.inr (by rw [hr, hd]))
  · -- buoyancy is not cleared: the integrator adds zero to it
    have hb : ∀ p : CompoundPart K,
        (surfaceResult env liquid (callSettings settings p) p).Fb = 0
        ∧ (surfaceResult env liquid (callSettings settings p) p).Tb = 0 := by
      intro p
      apply (hz _ _ _ _ _ _ _).1
      cases he : p.isExternal <;> simp [callSettings, partSettings, hr, he]
    cases hH : c.computeHydro
    · simp [ComputeFluidForces, hH]
    · simp [ComputeFluidForces, assembleFluidForces, crossingFluidSurface, foldl_surfaceStep,
        applyCorrectDampingForces, setZeroDrag, hH, hbf, hr, hd, vec_zero_add3, hb,
        vec_sum_map_zero, vec_sum_replicate_zero, vec_add_zero3]
  · -- drag is not cleared: the integrator adds zero to it
    have hdz : ∀ p : CompoundPart K,
        (surfaceResult env liquid (partSettings settings p) p).Fds = 0
        ∧ (surfaceResult env liquid (partSettings settings p) p).Tds = 0
        ∧ (surfaceResult env liquid (partSettings settings p) p).Fdp = 0
        ∧ (surfaceResult env liquid (partSettings settings p) p).Tdp = 0 := by
      intro p
      apply (hz _ _ _ _ _ _ _).2
      simp [partSettings, hd]
    cases hH : c.computeHydro
    · simp [ComputeFluidForces, hH]
    · simp [ComputeFluidForces, assembleFluidForces, crossingFluidSurface, foldl_surfaceStep,
        applyCorrectDampingForces, setZeroDrag, hH, hbf, hr, hd, vec_zero_add3, hdz,
        vec_sum_map_zero, vec_sum_replicate_zero, vec_add_zero3]
  · exact idem_no_contract env settings liquid c (Or.inr (by rw [hr, hd]))

/-- In the CROSSING state with damping enabled and realistic buoyancy disabled the buoyancy
pair is not cleared: the integrator's buoyancy outputs for the external parts are added to
the earlier content. -/
theorem crossing_unclear_buoyancy (env : FluidEnv K) (settings : HydrodynamicsSettings)
    (liquid : Ocean K) (c : Compound K)
    (hH : c.computeHydro = true)
    (hbf : env.CheckBodyFluidPosition liquid = BodyFluidPosition.CROSSING_FLUID_SURFACE)
    (hr : settings.reallisticBuoyancy = false) (hd : settings.dampingForces = true) :
    (ComputeFluidForces env settings liquid c).Fb
        = c.Fb + ((c.parts.filter (fun p => p.isExternal)).map
            (fun p => (surfaceResult env liquid (callSettings settings p) p).Fb)).sum
    ∧ (ComputeFluidForces env settings liquid c).Tb
        = c.Tb + ((c.parts.filter (fun p => p.isExternal)).map
            (fun p => (surfaceResult env liquid (callSettings settings p) p).Tb)).sum
    ∧ (ComputeFluidForces env settings liquid c).parts = c.parts
    ∧ (ComputeFluidForces env settings liquid c).computeHydro = true := by
  have hinv : (invoked settings : CompoundPart K → Bool) = fun p => p.isExternal := by
    funext p
    simp [invoked, partSettings, hr]
  simp [ComputeFluidForces, assembleFluidForces, crossingFluidSurface, foldl_surfaceStep,
    applyCorrectDampingForces, setZeroDrag, hH, hbf, hr, hd, hinv]

/-- In the CROSSING state with realistic buoyancy enabled and damping disabled the four drag
vectors are not cleared: the integrator's drag outputs for the external parts are added to
the earlier content. -/
theorem crossing_unclear_drag (env : FluidEnv K) (settings : HydrodynamicsSettings)
    (liquid : Ocean K) (c : Compound K)
    (hH : c.computeHydro = true)
    (hbf : env.CheckBodyFluidPosition liquid = BodyFluidPosition.CROSSING_FLUID_SURFACE)
    (hr : settings.reallisticBuoyancy = true) (hd : settings.dampingForces = false) :
    (ComputeFluidForces env settings liquid c).Fds
        = c.Fds + ((c.parts.filter (fun p => p.isExternal)).map
            (fun p => (surfaceResult env liquid (partSettings settings p) p).Fds)).sum
    ∧ (ComputeFluidForces env settings liquid c).Tds
        = c.Tds + ((c.parts.filter (fun p => p.isExternal)).map
            (fun p => (surfaceResult env liquid (partSettings settings p) p).Tds)).sum
    ∧ (ComputeFluidForces env settings liquid c).Fdp
        = c.Fdp + ((c.parts.filter (fun p => p.isExternal)).map
            (fun p => (surfaceResult env liquid (partSettings settings p) p).Fdp)).sum
    ∧ (ComputeFluidForces env settings liquid c).Tdp
        = c.Tdp + ((c.parts.filter (fun p => p.isExternal)).map
            (fun p => (surfaceResult env liquid (partSettings settings p) p).Tdp)).sum := by
  simp [ComputeFluidForces, assembleFluidForces, crossingFluidSurface, foldl_surfaceStep,
    hH, hbf, hr, hd]

/-- C18, as first stated, fails: in the CROSSING state with damping enabled and realistic
buoyancy disabled, an integrator that reports buoyancy whatever its settings makes `Fb` grow
with every call: `(0, 0, -2)` after the first call, `(0, 0, -4)` after the second. -/
theorem C18_counterexample :
    (ComputeFluidForces leakyEnv ⟨true, false⟩ water shellCompound).Fb = ⟨0, 0, -2⟩
    ∧ (ComputeFluidForces leakyEnv ⟨true, false⟩ water
        (ComputeFluidForces leakyEnv ⟨true, false⟩ water shellCompound)).Fb = ⟨0, 0, -4⟩
    ∧ ComputeFluidForces leakyEnv ⟨true, false⟩ water
        (ComputeFluidForces leakyEnv ⟨true, false⟩ water shellCompound)
      ≠ ComputeFluidForces leakyEnv ⟨true, false⟩ water shellCompound := by
  have h1 := crossing_unclear_buoyancy leakyEnv ⟨true, false⟩ water shellCompound rfl rfl rfl rfl
  have hFb1 : (ComputeFluidForces leakyEnv ⟨true, false⟩ water shellCompound).Fb = ⟨0, 0, -2⟩ := by
    rw [h1.1, shellCompound_parts]
    simp [shellCompound, AddExternalPart, RecalculatePhysicalProperties, emptyCompound,
      batteryPack, surfaceResult, leakyEnv, vec_add_def, vec_zero_def]
  have h2 := crossing_unclear_buoyancy leakyEnv ⟨true, false⟩ water
    (ComputeFluidForces leakyEnv ⟨true, false⟩ water shellCompound) h1.2.2.2 rfl rfl rfl
  have hFb2 : (ComputeFluidForces leakyEnv ⟨true, false⟩ water
      (ComputeFluidForces leakyEnv ⟨true, false⟩ water shellCompound)).Fb = ⟨0, 0, -4⟩ := by
    rw [h2.1, h1.2.2.1, hFb1, shellCompound_parts]
    simp [batteryPack, surfaceResult, leakyEnv, vec_add_def, vec_zero_def]
    norm_num
  refine ⟨hFb1, hFb2, ?_⟩
  intro h
  have h3 := congrArg Compound.Fb h
  rw [hFb1, hFb2] at h3
  simp at h3

/-- C18 (amended): `ComputeFluidForces` is idempotent when hydrodynamics is disabled, in the
OUTSIDE and INSIDE states, and in the CROSSING state when the two settings are both on or both
off; in the CROSSING state with exactly one of them on it is idempotent when the surface
integrator returns zero for the disabled pair (zero buoyancy for `reallisticBuoyancy = false`,
zero drag for `dampingForces = false`). -/
theorem C18_idempotent (env : FluidEnv K) (settings : HydrodynamicsSettings)
    (liquid : Ocean K) (c : Compound K)
    (h : env.CheckBodyFluidPosition liquid ≠ BodyFluidPosition.CROSSING_FLUID_SURFACE
      ∨ settings.reallisticBuoyancy = settings.dampingForces
      ∨ zeroWhenDisabled env) :
    ComputeFluidForces env settings liquid (ComputeFluidForces env settings liquid c)
      = ComputeFluidForces env settings liquid c := by
  rcases h with h | h | h
  · exact idem_no_contract env settings liquid c (Or.inl h)
  · exact idem_no_contract env settings liquid c (Or.inr h)
  · by_cases hbf : env.CheckBodyFluidPosition liquid = BodyFluidPosition.CROSSING_FLUID_SURFACE
    · exact idem_contract env settings liquid c hbf h
    · exact idem_no_contract env settings liquid c (Or.inl hbf)

/-- The sample integrator returns zero for a disabled pair. -/
theorem sampleEnv_zeroWhenDisabled (bf : BodyFluidPosition) : zeroWhenDisabled (sampleEnv bf) := by
  intro ps mesh l t1 t2 v w
  refine ⟨?_, ?_⟩
  · intro h
    simp [sampleEnv, h]
  · intro h
    simp [sampleEnv, h]

/-- C18 (amended) at the loaded sample, CROSSING with damping only: a second call changes
nothing. -/
theorem C18_idempotent_witness :
    zeroWhenDisabled (sampleEnv BodyFluidPosition.CROSSING_FLUID_SURFACE)
    ∧ ComputeFluidForces (sampleEnv BodyFluidPosition.CROSSING_FLUID_SURFACE) ⟨true, false⟩ water
        (ComputeFluidForces (sampleEnv BodyFluidPosition.CROSSING_FLUID_SURFACE) ⟨true, false⟩
          water loadedCompound)
      = ComputeFluidForces (sampleEnv BodyFluidPosition.CROSSING_FLUID_SURFACE) ⟨true, false⟩
          water loadedCompound :=
  ⟨sampleEnv_zeroWhenDisabled _,
   C18_idempotent (sampleEnv BodyFluidPosition.CROSSING_FLUID_SURFACE) ⟨true, false⟩ water
     loadedCompound (Or.inr (Or.inr (sampleEnv_zeroWhenDisabled _)))⟩

/-- C17, as first stated, fails: in the CROSSING state with both settings off nothing is
written, and in the INSIDE state with damping off the drag vectors are not written, so two
bodies that differ only in the earlier content of the force vectors end with different
vectors. -/
theorem C17_counterexample :
    loadedCompound = withForces twoPart (forcesOf loadedCompound)
    ∧ twoPart = withForces twoPart (forcesOf twoPart)
    ∧ (ComputeFluidForces (sampleEnv BodyFluidPosition.CROSSING_FLUID_SURFACE) ⟨false, false⟩
        water loadedCompound).Fb = ⟨0, 0, -98⟩
    ∧ (ComputeFluidForces (sampleEnv BodyFluidPosition.CROSSING_FLUID_SURFACE) ⟨false, false⟩
        water twoPart).Fb = 0
    ∧ (ComputeFluidForces (sampleEnv BodyFluidPosition.INSIDE_FLUID) ⟨false, true⟩
        water loadedCompound).Fds = ⟨3, 0, 0⟩
    ∧ (ComputeFluidForces (sampleEnv BodyFluidPosition.INSIDE_FLUID) ⟨false, true⟩
        water twoPart).Fds = 0
    ∧ forcesOf (ComputeFluidForces (sampleEnv BodyFluidPosition.CROSSING_FLUID_SURFACE)
        ⟨false, false⟩ water loadedCompound)
      ≠ forcesOf (ComputeFluidForces (sampleEnv BodyFluidPosition.CROSSING_FLUID_SURFACE)
        ⟨false, false⟩ water twoPart) := by
  refine ⟨rfl, rfl, rfl, rfl, rfl, rfl, ?_⟩
  intro h
  have h3 := congrArg SurfaceForces.Fb h
  have h4 : (⟨0, 0, -98⟩ : Vector3 ℚ) = 0 := h3
  revert h4
  decide

/-- C17 (amended): with hydrodynamics enabled, the six force and torque vectors after
`ComputeFluidForces` do not depend on their earlier content in the OUTSIDE state, in the
INSIDE state when the compound is buoyant and damping is on, and in the CROSSING state when
both settings are on. Otherwise a pair that is not recomputed keeps its earlier content
(INSIDE: the buoyancy pair of a non-buoyant compound, the drag pairs with damping off;
CROSSING with both settings off: all six) or has the external parts' integrator outputs
added to it (CROSSING with exactly one setting on). -/
theorem C17_overwrite (env : FluidEnv K) (settings : HydrodynamicsSettings)
    (liquid : Ocean K) (c : Compound K) (a1 a2 : SurfaceForces K)
    (hH : c.computeHydro = true) :
    (env.CheckBodyFluidPosition liquid = BodyFluidPosition.OUTSIDE_FLUID →
      ComputeFluidForces env settings liquid (withForces c a1)
        = ComputeFluidForces env settings liquid (withForces c a2))
    ∧ (env.CheckBodyFluidPosition liquid = BodyFluidPosition.INSIDE_FLUID →
        c.buoyant = true → settings.dampingForces = true →
      ComputeFluidForces env settings liquid (withForces c a1)
        = ComputeFluidForces env settings liquid (withForces c a2))
    ∧ (env.CheckBodyFluidPosition liquid = BodyFluidPosition.CROSSING_FLUID_SURFACE →
        settings.reallisticBuoyancy = true → settings.dampingForces = true →
      ComputeFluidForces env settings liquid (withForces c a1)
        = ComputeFluidForces env settings liquid (withForces c a2))
    ∧ (env.CheckBodyFluidPosition liquid = BodyFluidPosition.INSIDE_FLUID →
        c.buoyant = false →
      (ComputeFluidForces env settings liquid (withForces c a1)).Fb = a1.Fb
      ∧ (ComputeFluidForces env settings liquid (withForces c a1)).Tb = a1.Tb)
    ∧ (env.CheckBodyFluidPosition liquid = BodyFluidPosition.INSIDE_FLUID →
        settings.dampingForces = false →
      (ComputeFluidForces env settings liquid (withForces c a1)).Fds = a1.Fds
      ∧ (ComputeFluidForces env settings liquid (withForces c a1)).Tds = a1.Tds
      ∧ (ComputeFluidForces env settings liquid (withForces c a1)).Fdp = a1.Fdp
      ∧ (ComputeFluidForces env settings liquid (withForces c a1)).Tdp = a1.Tdp)
    ∧ (env.CheckBodyFluidPosition liquid = BodyFluidPosition.CROSSING_FLUID_SURFACE →
        settings.reallisticBuoyancy = false → settings.dampingForces = false →
      forcesOf (ComputeFluidForces env settings liquid (withForces c a1)) = a1)
    ∧ (env.CheckBodyFluidPosition liquid = BodyFluidPosition.CROSSING_FLUID_SURFACE →
        settings.reallisticBuoyancy = false → settings.dampingForces = true →
      (ComputeFluidForces env settings liquid (withForces c a1)).Fb
        = a1.Fb + ((c.parts.filter (fun p => p.isExternal)).map
            (fun p => (surfaceResult env liquid (callSettings settings p) p).Fb)).sum
      ∧ (ComputeFluidForces env settings liquid (withForces c a1)).Tb
        = a1.Tb + ((c.parts.filter (fun p => p.isExternal)).map
            (fun p => (surfaceResult env liquid (callSettings settings p) p).Tb)).sum)
    ∧ (env.CheckBodyFluidPosition liquid = BodyFluidPosition.CROSSING_FLUID_SURFACE →
        settings.reallisticBuoyancy = true → settings.dampingForces = false →
      (ComputeFluidForces env settings liquid (withForces c a1)).Fds
        = a1.Fds + ((c.parts.filter (fun p => p.isExternal)).map
            (fun p => (surfaceResult env liquid (partSettings settings p) p).Fds)).sum
      ∧ (ComputeFluidForces env settings liquid (withForces c a1)).Fdp
        = a1.Fdp + ((c.parts.filter (fun p => p.isExternal)).map
            (fun p => (surfaceResult env liquid (partSettings settings p) p).Fdp)).sum) := by
  have hH1 : (withForces c a1).computeHydro = true := hH
  refine ⟨?_, ?_, ?_, ?_, ?_, ?_, ?_, ?_⟩
  · intro hbf
    simp [ComputeFluidForces, setZeroForces, withForces, hH, hbf]
  · intro hbf hb hd
    simp [ComputeFluidForces, assembleFluidForces, insideFluid, foldl_submergedStep,
      applyCorrectDampingForces, setZeroDrag, withForces, hH, hbf, hb, hd, vec_zero_add3]
  · intro hbf hr hd
    simp [ComputeFluidForces, assembleFluidForces, crossingFluidSurface, foldl_surfaceStep,
      applyCorrectDampingForces, setZeroDrag, withForces, hH, hbf, hr, hd, vec_zero_add3]
  · intro hbf hb
    cases hd : settings.dampingForces <;>
      simp [ComputeFluidForces, assembleFluidForces, insideFluid, foldl_submergedStep,
        applyCorrectDampingForces, setZeroDrag, withForces, hH, hbf, hb, hd, vec_zero_add3]
  · intro hbf hd
    cases hb : c.buoyant <;>
      simp [ComputeFluidForces, assembleFluidForces, insideFluid, withForces, hH, hbf, hb, hd]
  · intro hbf hr hd
    simp [ComputeFluidForces, assembleFluidForces, crossingFluidSurface, withForces, forcesOf,
      hH, hbf, hr, hd]
  · intro hbf hr hd
    have h := crossing_unclear_buoyancy env settings liquid (withForces c a1) hH1 hbf hr hd
    exact ⟨h.1, h.2.1⟩
  · intro hbf hr hd
    have h := crossing_unclear_drag env settings liquid (withForces c a1) hH1 hbf hr hd
    exact ⟨h.1, h.2.2.1⟩

/-- C17 (amended) at the two-part sample in the CROSSING state with both settings on: the
loaded and the unloaded body end with the same force vectors. -/
theorem C17_overwrite_witness :
    twoPart.computeHydro = true
    ∧ ComputeFluidForces (sampleEnv BodyFluidPosition.CROSSING_FLUID_SURFACE) ⟨true, true⟩ water
        (withForces twoPart (forcesOf loadedCompound))
      = ComputeFluidForces (sampleEnv BodyFluidPosition.CROSSING_FLUID_SURFACE) ⟨true, true⟩ water
        (withForces twoPart (forcesOf twoPart)) :=
  ⟨rfl,
   (C17_overwrite (sampleEnv BodyFluidPosition.CROSSING_FLUID_SURFACE) ⟨true, true⟩ water
      twoPart (forcesOf loadedCompound) (forcesOf twoPart) rfl).2.2.1 rfl rfl rfl⟩

/-- A sum of vectors over a list does not depend on the order of the list. -/
theorem vec_sum_perm {α : Type} (l1 l2 : List α) (f : α → Vector3 K) (h : l1.Perm l2) :
    (l1.map f).sum = (l2.map f).sum := by
  ext
  · rw [vec_sum_x, vec_sum_x]
    exact ((h.map f).map Vector3.x).sum_eq
  · rw [vec_sum_y, vec_sum_y]
    exact ((h.map f).map Vector3.y).sum_eq
  · rw [vec_sum_z, vec_sum_z]
    exact ((h.map f).map Vector3.z).sum_eq

/-- The first loop does not depend on the order of the parts. -/
theorem massLoop_perm (l1 l2 : List (CompoundPart K)) (h : l1.Perm l2) :
    massLoop l1 = massLoop l2 := by
  rw [massLoop_eq, massLoop_eq]
  have hf : (l1.filter (fun p => p.solid.isBuoyant)).Perm
      (l2.filter (fun p => p.solid.isBuoyant)) := h.filter _
  congr 1
  · exact (h.map _).sum_eq
  · exact vec_sum_perm l1 l2 _ h
  · exact (hf.map _).sum_eq
  · exact vec_sum_perm _ _ _ hf

theorem massCentres_perm (l1 l2 : List (CompoundPart K)) (h : l1.Perm l2) :
    massCentres l1 = massCentres l2 := by
  unfold massCentres
  rw [massLoop_perm l1 l2 h]

/-- The compound inertia matrix does not depend on the order of the parts. -/
theorem compoundInertia_perm (l1 l2 : List (CompoundPart K)) (h : l1.Perm l2) :
    compoundInertia l1 = compoundInertia l2 := by
  apply mat_ext_at
  intro i j
  rw [compoundInertia_eq, compoundInertia_eq, mat_sum_at, mat_sum_at, List.map_map,
    List.map_map]
  have ho : originFrame l1 = originFrame l2 := by
    unfold originFrame
    rw [massCentres_perm l1 l2 h]
  rw [ho]
  exact (h.map _).sum_eq

/-- What the recalculation stores depends on the part list only, and not on its order. -/
theorem recalculate_perm (bm : BulletMath K) (c1 c2 : Compound K)
    (h : c1.parts.Perm c2.parts) :
    (RecalculatePhysicalProperties bm c1).mass = (RecalculatePhysicalProperties bm c2).mass
    ∧ (RecalculatePhysicalProperties bm c1).volume = (RecalculatePhysicalProperties bm c2).volume
    ∧ (RecalculatePhysicalProperties bm c1).Ipri = (RecalculatePhysicalProperties bm c2).Ipri
    ∧ (RecalculatePhysicalProperties bm c1).T_CG2O = (RecalculatePhysicalProperties bm c2).T_CG2O
    ∧ (RecalculatePhysicalProperties bm c1).P_CB = (RecalculatePhysicalProperties bm c2).P_CB := by
  refine ⟨?_, ?_, ?_, ?_, ?_⟩ <;>
    simp only [RecalculatePhysicalProperties, massCentres_perm _ _ h,
      compoundInertia_perm _ _ h, originFrame]

/-- Recalculating after a recalculation sees only the part list it is given. -/
theorem recalculate_absorb (bm : BulletMath K) (c : Compound K) (l : List (CompoundPart K)) :
    RecalculatePhysicalProperties bm { RecalculatePhysicalProperties bm c with parts := l }
      = RecalculatePhysicalProperties bm { c with parts := l } := rfl

/-- Attaching a non-empty list of parts one at a time ends in the recalculation of the full
part list. -/
theorem attachAll_eq (bm : BulletMath K) (c : Compound K) (l : List (CompoundPart K))
    (hl : l ≠ []) :
    attachAll bm c l = RecalculatePhysicalProperties bm { c with parts := c.parts ++ l } := by
  induction l generalizing c with
  | nil => exact absurd rfl hl
  | cons p t ih =>
    unfold attachAll
    rw [List.foldl_cons, attach_eq]
    by_cases ht : t = []
    · subst ht
      rfl
    · have h := ih (RecalculatePhysicalProperties bm { c with parts := c.parts ++ [p] }) ht
      unfold attachAll at h
      rw [h]
      show RecalculatePhysicalProperties bm
          { RecalculatePhysicalProperties bm { c with parts := c.parts ++ [p] } with
            parts := (c.parts ++ [p]) ++ t } = _
      rw [recalculate_absorb, List.append_assoc]
      rfl

/-- C19: for two orders `l1`, `l2` of the same parts, with non-zero total mass, attaching
them one at a time to a compound without parts gives the same mass, volume, centre of
gravity, centre of buoyancy (in the origin frame and as stored), frame, principal moments and
inertia matrix `I`; and each entry of `I` is the sum over the parts of their rotated and
parallel-axis-shifted terms about the final centre of gravity. -/
theorem C19_order_independent (bm : BulletMath K) (c0 : Compound K)
    (l1 l2 : List (CompoundPart K)) (h0 : c0.parts = []) (hperm : l1.Perm l2)
    (hM : (l1.map (fun p => p.solid.getMass)).sum ≠ 0) :
    (attachAll bm c0 l1).parts = l1 ∧ (attachAll bm c0 l2).parts = l2
    ∧ (attachAll bm c0 l1).mass = (attachAll bm c0 l2).mass
    ∧ (attachAll bm c0 l1).volume = (attachAll bm c0 l2).volume
    ∧ (massCentres (attachAll bm c0 l1).parts).compoundCG
        = (massCentres (attachAll bm c0 l2).parts).compoundCG
    ∧ (massCentres (attachAll bm c0 l1).parts).compoundCB
        = (massCentres (attachAll bm c0 l2).parts).compoundCB
    ∧ (attachAll bm c0 l1).P_CB = (attachAll bm c0 l2).P_CB
    ∧ (attachAll bm c0 l1).T_CG2O = (attachAll bm c0 l2).T_CG2O
    ∧ (attachAll bm c0 l1).Ipri = (attachAll bm c0 l2).Ipri
    ∧ compoundInertia (attachAll bm c0 l1).parts = compoundInertia (attachAll bm c0 l2).parts
    ∧ ∀ i j : Fin 3, (compoundInertia (attachAll bm c0 l2).parts).at i j
        = (l1.map (fun p =>
            partInertiaEntry (massCentres (attachAll bm c0 l1).parts).compoundCG p i j)).sum := by
  have hl1 : l1 ≠ [] := by
    intro h
    rw [h] at hM
    exact hM rfl
  have hl2 : l2 ≠ [] := by
    intro h
    rw [h] at hperm
    exact hl1 (List.perm_nil.mp hperm)
  have e1 := attachAll_eq bm c0 l1 hl1
  have e2 := attachAll_eq bm c0 l2 hl2
  rw [h0, List.nil_append] at e1 e2
  have hp1 : (attachAll bm c0 l1).parts = l1 := by rw [e1]; rfl
  have hp2 : (attachAll bm c0 l2).parts = l2 := by rw [e2]; rfl
  have hr := recalculate_perm bm { c0 with parts := l1 } { c0 with parts := l2 } hperm
  have hI := compoundInertia_perm l1 l2 hperm
  have hmc := massCentres_perm l1 l2 hperm
  refine ⟨hp1, hp2, ?_, ?_, ?_, ?_, ?_, ?_, ?_, ?_, ?_⟩
  · rw [e1, e2]; exact hr.1
  · rw [e1, e2]; exact hr.2.1
  · rw [hp1, hp2, hmc]
  · rw [hp1, hp2, hmc]
  · rw [e1, e2]; exact hr.2.2.2.2
  · rw [e1, e2]; exact hr.2.2.2.1
  · rw [e1, e2]; exact hr.2.2.1
  · rw [hp1, hp2, hI]
  · intro i j
    rw [hp1, hp2, ← hI, compoundInertia_eq, mat_sum_at, List.map_map]
    congr 1
    apply List.map_congr_left
    intro p _
    exact inertiaStep_at _ p i j

/-- C19 at the cylinder and the battery pack, attached in the two possible orders. -/
theorem C19_order_independent_witness :
    emptyCompound.parts = []
    ∧ List.Perm [samplePartA, samplePartB] [samplePartB, samplePartA]
    ∧ ([samplePartA, samplePartB].map (fun p => p.solid.getMass)).sum ≠ 0
    ∧ (attachAll sampleMath emptyCompound [samplePartA, samplePartB]).T_CG2O
        = (attachAll sampleMath emptyCompound [samplePartB, samplePartA]).T_CG2O
    ∧ (attachAll sampleMath emptyCompound [samplePartA, samplePartB]).Ipri
        = (attachAll sampleMath emptyCompound [samplePartB, samplePartA]).Ipri := by
  have hperm : List.Perm [samplePartA, samplePartB] [samplePartB, samplePartA] :=
    List.Perm.swap _ _ _
  have hM : ([samplePartA, samplePartB].map (fun p => p.solid.getMass)).sum ≠ 0 := by
    norm_num [samplePartA, samplePartB, cylinder, batteryPack]
  have h := C19_order_independent sampleMath emptyCompound _ _ rfl hperm hM
  exact ⟨rfl, hperm, hM, h.2.2.2.2.2.2.2.1, h.2.2.2.2.2.2.2.2.1⟩

theorem principalAxes_eq (bm : BulletMath K) (I : Matrix3 K) :
    principalAxes bm I
      = axesMatrix (bm.findInertiaAxis I (principalMoments bm I).x)
          (bm.findInertiaAxis I (principalMoments bm I).y) := rfl

/-- The part frame of the tilted part is its placement. -/
theorem tiltedPart_frame :
    partFrame (tiltedPart : CompoundPart K)
      = ⟨Matrix3.mk9 (3 / 5) (-4 / 5) 0 (4 / 5) (3 / 5) 0 0 0 1, 0⟩ := by
  simp [tiltedPart, partFrame, tf_mul_def, tf_apply_def, Transform.inverse,
    Transform.getIdentity, mat_mul_vec_def, mat_mul_def, Matrix3.identity, Matrix3.mk9,
    Matrix3.transpose, Matrix3.getColumn, Vector3.get, Vector3.dot, vec_neg_def,
    vec_add_def, vec_zero_def]

theorem tilted_cg : (massCentres [(tiltedPart : CompoundPart K)]).compoundCG = 0 := by
  simp only [massCentres, massLoop_eq, List.map_cons, List.map_nil, List.sum_cons, List.sum_nil,
    tiltedPart_frame]
  simp [tiltedPart, vec_div_scalar_def, vec_mul_scalar_def, vec_add_def, vec_zero_def]

/-- The inertia matrix of the tilted part alone. -/
theorem tilted_inertia :
    compoundInertia [(tiltedPart : CompoundPart K)]
      = Matrix3.mk9 (66 / 25) (-12 / 25) 0 (-12 / 25) (59 / 25) 0 0 0 2 := by
  apply mat_ext_at
  intro i j
  have hm : (tiltedPart : CompoundPart K).solid.getMass = 1 := rfl
  have hJ : (tiltedPart : CompoundPart K).solid.getInertia = ⟨2, 3, 2⟩ := rfl
  rw [compoundInertia_eq, mat_sum_at, List.map_map]
  simp only [originFrame, tilted_cg, Function.comp_def, inertiaStep_at, List.map_cons,
    List.map_nil, List.sum_cons, List.sum_nil, partInertiaEntry, tiltedPart_frame, hm, hJ]
  fin_cases i <;> fin_cases j <;>
    simp only [Fin.zero_eta, Fin.mk_one, Fin.reduceFinMk, mat_at_00, mat_at_01, mat_at_02,
      mat_at_10, mat_at_11, mat_at_12, mat_at_20, mat_at_21, mat_at_22, vec_get_0,
      vec_get_1, vec_get_2, Matrix3.identity, Matrix3.mk9, vec_zero_def, vec_sub_def,
      Vector3.dot, Fin.isValue, Fin.reduceEq, if_true, if_false] <;>
    norm_num

theorem mat_mul_identity (m : Matrix3 K) : m * Matrix3.identity = m := by
  obtain ⟨⟨a, b, c⟩, ⟨d, e, f⟩, ⟨g, h, k⟩⟩ := m
  simp [mat_mul_def, Matrix3.identity, Matrix3.mk9, Vector3.dot, Matrix3.getColumn,
    Vector3.get]

theorem mat_mul_vec_assoc (A B : Matrix3 K) (v : Vector3 K) : (A * B) * v = A * (B * v) := by
  obtain ⟨⟨a00, a01, a02⟩, ⟨a10, a11, a12⟩, ⟨a20, a21, a22⟩⟩ := A
  obtain ⟨⟨b00, b01, b02⟩, ⟨b10, b11, b12⟩, ⟨b20, b21, b22⟩⟩ := B
  obtain ⟨x, y, z⟩ := v
  simp only [mat_mul_def, mat_mul_vec_def, Matrix3.mk9, Vector3.dot, Matrix3.getColumn,
    Vector3.get, Vector3.mk.injEq]
  refine ⟨?_, ?_, ?_⟩ <;> ring

theorem mat_mul_vec_sub (A : Matrix3 K) (u v : Vector3 K) : A * (u - v) = A * u + A * (-v) := by
  obtain ⟨⟨a00, a01, a02⟩, ⟨a10, a11, a12⟩, ⟨a20, a21, a22⟩⟩ := A
  obtain ⟨x, y, z⟩ := u
  obtain ⟨x1, y1, z1⟩ := v
  simp only [mat_mul_vec_def, Vector3.dot, vec_sub_def, vec_neg_def, vec_add_def,
    Vector3.mk.injEq]
  refine ⟨?_, ?_, ?_⟩ <;> ring

theorem mat_mul_vec_zero (A : Matrix3 K) : A * (-(0 : Vector3 K)) = 0 := by
  obtain ⟨⟨a00, a01, a02⟩, ⟨a10, a11, a12⟩, ⟨a20, a21, a22⟩⟩ := A
  simp [mat_mul_vec_def, Vector3.dot, vec_neg_def, vec_zero_def]

theorem vec_add_sub_cancel (u v : Vector3 K) : u + v - v = u := by
  obtain ⟨x, y, z⟩ := u
  obtain ⟨x1, y1, z1⟩ := v
  simp [vec_sub_def, vec_add_def]

/-- The frame of line 202 for a basis `R` and a centre `cg`: basis `Rᵀ`, origin
`Rᵀ * (-cg)`. -/
theorem rotated_frame_eq (R : Matrix3 K) (cg : Vector3 K) :
    (Transform.mk R 0).inverse * ((Transform.getIdentity : Transform K).setOrigin (-cg))
      = ⟨R.transpose, R.transpose * (-cg)⟩ := by
  simp only [tf_mul_def, tf_apply_def, Transform.inverse, Transform.setOrigin,
    Transform.getIdentity, mat_mul_identity, mat_mul_vec_zero, vec_add_zero3]

/-- The non-diagonal branch: `Ipri` is the vector of principal moments and `T_CG2O` is the
inverse of the axes transform composed with the translation by `-compoundCG`. -/
theorem recalculate_nondiagonal (bm : BulletMath K) (c : Compound K)
    (hd : isDiagonal bm (compoundInertia c.parts) = false) :
    (RecalculatePhysicalProperties bm c).Ipri = principalMoments bm (compoundInertia c.parts)
    ∧ (RecalculatePhysicalProperties bm c).T_CG2O
        = (Transform.mk (principalAxes bm (compoundInertia c.parts)) 0).inverse
            * originFrame c.parts := by
  have hnd : (!isDiagonal bm (compoundInertia c.parts)) = true := by rw [hd]; rfl
  constructor
  · show (if (!isDiagonal bm (compoundInertia c.parts)) = true then _ else _) = _
    rw [if_pos hnd]
  · show (if (!isDiagonal bm (compoundInertia c.parts)) = true then _ else _) = _
    rw [if_pos hnd]

/-- Line 202 with Bullet's `inverse()`, which transposes the basis: on the non-diagonal
branch the basis of the final `T_CG2O` is the transposed `rotMat`, its origin is that basis
applied to `-compoundCG`, it maps `x` to `rotMatᵀ * (x - compoundCG)`, and when `rotMat` is
orthonormal it maps `rotMat * y + compoundCG` back to `y`. -/
theorem nondiagonal_frame (bm : BulletMath K) (c : Compound K)
    (hd : isDiagonal bm (compoundInertia c.parts) = false) :
    (RecalculatePhysicalProperties bm c).T_CG2O
        = (Transform.mk (principalAxes bm (compoundInertia c.parts)) 0).inverse
            * ⟨Matrix3.identity, -(massCentres c.parts).compoundCG⟩
    ∧ (RecalculatePhysicalProperties bm c).T_CG2O.basis
        = (principalAxes bm (compoundInertia c.parts)).transpose
    ∧ (RecalculatePhysicalProperties bm c).T_CG2O.origin
        = (principalAxes bm (compoundInertia c.parts)).transpose
            * (-(massCentres c.parts).compoundCG)
    ∧ (∀ x : Vector3 K, (RecalculatePhysicalProperties bm c).T_CG2O * x
        = (principalAxes bm (compoundInertia c.parts)).transpose
            * (x - (massCentres c.parts).compoundCG))
    ∧ (Matrix3.orthonormal (principalAxes bm (compoundInertia c.parts)) →
        ∀ y : Vector3 K, (RecalculatePhysicalProperties bm c).T_CG2O
          * (principalAxes bm (compoundInertia c.parts) * y + (massCentres c.parts).compoundCG)
          = y) := by
  have h := (recalculate_nondiagonal bm c hd).2
  have hT : (RecalculatePhysicalProperties bm c).T_CG2O
      = ⟨(principalAxes bm (compoundInertia c.parts)).transpose,
         (principalAxes bm (compoundInertia c.parts)).transpose
            * (-(massCentres c.parts).compoundCG)⟩ := by
    rw [h]
    exact rotated_frame_eq _ _
  have happ : ∀ x : Vector3 K, (RecalculatePhysicalProperties bm c).T_CG2O * x
      = (principalAxes bm (compoundInertia c.parts)).transpose
          * (x - (massCentres c.parts).compoundCG) := by
    intro x
    rw [hT, tf_apply_def, mat_mul_vec_sub]
  refine ⟨h, by rw [hT], by rw [hT], happ, ?_⟩
  intro hR y
  rw [happ, vec_add_sub_cancel, ← mat_mul_vec_assoc]
  unfold Matrix3.orthonormal at hR
  rw [hR, mat_identity_mul_vec]

/-- For two orthogonal unit vectors the matrix of lines 197-201, transposed, is orthonormal. -/
theorem axesMatrix_orthonormal (a1 a2 : Vector3 K) (h1 : a1.dot a1 = 1) (h2 : a2.dot a2 = 1)
    (h12 : a1.dot a2 = 0) : Matrix3.orthonormal (axesMatrix a1 a2).transpose := by
  obtain ⟨x1, y1, z1⟩ := a1
  obtain ⟨x2, y2, z2⟩ := a2
  simp only [Vector3.dot] at h1 h2 h12
  simp only [Matrix3.orthonormal, axesMatrix, mat_mul_def, Matrix3.transpose,
    Matrix3.getColumn, Matrix3.mk9, Matrix3.identity, Vector3.dot, Vector3.cross, vec_get_0,
    vec_get_1, vec_get_2, Matrix3.mk.injEq, Vector3.mk.injEq]
  refine ⟨⟨?_, ?_, ?_⟩, ⟨?_, ?_, ?_⟩, ⟨?_, ?_, ?_⟩⟩
  · linear_combination ((x1 * x1 + y1 * y1 + z1 * z1) * x2 * x2 + 1 * (x2 * x2 + y2 * y2 + z2 * z2)) * h1 + (1 - x1 * x1) * h2
      + ((x1 * x2 + y1 * y2 + z1 * z2) * x1 * x1 + (1 - (x1 * x1 + y1 * y1 + z1 * z1)) * (x1 * x2 + x2 * x1) - (x1 * x2 + y1 * y2 + z1 * z2) * 1) * h12
  · linear_combination ((x1 * x1 + y1 * y1 + z1 * z1) * x2 * y2 + 0 * (x2 * x2 + y2 * y2 + z2 * z2)) * h1 + (0 - x1 * y1) * h2
      + ((x1 * x2 + y1 * y2 + z1 * z2) * x1 * y1 + (1 - (x1 * x1 + y1 * y1 + z1 * z1)) * (x1 * y2 + x2 * y1) - (x1 * x2 + y1 * y2 + z1 * z2) * 0) * h12
  · linear_combination ((x1 * x1 + y1 * y1 + z1 * z1) * x2 * z2 + 0 * (x2 * x2 + y2 * y2 + z2 * z2)) * h1 + (0 - x1 * z1) * h2
      + ((x1 * x2 + y1 * y2 + z1 * z2) * x1 * z1 + (1 - (x1 * x1 + y1 * y1 + z1 * z1)) * (x1 * z2 + x2 * z1) - (x1 * x2 + y1 * y2 + z1 * z2) * 0) * h12
  · linear_combination ((x1 * x1 + y1 * y1 + z1 * z1) * y2 * x2 + 0 * (x2 * x2 + y2 * y2 + z2 * z2)) * h1 + (0 - y1 * x1) * h2
      + ((x1 * x2 + y1 * y2 + z1 * z2) * y1 * x1 + (1 - (x1 * x1 + y1 * y1 + z1 * z1)) * (y1 * x2 + y2 * x1) - (x1 * x2 + y1 * y2 + z1 * z2) * 0) * h12
  · linear_combination ((x1 * x1 + y1 * y1 + z1 * z1) * y2 * y2 + 1 * (x2 * x2 + y2 * y2 + z2 * z2)) * h1 + (1 - y1 * y1) * h2
      + ((x1 * x2 + y1 * y2 + z1 * z2) * y1 * y1 + (1 - (x1 * x1 + y1 * y1 + z1 * z1)) * (y1 * y2 + y2 * y1) - (x1 * x2 + y1 * y2 + z1 * z2) * 1) * h12
  · linear_combination ((x1 * x1 + y1 * y1 + z1 * z1) * y2 * z2 + 0 * (x2 * x2 + y2 * y2 + z2 * z2)) * h1 + (0 - y1 * z1) * h2
      + ((x1 * x2 + y1 * y2 + z1 * z2) * y1 * z1 + (1 - (x1 * x1 + y1 * y1 + z1 * z1)) * (y1 * z2 + y2 * z1) - (x1 * x2 + y1 * y2 + z1 * z2) * 0) * h12
  · linear_combination ((x1 * x1 + y1 * y1 + z1 * z1) * z2 * x2 + 0 * (x2 * x2 + y2 * y2 + z2 * z2)) * h1 + (0 - z1 * x1) * h2
      + ((x1 * x2 + y1 * y2 + z1 * z2) * z1 * x1 + (1 - (x1 * x1 + y1 * y1 + z1 * z1)) * (z1 * x2 + z2 * x1) - (x1 * x2 + y1 * y2 + z1 * z2) * 0) * h12
  · linear_combination ((x1 * x1 + y1 * y1 + z1 * z1) * z2 * y2 + 0 * (x2 * x2 + y2 * y2 + z2 * z2)) * h1 + (0 - z1 * y1) * h2
      + ((x1 * x2 + y1 * y2 + z1 * z2) * z1 * y1 + (1 - (x1 * x1 + y1 * y1 + z1 * z1)) * (z1 * y2 + z2 * y1) - (x1 * x2 + y1 * y2 + z1 * z2) * 0) * h12
  · linear_combination ((x1 * x1 + y1 * y1 + z1 * z1) * z2 * z2 + 1 * (x2 * x2 + y2 * y2 + z2 * z2)) * h1 + (1 - z1 * z1) * h2
      + ((x1 * x2 + y1 * y2 + z1 * z2) * z1 * z1 + (1 - (x1 * x1 + y1 * y1 + z1 * z1)) * (z1 * z2 + z2 * z1) - (x1 * x2 + y1 * y2 + z1 * z2) * 1) * h12

theorem identity_orthonormal : Matrix3.orthonormal (Matrix3.identity : Matrix3 K) := by
  simp [Matrix3.orthonormal, mat_mul_def, Matrix3.transpose, Matrix3.getColumn, Matrix3.mk9,
    Matrix3.identity, Vector3.dot, Vector3.get]

/-- When the axis search returns the same vector twice, two columns of `rotMat` vanish. -/
theorem axesMatrix_self (a : Vector3 K) :
    axesMatrix a a = Matrix3.mk9 a.x 0 0 a.y 0 0 a.z 0 0 := by
  obtain ⟨x, y, z⟩ := a
  simp only [axesMatrix, Vector3.cross, vec_get_0, vec_get_1, vec_get_2, Matrix3.mk9,
    Matrix3.mk.injEq, Vector3.mk.injEq]
  refine ⟨⟨trivial, ?_, ?_⟩, ⟨trivial, ?_, ?_⟩, ⟨trivial, ?_, ?_⟩⟩ <;> ring

/-- A basis with two zero rows is not orthonormal. -/
theorem degenerate_not_orthonormal (a : Vector3 K) :
    ¬ Matrix3.orthonormal (Matrix3.mk9 a.x 0 0 a.y 0 0 a.z 0 0).transpose := by
  obtain ⟨x, y, z⟩ := a
  simp only [Matrix3.orthonormal, mat_mul_def, Matrix3.transpose, Matrix3.getColumn,
    Matrix3.mk9, Matrix3.identity, Vector3.dot, vec_get_0, vec_get_1, vec_get_2,
    Matrix3.mk.injEq, Vector3.mk.injEq]
  rintro ⟨⟨hxx, hxy, -⟩, ⟨-, hyy, -⟩, -⟩
  have hx : x * x = 1 := by linear_combination hxx
  have hy : y * y = 1 := by linear_combination hyy
  have hz : x * y = 0 := by linear_combination hxy
  have : (x * y) * (x * y) = 1 := by
    calc (x * y) * (x * y) = (x * x) * (y * y) := by ring
      _ = 1 := by rw [hx, hy, one_mul]
  rw [hz] at this
  simp at this

/-- On the non-diagonal branch an attach leaves the transposed `rotMat` as basis of
`T_CG2O`. -/
theorem attach_nondiagonal_basis (bm : BulletMath K) (c : Compound K) (p : CompoundPart K)
    (hd : isDiagonal bm (compoundInertia (c.parts ++ [p])) = false) :
    (attach bm c p).T_CG2O.basis
      = (axesMatrix
          (bm.findInertiaAxis (compoundInertia (c.parts ++ [p]))
            (principalMoments bm (compoundInertia (c.parts ++ [p]))).x)
          (bm.findInertiaAxis (compoundInertia (c.parts ++ [p]))
            (principalMoments bm (compoundInertia (c.parts ++ [p]))).y)).transpose := by
  rw [attach_eq]
  have h := (recalculate_nondiagonal bm { c with parts := c.parts ++ [p] } hd).2
  rw [h]
  unfold originFrame
  rw [rotated_frame_eq]
  rfl

/-- The tilted part's inertia matrix has the double smallest eigenvalue 2: over the reals the
closed form gives `A = B`. -/
theorem tilted_moments_tie (eps : ℝ) (axis : Matrix3 ℝ → ℝ → Vector3 ℝ) :
    (principalMoments (realMath eps axis)
        (Matrix3.mk9 (66 / 25) (-12 / 25) 0 (-12 / 25) (59 / 25) 0 0 0 2)).x
      = (principalMoments (realMath eps axis)
        (Matrix3.mk9 (66 / 25) (-12 / 25) 0 (-12 / 25) (59 / 25) 0 0 0 2)).y := by
  have hT : traceT (Matrix3.mk9 (66 / 25) (-12 / 25) 0 (-12 / 25) (59 / 25) 0 0 0 2 : Matrix3 ℝ)
      = 7 := by
    norm_num [traceT, mat_at_00, mat_at_11, mat_at_22, Matrix3.mk9]
  have hII : minorsII (Matrix3.mk9 (66 / 25) (-12 / 25) 0 (-12 / 25) (59 / 25) 0 0 0 2 :
      Matrix3 ℝ) = 16 := by
    norm_num [minorsII, mat_at_00, mat_at_11, mat_at_22, mat_at_01, mat_at_02, mat_at_12,
      Matrix3.mk9]
  have hD : (Matrix3.mk9 (66 / 25) (-12 / 25) 0 (-12 / 25) (59 / 25) 0 0 0 2 :
      Matrix3 ℝ).determinant = 12 := by
    norm_num [Matrix3.determinant, Vector3.dot, Vector3.cross, Matrix3.mk9]
  have hU : momentU (realMath eps axis)
      (Matrix3.mk9 (66 / 25) (-12 / 25) 0 (-12 / 25) (59 / 25) 0 0 0 2) = 1 / 3 := by
    unfold momentU
    rw [hT, hII]
    show Real.sqrt (7 * 7 - 3 * 16) / 3 = 1 / 3
    norm_num
  have hθ : momentTheta (realMath eps axis)
      (Matrix3.mk9 (66 / 25) (-12 / 25) 0 (-12 / 25) (59 / 25) 0 0 0 2) = Real.pi := by
    unfold momentTheta
    rw [hT, hII, hD, hU]
    show Real.arccos ((-2 * 7 * 7 * 7 + 9 * 7 * 16 - 27 * 12) / (54 * (1 / 3) * (1 / 3) * (1 / 3)))
      = Real.pi
    norm_num
  show traceT _ / 3 - 2 * momentU _ _ * Real.cos (momentTheta _ _ / 3)
    = traceT _ / 3 - 2 * momentU _ _ * Real.cos (momentTheta _ _ / 3 - 2 * Real.pi / 3)
  rw [hθ]
  have h : Real.pi / 3 - 2 * Real.pi / 3 = -(Real.pi / 3) := by ring
  rw [h, Real.cos_neg]

/-- C11 at the tilted part alone (mass 1, principal moments `(2, 3, 2)`, turned about `z`),
attached to a compound without parts: the two smallest principal moments coincide, so
whatever the axis search is, it is asked twice for the same moment and returns the same
vector twice, two columns of `rotMat` vanish, and the basis of `T_CG2O` after the attach is
not orthonormal. -/
theorem C11_basis_degenerate_at_tie :
    0 < (tiltedPart : CompoundPart ℝ).solid.getMass
    ∧ ∀ axis : Matrix3 ℝ → ℝ → Vector3 ℝ,
        ¬ Matrix3.orthonormal
          (attach (realMath (1 / 1000000) axis) blankCompound tiltedPart).T_CG2O.basis := by
  refine ⟨by norm_num [tiltedPart], ?_⟩
  intro axis
  have hI : compoundInertia ((blankCompound : Compound ℝ).parts ++ [tiltedPart])
      = Matrix3.mk9 (66 / 25) (-12 / 25) 0 (-12 / 25) (59 / 25) 0 0 0 2 := tilted_inertia
  have hd : isDiagonal (realMath (1 / 1000000) axis)
      (compoundInertia ((blankCompound : Compound ℝ).parts ++ [tiltedPart])) = false := by
    rw [hI]
    simp only [isDiagonal, btFuzzyZero, Matrix3.getRow, Matrix3.mk9, realMath]
    norm_num [abs_lt]
  have hb := ((attach_nondiagonal_basis (realMath (1 / 1000000) axis) blankCompound tiltedPart) hd)
  rw [hb, hI, tilted_moments_tie, axesMatrix_self]
  exact degenerate_not_orthonormal _

theorem quadForm_add (A B : Matrix3 K) (v : Vector3 K) :
    quadForm (A + B) v = quadForm A v + quadForm B v := by
  obtain ⟨⟨a00, a01, a02⟩, ⟨a10, a11, a12⟩, ⟨a20, a21, a22⟩⟩ := A
  obtain ⟨⟨b00, b01, b02⟩, ⟨b10, b11, b12⟩, ⟨b20, b21, b22⟩⟩ := B
  obtain ⟨x, y, z⟩ := v
  simp only [quadForm, mat_mul_vec_def, Vector3.dot, mat_add_def, vec_add_def]
  ring

theorem quadForm_zero (v : Vector3 K) : quadForm (0 : Matrix3 K) v = 0 := by
  obtain ⟨x, y, z⟩ := v
  simp [quadForm, mat_mul_vec_def, Vector3.dot, mat_zero_def, vec_zero_def]

theorem quadForm_sum (l : List (Matrix3 K)) (v : Vector3 K) :
    quadForm l.sum v = (l.map (fun M => quadForm M v)).sum := by
  induction l with
  | nil => exact quadForm_zero v
  | cons a t ih => simp only [List.sum_cons, List.map_cons, quadForm_add, ih]

/-- The quadratic form of one part's term is a sum of squares weighted by the part's
principal moments and its mass. -/
theorem quadForm_inertiaTerm (B : Matrix3 K) (J t : Vector3 K) (m : K) (v : Vector3 K) :
    quadForm ((0 : Matrix3 K) + (B * Matrix3.mk9 J.x 0 0 0 J.y 0 0 0 J.z * B.transpose
        + (Matrix3.mk9 (t.y * t.y + t.z * t.z) (-t.x * t.y) (-t.x * t.z)
                 (-t.y * t.x) (t.x * t.x + t.z * t.z) (-t.y * t.z)
                 (-t.z * t.x) (-t.z * t.y) (t.x * t.x + t.y * t.y)).scaled ⟨m, m, m⟩)) v
      = J.x * (B.r0.x * v.x + B.r1.x * v.y + B.r2.x * v.z) ^ 2
        + J.y * (B.r0.y * v.x + B.r1.y * v.y + B.r2.y * v.z) ^ 2
        + J.z * (B.r0.z * v.x + B.r1.z * v.y + B.r2.z * v.z) ^ 2
        + m * ((t.y * v.z - t.z * v.y) ^ 2 + (t.z * v.x - t.x * v.z) ^ 2
            + (t.x * v.y - t.y * v.x) ^ 2) := by
  obtain ⟨⟨b00, b01, b02⟩, ⟨b10, b11, b12⟩, ⟨b20, b21, b22⟩⟩ := B
  obtain ⟨jx, jy, jz⟩ := J
  obtain ⟨tx, ty, tz⟩ := t
  obtain ⟨x, y, z⟩ := v
  simp only [quadForm, mat_mul_vec_def, mat_mul_def, mat_add_def, vec_add_def, mat_zero_def,
    vec_zero_def, Matrix3.mk9, Matrix3.scaled, Matrix3.transpose, Matrix3.getColumn,
    Vector3.dot, vec_get_0, vec_get_1, vec_get_2]
  ring

theorem quadForm_inertiaStep_nonneg (T : Transform K) (p : CompoundPart K) (v : Vector3 K)
    (hm : 0 ≤ p.solid.getMass)
    (hJ : 0 ≤ p.solid.getInertia.x ∧ 0 ≤ p.solid.getInertia.y ∧ 0 ≤ p.solid.getInertia.z) :
    0 ≤ quadForm (inertiaStep T 0 p) v := by
  unfold inertiaStep
  simp only []
  rw [quadForm_inertiaTerm]
  obtain ⟨hx, hy, hz⟩ := hJ
  positivity

/-- For parts of non-negative mass and non-negative principal moments the compound inertia
matrix is positive semi-definite. -/
theorem compoundInertia_psd (parts : List (CompoundPart K))
    (hm : ∀ p ∈ parts, 0 ≤ p.solid.getMass)
    (hJ : ∀ p ∈ parts,
      0 ≤ p.solid.getInertia.x ∧ 0 ≤ p.solid.getInertia.y ∧ 0 ≤ p.solid.getInertia.z)
    (v : Vector3 K) : 0 ≤ quadForm (compoundInertia parts) v := by
  rw [compoundInertia_eq, quadForm_sum, List.map_map]
  apply List.sum_nonneg
  intro x hx
  rw [List.mem_map] at hx
  obtain ⟨p, hp, rfl⟩ := hx
  exact quadForm_inertiaStep_nonneg _ p v (hm p hp) (hJ p hp)

/-- A root of the characteristic cubic of a symmetric positive semi-definite matrix is not
negative. -/
theorem psd_root_nonneg (I : Matrix3 K) (x : K)
    (hsym : I.at 1 0 = I.at 0 1 ∧ I.at 2 0 = I.at 0 2 ∧ I.at 2 1 = I.at 1 2)
    (hpsd : ∀ v : Vector3 K, 0 ≤ quadForm I v) (hroot : charCubic I x = 0) : 0 ≤ x := by
  by_contra hneg
  have hx : x < 0 := not_le.mp hneg
  have hdet := shiftDiagonal_determinant I x hsym
  rw [hroot, neg_zero] at hdet
  obtain ⟨⟨a, d, e⟩, ⟨d1, b, f⟩, ⟨e1, f1, c⟩⟩ := I
  obtain ⟨h1, h2, h3⟩ := hsym
  simp only [mat_at_10, mat_at_01, mat_at_20, mat_at_02, mat_at_21, mat_at_12] at h1 h2 h3
  subst h1 h2 h3
  simp only [shiftDiagonal, Matrix3.determinant, Matrix3.mk9, Vector3.dot, Vector3.cross,
    mat_at_00, mat_at_01, mat_at_02, mat_at_10, mat_at_11, mat_at_12, mat_at_20, mat_at_21,
    mat_at_22] at hdet
  have hb : 0 ≤ b := by
    have h := hpsd ⟨0, 1, 0⟩
    simp only [quadForm, mat_mul_vec_def, Vector3.dot] at h
    linarith
  have hw : 0 ≤ (b - x) * (a * (b - x) + d1 * -d1) + -d1 * (d1 * (b - x) + b * -d1) := by
    have h := hpsd ⟨b - x, -d1, 0⟩
    simp only [quadForm, mat_mul_vec_def, Vector3.dot] at h
    linarith
  have hv : 0 ≤ (d1 * f1 - e1 * (b - x))
        * (a * (d1 * f1 - e1 * (b - x)) + d1 * (e1 * d1 - (a - x) * f1)
            + e1 * ((a - x) * (b - x) - d1 * d1))
      + (e1 * d1 - (a - x) * f1)
        * (d1 * (d1 * f1 - e1 * (b - x)) + b * (e1 * d1 - (a - x) * f1)
            + f1 * ((a - x) * (b - x) - d1 * d1))
      + ((a - x) * (b - x) - d1 * d1)
        * (e1 * (d1 * f1 - e1 * (b - x)) + f1 * (e1 * d1 - (a - x) * f1)
            + c * ((a - x) * (b - x) - d1 * d1)) := by
    have h := hpsd ⟨d1 * f1 - e1 * (b - x), e1 * d1 - (a - x) * f1,
      (a - x) * (b - x) - d1 * d1⟩
    simp only [quadForm, mat_mul_vec_def, Vector3.dot] at h
    linarith
  have hB : 0 < b - x := by linarith
  have hBB : 0 < (b - x) * (b - x) := mul_pos hB hB
  have hD2 : 0 < (a - x) * (b - x) - d1 * d1 := by
    have hs : 0 < -x * ((b - x) * (b - x) + d1 * d1) :=
      mul_pos (by linarith) (by linarith [mul_self_nonneg d1])
    have h : 0 < (b - x) * ((a - x) * (b - x) - d1 * d1) := by
      have hid : (b - x) * ((a - x) * (b - x) - d1 * d1)
          = ((b - x) * (a * (b - x) + d1 * -d1) + -d1 * (d1 * (b - x) + b * -d1))
            + -x * ((b - x) * (b - x) + d1 * d1) := by ring
      rw [hid]
      linarith
    exact (pos_iff_pos_of_mul_pos h).mp hB
  have hpos : 0 < -x * (((a - x) * (b - x) - d1 * d1) * ((a - x) * (b - x) - d1 * d1)) :=
    mul_pos (by linarith) (mul_pos hD2 hD2)
  have hsq1 : 0 ≤ -x * ((d1 * f1 - e1 * (b - x)) * (d1 * f1 - e1 * (b - x))) :=
    mul_nonneg (by linarith) (mul_self_nonneg _)
  have hsq2 : 0 ≤ -x * ((e1 * d1 - (a - x) * f1) * (e1 * d1 - (a - x) * f1)) :=
    mul_nonneg (by linarith) (mul_self_nonneg _)
  have hkey : ((a - x) * (b - x) - d1 * d1) *
      ((a - x) * ((b - x) * (c - x) - f1 * f1) + d1 * (f1 * e1 - d1 * (c - x))
        + e1 * (d1 * f1 - (b - x) * e1)) = 0 := by
    rw [hdet, mul_zero]
  have hid : ((a - x) * (b - x) - d1 * d1) *
      ((a - x) * ((b - x) * (c - x) - f1 * f1) + d1 * (f1 * e1 - d1 * (c - x))
        + e1 * (d1 * f1 - (b - x) * e1))
      = ((d1 * f1 - e1 * (b - x))
        * (a * (d1 * f1 - e1 * (b - x)) + d1 * (e1 * d1 - (a - x) * f1)
            + e1 * ((a - x) * (b - x) - d1 * d1))
      + (e1 * d1 - (a - x) * f1)
        * (d1 * (d1 * f1 - e1 * (b - x)) + b * (e1 * d1 - (a - x) * f1)
            + f1 * ((a - x) * (b - x) - d1 * d1))
      + ((a - x) * (b - x) - d1 * d1)
        * (e1 * (d1 * f1 - e1 * (b - x)) + f1 * (e1 * d1 - (a - x) * f1)
            + c * ((a - x) * (b - x) - d1 * d1)))
        + -x * (((a - x) * (b - x) - d1 * d1) * ((a - x) * (b - x) - d1 * d1))
        + -x * ((d1 * f1 - e1 * (b - x)) * (d1 * f1 - e1 * (b - x)))
        + -x * ((e1 * d1 - (a - x) * f1) * (e1 * d1 - (a - x) * f1)) := by ring
  rw [hid] at hkey
  linarith

theorem quadForm_unit (I : Matrix3 K) :
    quadForm I ⟨1, 0, 0⟩ = I.at 0 0 ∧ quadForm I ⟨0, 1, 0⟩ = I.at 1 1
    ∧ quadForm I ⟨0, 0, 1⟩ = I.at 2 2 := by
  obtain ⟨⟨a00, a01, a02⟩, ⟨a10, a11, a12⟩, ⟨a20, a21, a22⟩⟩ := I
  simp [quadForm, mat_mul_vec_def, Vector3.dot, mat_at_00, mat_at_11, mat_at_22]

/-- In exact real arithmetic, with the exact square root, arccosine and cosine: for every part
list whose parts have non-negative mass and non-negative principal moments, each of the three
components of `Ipri` is non-negative, on the diagonal branch and on the non-diagonal branch.
Rounding is not part of this statement. -/
theorem exact_principal_inertia_nonneg (eps : ℝ) (axis : Matrix3 ℝ → ℝ → Vector3 ℝ)
    (c : Compound ℝ)
    (hm : ∀ p ∈ c.parts, 0 ≤ p.solid.getMass)
    (hJ : ∀ p ∈ c.parts,
      0 ≤ p.solid.getInertia.x ∧ 0 ≤ p.solid.getInertia.y ∧ 0 ≤ p.solid.getInertia.z) :
    0 ≤ (RecalculatePhysicalProperties (realMath eps axis) c).Ipri.x
    ∧ 0 ≤ (RecalculatePhysicalProperties (realMath eps axis) c).Ipri.y
    ∧ 0 ≤ (RecalculatePhysicalProperties (realMath eps axis) c).Ipri.z := by
  have hpsd := compoundInertia_psd c.parts hm hJ
  have hsym : (compoundInertia c.parts).at 1 0 = (compoundInertia c.parts).at 0 1
      ∧ (compoundInertia c.parts).at 2 0 = (compoundInertia c.parts).at 0 2
      ∧ (compoundInertia c.parts).at 2 1 = (compoundInertia c.parts).at 1 2 :=
    ⟨compoundInertia_symm _ 1 0, compoundInertia_symm _ 2 0, compoundInertia_symm _ 2 1⟩
  cases hd : isDiagonal (realMath eps axis) (compoundInertia c.parts)
  · rw [(recalculate_nondiagonal (realMath eps axis) c hd).1]
    obtain ⟨r1, r2, r3⟩ := principalMoments_roots eps axis (compoundInertia c.parts) hsym
    exact ⟨psd_root_nonneg _ _ hsym hpsd r1, psd_root_nonneg _ _ hsym hpsd r2,
      psd_root_nonneg _ _ hsym hpsd r3⟩
  · rw [(recalculate_diagonal (realMath eps axis) c hd).1]
    obtain ⟨q0, q1, q2⟩ := quadForm_unit (compoundInertia c.parts)
    refine ⟨?_, ?_, ?_⟩
    · show 0 ≤ (compoundInertia c.parts).at 0 0
      rw [← q0]; exact hpsd _
    · show 0 ≤ (compoundInertia c.parts).at 1 1
      rw [← q1]; exact hpsd _
    · show 0 ≤ (compoundInertia c.parts).at 2 2
      rw [← q2]; exact hpsd _

/-- C23: `AddInternalPart` and `AddExternalPart` called with the null pointer return the
compound as it was: part list, mass, volume, `Ipri`, `T_CG2O` and `P_CB` are unchanged. -/
theorem C23_null_body_rejected (bm : BulletMath K) (c : Compound K) (origin : Transform K) :
    AddInternalPart bm c none origin = c
    ∧ AddExternalPart bm c none origin = c
    ∧ ((AddInternalPart bm c none origin).parts = c.parts
      ∧ (AddInternalPart bm c none origin).mass = c.mass
      ∧ (AddInternalPart bm c none origin).volume = c.volume
      ∧ (AddInternalPart bm c none origin).Ipri = c.Ipri
      ∧ (AddInternalPart bm c none origin).T_CG2O = c.T_CG2O
      ∧ (AddInternalPart bm c none origin).P_CB = c.P_CB)
    ∧ ((AddExternalPart bm c none origin).parts = c.parts
      ∧ (AddExternalPart bm c none origin).mass = c.mass
      ∧ (AddExternalPart bm c none origin).volume = c.volume
      ∧ (AddExternalPart bm c none origin).Ipri = c.Ipri
      ∧ (AddExternalPart bm c none origin).T_CG2O = c.T_CG2O
      ∧ (AddExternalPart bm c none origin).P_CB = c.P_CB) := by
  have hi : AddInternalPart bm c none origin = c := by
    unfold AddInternalPart
    rfl
  have he : AddExternalPart bm c none origin = c := by
    unfold AddExternalPart
    rfl
  refine ⟨hi, he, ?_, ?_⟩
  · rw [hi]
    exact ⟨rfl, rfl, rfl, rfl, rfl, rfl⟩
  · rw [he]
    exact ⟨rfl, rfl, rfl, rfl, rfl, rfl⟩

/-- C26: `getMaterial(i)` is the material of part `i` when `i` is below the number of parts
and the default-constructed material otherwise; `getPartId(k)` is the stored part index when
`k` is below the size of the collision map and `0` otherwise; both are defined for every
index and read their list only at an index in range. -/
theorem C26_bounds_checked_lookups {F : Type} (c : Compound F) (i k : Nat) :
    getMaterial c i
        = ((c.parts.get? i).map (fun p => p.solid.getMaterial)).getD Material.default
    ∧ (∀ h : i < c.parts.length, getMaterial c i = (c.parts.get ⟨i, h⟩).solid.getMaterial)
    ∧ (c.parts.length ≤ i → getMaterial c i = Material.default)
    ∧ getPartId c k = (c.collisionPartId.get? k).getD 0
    ∧ (∀ h : k < c.collisionPartId.length, getPartId c k = c.collisionPartId.get ⟨k, h⟩)
    ∧ (c.collisionPartId.length ≤ k → getPartId c k = 0) := by
  refine ⟨?_, ?_, ?_, ?_, ?_, ?_⟩
  · unfold getMaterial
    by_cases h : i < c.parts.length
    · rw [dif_pos h, List.get?_eq_get h]
      rfl
    · rw [dif_neg h, List.get?_eq_none.mpr (not_lt.mp h)]
      rfl
  · intro h
    unfold getMaterial
    rw [dif_pos h]
  · intro h
    unfold getMaterial
    rw [dif_neg (not_lt.mpr h)]
  · unfold getPartId
    by_cases h : k < c.collisionPartId.length
    · rw [dif_pos h, List.get?_eq_get h]
      rfl
    · rw [dif_neg h, List.get?_eq_none.mpr (not_lt.mp h)]
      rfl
  · intro h
    unfold getPartId
    rw [dif_pos h]
  · intro h
    unfold getPartId
    rw [dif_neg (not_lt.mpr h)]

/-- C26 at the two-part sample: part 1 is the battery pack, index 2 is out of range. -/
theorem C26_bounds_checked_lookups_witness :
    (1 < twoPart.parts.length ∧ getMaterial twoPart 1 = ⟨2⟩)
    ∧ (twoPart.parts.length ≤ 2 ∧ getMaterial twoPart 2 = Material.default)
    ∧ (twoPart.collisionPartId.length ≤ 0 ∧ getPartId twoPart 0 = 0) := by
  have h := C26_bounds_checked_lookups twoPart 1 0
  have h2 := C26_bounds_checked_lookups twoPart 2 0
  have h1 : 1 < twoPart.parts.length := by rw [twoPart_parts]; decide
  have h3 : twoPart.parts.length ≤ 2 := by rw [twoPart_parts]; decide
  have h4 : twoPart.collisionPartId.length ≤ 0 := by
    show ([] : List Nat).length ≤ 0
    decide
  refine ⟨⟨h1, ?_⟩, ⟨h3, h2.2.2.1 h3⟩, ⟨h4, h.2.2.2.2.2 h4⟩⟩
  rw [h.2.1 h1]
  rfl

/-- C28: for any two vectors `axis1`, `axis2` the columns of `rotMat` are `axis1`,
`(axis1 × axis2) × axis1` and `axis1 × axis2`, and their three pairwise dot products are
zero; `principalAxes` is this matrix for the two vectors the axis search returned. -/
theorem C28_axes_pairwise_orthogonal (axis1 axis2 : Vector3 K) :
    ((axesMatrix axis1 axis2).getColumn 0 = axis1
      ∧ (axesMatrix axis1 axis2).getColumn 1 = (axis1.cross axis2).cross axis1
      ∧ (axesMatrix axis1 axis2).getColumn 2 = axis1.cross axis2)
    ∧ (axis1.dot ((axis1.cross axis2).cross axis1) = 0
      ∧ axis1.dot (axis1.cross axis2) = 0
      ∧ ((axis1.cross axis2).cross axis1).dot (axis1.cross axis2) = 0)
    ∧ (∀ (bm : BulletMath K) (I : Matrix3 K),
        principalAxes bm I
          = axesMatrix (bm.findInertiaAxis I (principalMoments bm I).x)
              (bm.findInertiaAxis I (principalMoments bm I).y)) := by
  obtain ⟨x1, y1, z1⟩ := axis1
  obtain ⟨x2, y2, z2⟩ := axis2
  refine ⟨⟨rfl, rfl, rfl⟩, ⟨?_, ?_, ?_⟩, fun bm I => rfl⟩
  · simp only [Vector3.dot, Vector3.cross]
    ring
  · simp only [Vector3.dot, Vector3.cross]
    ring
  · simp only [Vector3.dot, Vector3.cross]
    ring

/-- A list of non-negative scalars with sum zero consists of zeros. -/
theorem eq_zero_of_sum_eq_zero (l : List K) (hn : ∀ x ∈ l, 0 ≤ x) (hs : l.sum = 0) :
    ∀ x ∈ l, x = 0 := by
  induction l with
  | nil => intro x hx; cases hx
  | cons a t ih =>
    have ha : 0 ≤ a := hn a (List.mem_cons_self a t)
    have ht : 0 ≤ t.sum := List.sum_nonneg (fun x hx => hn x (List.mem_cons_of_mem a hx))
    rw [List.sum_cons] at hs
    have ha0 : a = 0 := by linarith
    have ht0 : t.sum = 0 := by linarith
    intro x hx
    rcases List.mem_cons.mp hx with rfl | hx
    · exact ha0
    · exact ih (fun y hy => hn y (List.mem_cons_of_mem a hy)) ht0 x hx

theorem vec_mul_zero (v : Vector3 K) : v * (0 : K) = 0 := by
  obtain ⟨x, y, z⟩ := v
  simp [vec_mul_scalar_def, vec_zero_def]

theorem vec_sum_eq_zero {α : Type} (l : List α) (f : α → Vector3 K)
    (h : ∀ a ∈ l, f a = 0) : (l.map f).sum = 0 := by
  induction l with
  | nil => rfl
  | cons a t ih =>
    rw [List.map_cons, List.sum_cons, h a (List.mem_cons_self a t),
      ih (fun b hb => h b (List.mem_cons_of_mem a hb)), vec_add_zero3]

theorem tf_apply_zero (t : Transform K) : t * (0 : Vector3 K) = t.origin := by
  obtain ⟨⟨⟨a, b, c⟩, ⟨d, e, f⟩, ⟨g, h, k⟩⟩, ⟨x, y, z⟩⟩ := t
  simp [tf_apply_def, mat_mul_vec_def, Vector3.dot, vec_zero_def, vec_add_def]

/-- C21: for a part list whose buoyant parts have non-negative volumes adding up to zero, the
stored volume is zero, the centre of buoyancy accumulated in the origin frame is the zero
vector and is not divided by the volume, and the stored `P_CB` is the final `T_CG2O` applied
to that zero vector, which is the origin of `T_CG2O`. -/
theorem C21_zero_buoyant_volume (bm : BulletMath K) (c : Compound K)
    (hnn : ∀ p ∈ c.parts, p.solid.isBuoyant = true → 0 ≤ p.solid.getVolume)
    (hV : ((c.parts.filter (fun p => p.solid.isBuoyant)).map
      (fun p => p.solid.getVolume)).sum = 0) :
    (RecalculatePhysicalProperties bm c).volume = 0
    ∧ (massLoop c.parts).compoundCB = 0
    ∧ (massCentres c.parts).compoundCB = (massLoop c.parts).compoundCB
    ∧ (RecalculatePhysicalProperties bm c).P_CB
        = (RecalculatePhysicalProperties bm c).T_CG2O * (0 : Vector3 K)
    ∧ (RecalculatePhysicalProperties bm c).P_CB
        = (RecalculatePhysicalProperties bm c).T_CG2O.origin := by
  have hvol : (RecalculatePhysicalProperties bm c).volume = 0 := by
    rw [RecalculatePhysicalProperties_volume, hV]
  have hzero : ∀ p ∈ c.parts.filter (fun p => p.solid.isBuoyant), p.solid.getVolume = 0 := by
    intro p hp
    apply eq_zero_of_sum_eq_zero _ _ hV
    · exact List.mem_map.mpr ⟨p, hp, rfl⟩
    · intro x hx
      obtain ⟨q, hq, rfl⟩ := List.mem_map.mp hx
      have hq2 := List.mem_filter.mp hq
      exact hnn q hq2.1 (by simpa using hq2.2)
  have hloop : (massLoop c.parts).compoundCB = 0 := by
    rw [massLoop_eq]
    apply vec_sum_eq_zero
    intro p hp
    rw [hzero p hp, vec_mul_zero]
  have hguard : (massCentres c.parts).compoundCB = (massLoop c.parts).compoundCB := by
    have hv0 : (massLoop c.parts).compoundVolume = 0 := by rw [massLoop_eq]; exact hV
    show (if (massLoop c.parts).compoundVolume > 0 then _ else _) = _
    rw [if_neg (by rw [hv0]; exact lt_irrefl 0)]
  have hP : (RecalculatePhysicalProperties bm c).P_CB
      = (RecalculatePhysicalProperties bm c).T_CG2O * (0 : Vector3 K) := by
    show (RecalculatePhysicalProperties bm c).T_CG2O * (massCentres c.parts).compoundCB = _
    rw [hguard, hloop]
  refine ⟨hvol, hloop, hguard, hP, ?_⟩
  rw [hP, tf_apply_zero]

/-- C21 at the symmetric pair of point parts, none of which is buoyant. -/
theorem C21_zero_buoyant_volume_witness :
    (∀ p ∈ pairCompound.parts, p.solid.isBuoyant = true → 0 ≤ p.solid.getVolume)
    ∧ ((pairCompound.parts.filter (fun p => p.solid.isBuoyant)).map
        (fun p => p.solid.getVolume)).sum = 0
    ∧ (RecalculatePhysicalProperties sampleMath pairCompound).volume = 0
    ∧ (RecalculatePhysicalProperties sampleMath pairCompound).P_CB
        = (RecalculatePhysicalProperties sampleMath pairCompound).T_CG2O.origin := by
  have hnn : ∀ p ∈ pairCompound.parts, p.solid.isBuoyant = true → 0 ≤ p.solid.getVolume := by
    intro p hp
    simp only [pairCompound, symmetricPair, List.mem_cons, List.mem_singleton,
      List.not_mem_nil, or_false] at hp
    rcases hp with rfl | rfl <;> intro _ <;> norm_num [pointPart]
  have hV : ((pairCompound.parts.filter (fun p => p.solid.isBuoyant)).map
      (fun p => p.solid.getVolume)).sum = 0 := by
    simp [pairCompound, symmetricPair, pointPart]
  have h := C21_zero_buoyant_volume sampleMath pairCompound hnn hV
  exact ⟨hnn, hV, h.1, h.2.2.2.2⟩

/-- `ComputeFluidForces` returns the compound it was given with, at most, other force and
torque vectors. -/
theorem computeFluidForces_frame (env : FluidEnv K) (settings : HydrodynamicsSettings)
    (liquid : Ocean K) (c : Compound K) :
    ComputeFluidForces env settings liquid c
      = withForces c (forcesOf (ComputeFluidForces env settings liquid c)) := by
  cases hH : c.computeHydro
  · simp [ComputeFluidForces, withForces, forcesOf, hH]
    cases c
    simp_all
  · cases hbf : env.CheckBodyFluidPosition liquid
    · simp [ComputeFluidForces, setZeroForces, withForces, forcesOf, hH, hbf]
    · cases hb : c.buoyant <;> cases hd : settings.dampingForces <;>
        simp [ComputeFluidForces, assembleFluidForces, insideFluid, foldl_submergedStep,
          applyCorrectDampingForces, setZeroDrag, withForces, forcesOf, hH, hbf, hb, hd] <;>
        (cases c; simp_all)
    · cases hr : settings.reallisticBuoyancy <;> cases hd : settings.dampingForces <;>
        simp [ComputeFluidForces, assembleFluidForces, crossingFluidSurface, foldl_surfaceStep,
          applyCorrectDampingForces, setZeroDrag, withForces, forcesOf, hH, hbf, hr, hd] <;>
        (cases c; simp_all)

/-- C27: in every classification state and for every settings value `ComputeFluidForces`
leaves the part list (bodies, placements, external flags), mass, volume, `Ipri`, `T_CG2O`
and `P_CB` as they were, and also the other two frames, the collision map and the two flags:
the compound afterwards is the compound before with other force and torque vectors. -/
theorem C27_only_forces_change (env : FluidEnv K) (settings : HydrodynamicsSettings)
    (liquid : Ocean K) (c : Compound K) :
    ComputeFluidForces env settings liquid c
        = withForces c (forcesOf (ComputeFluidForces env settings liquid c))
    ∧ (ComputeFluidForces env settings liquid c).parts = c.parts
    ∧ (ComputeFluidForces env settings liquid c).mass = c.mass
    ∧ (ComputeFluidForces env settings liquid c).volume = c.volume
    ∧ (ComputeFluidForces env settings liquid c).Ipri = c.Ipri
    ∧ (ComputeFluidForces env settings liquid c).T_CG2O = c.T_CG2O
    ∧ (ComputeFluidForces env settings liquid c).P_CB = c.P_CB
    ∧ (ComputeFluidForces env settings liquid c).T_CG2C = c.T_CG2C
    ∧ (ComputeFluidForces env settings liquid c).T_CG2G = c.T_CG2G
    ∧ (ComputeFluidForces env settings liquid c).collisionPartId = c.collisionPartId
    ∧ (ComputeFluidForces env settings liquid c).computeHydro = c.computeHydro
    ∧ (ComputeFluidForces env settings liquid c).buoyant = c.buoyant := by
  have h := computeFluidForces_frame env settings liquid c
  refine ⟨h, ?_, ?_, ?_, ?_, ?_, ?_, ?_, ?_, ?_, ?_, ?_⟩ <;>
  · rw [h]
    rfl

/-- One operation keeps the part list as a prefix of the new part list. -/
theorem apply_extends_parts (bm : BulletMath K) (c : Compound K) (op : Operation K) :
    c.parts <+: (Operation.apply bm c op).parts := by
  cases op with
  | addInternalPart solid origin =>
    cases solid with
    | none => exact List.prefix_refl _
    | some s => exact List.prefix_append _ _
  | addExternalPart solid origin =>
    cases solid with
    | none => exact List.prefix_refl _
    | some s => exact List.prefix_append _ _
  | recalculatePhysicalProperties => exact List.prefix_refl _
  | buildCollisionShape => exact List.prefix_refl _
  | computeFluidForces env settings liquid =>
    show c.parts <+: (ComputeFluidForces env settings liquid c).parts
    rw [computeFluidForces_frame]
    exact List.prefix_refl _

/-- A sequence of operations keeps the part list as a prefix of the new part list. -/
theorem runOperations_extends_parts (bm : BulletMath K) (ops : List (Operation K)) :
    ∀ c : Compound K, c.parts <+: (runOperations bm c ops).parts := by
  induction ops with
  | nil => intro c; exact List.prefix_refl _
  | cons op rest ih =>
    intro c
    exact (apply_extends_parts bm c op).trans (ih (Operation.apply bm c op))

/-- C22: with a non-null body `AddInternalPart` (resp. `AddExternalPart`) leaves the part list
equal to the previous list with one part appended at the end, holding the given body and
placement and `isExternal = false` (resp. `true`); every part attached before is found
unchanged at its old index; and after any operation, and any sequence of operations, the old
part list is a prefix of the new one, which is therefore never shorter. -/
theorem C22_attach_appends_one_part (bm : BulletMath K) (c : Compound K) (s : SolidEntity K)
    (o : Transform K) (ops : List (Operation K)) :
    (AddInternalPart bm c (some s) o).parts
        = c.parts ++ [{ solid := s, origin := o, isExternal := false }]
    ∧ (AddExternalPart bm c (some s) o).parts
        = c.parts ++ [{ solid := s, origin := o, isExternal := true }]
    ∧ (AddInternalPart bm c (some s) o).parts.length = c.parts.length + 1
    ∧ (AddExternalPart bm c (some s) o).parts.length = c.parts.length + 1
    ∧ (∀ i, i < c.parts.length →
        (AddInternalPart bm c (some s) o).parts[i]? = c.parts[i]?
        ∧ (AddExternalPart bm c (some s) o).parts[i]? = c.parts[i]?)
    ∧ (∀ op : Operation K, c.parts <+: (Operation.apply bm c op).parts)
    ∧ c.parts <+: (runOperations bm c ops).parts
    ∧ c.parts.length ≤ (runOperations bm c ops).parts.length := by
  have hI : (AddInternalPart bm c (some s) o).parts
      = c.parts ++ [{ solid := s, origin := o, isExternal := false }] := rfl
  have hE : (AddExternalPart bm c (some s) o).parts
      = c.parts ++ [{ solid := s, origin := o, isExternal := true }] := rfl
  refine ⟨hI, hE, ?_, ?_, ?_, apply_extends_parts bm c, runOperations_extends_parts bm ops c,
    (runOperations_extends_parts bm ops c).length_le⟩
  · rw [hI, List.length_append]
    rfl
  · rw [hE, List.length_append]
    rfl
  · intro i hi
    rw [hI, hE]
    exact ⟨List.getElem?_append_left hi, List.getElem?_append_left hi⟩

/-- C22 at the samples: attaching the battery pack to the one-part compound gives the cylinder
(still external, still at index 0) followed by the battery pack as internal part, and a second
pack attached as external part comes last. -/
theorem C22_attach_appends_one_part_witness :
    twoPart.parts = onePart.parts
        ++ [{ solid := batteryPack, origin := translation 0 0 (-3), isExternal := false }]
    ∧ (0 < onePart.parts.length ∧ twoPart.parts[0]? = onePart.parts[0]?)
    ∧ onePart.parts.length
        ≤ (runOperations sampleMath onePart
            [Operation.buildCollisionShape,
              Operation.addExternalPart (some batteryPack) (translation 0 0 2)]).parts.length := by
  have h := C22_attach_appends_one_part sampleMath onePart batteryPack (translation 0 0 (-3))
    [Operation.buildCollisionShape,
      Operation.addExternalPart (some batteryPack) (translation 0 0 2)]
  have h0 : 0 < onePart.parts.length := by
    show 0 < ([{ solid := cylinder, origin := Transform.getIdentity, isExternal := true }] :
      List (CompoundPart ℚ)).length
    decide
  exact ⟨h.1, ⟨h0, (h.2.2.2.2.1 0 h0).1⟩, h.2.2.2.2.2.2.2⟩

/-- The loop appends the indices of the external parts to the map it starts from. -/
theorem collisionLoop_ids (parts : List (CompoundPart K)) :
    ∀ (i : Nat) (b : CollisionBuild K),
      (collisionLoop parts i b).collisionPartId
        = b.collisionPartId ++ externalIndicesFrom parts i := by
  induction parts with
  | nil => intro i b; simp [collisionLoop, externalIndicesFrom]
  | cons p rest ih =>
    intro i b
    cases hp : p.isExternal
    · simp [collisionLoop, externalIndicesFrom, hp, ih]
    · simp [collisionLoop, externalIndicesFrom, hp, ih]

theorem BuildCollisionShape_ids (c : Compound K) :
    (BuildCollisionShape c).1.collisionPartId
      = c.collisionPartId ++ externalIndicesFrom c.parts 0 := by
  show (collisionLoop c.parts 0 _).collisionPartId = _
  rw [collisionLoop_ids]

theorem externalIndicesFrom_length {F : Type} (parts : List (CompoundPart F)) :
    ∀ i : Nat, (externalIndicesFrom parts i).length = parts.countP (fun p => p.isExternal) := by
  induction parts with
  | nil => intro i; rfl
  | cons p rest ih =>
    intro i
    cases hp : p.isExternal
    · simp [externalIndicesFrom, hp, ih]
    · simp [externalIndicesFrom, hp, ih]

theorem externalIndicesFrom_ge {F : Type} (parts : List (CompoundPart F)) :
    ∀ (i j : Nat), j ∈ externalIndicesFrom parts i → i ≤ j := by
  induction parts with
  | nil => intro i j h; simp [externalIndicesFrom] at h
  | cons p rest ih =>
    intro i j h
    cases hp : p.isExternal
    · simp only [externalIndicesFrom, hp, Bool.false_eq_true, if_false] at h
      exact Nat.le_of_succ_le (ih _ _ h)
    · simp only [externalIndicesFrom, hp, if_true, List.mem_cons] at h
      rcases h with h | h
      · exact h ▸ Nat.le_refl _
      · exact Nat.le_of_succ_le (ih _ _ h)

theorem externalIndicesFrom_pairwise {F : Type} (parts : List (CompoundPart F)) :
    ∀ i : Nat, (externalIndicesFrom parts i).Pairwise (fun a b => a < b) := by
  induction parts with
  | nil => intro i; exact List.Pairwise.nil
  | cons p rest ih =>
    intro i
    cases hp : p.isExternal
    · simp only [externalIndicesFrom, hp, Bool.false_eq_true, if_false]
      exact ih _
    · simp only [externalIndicesFrom, hp, if_true]
      exact List.Pairwise.cons (fun j hj => externalIndicesFrom_ge rest _ j hj) (ih _)

/-- The `k`-th listed index points at an external part that has exactly `k` external parts
before it. -/
theorem externalIndicesFrom_entry {F : Type} (parts : List (CompoundPart F)) :
    ∀ (i k : Nat), k < parts.countP (fun p => p.isExternal) →
      ∃ j p, (externalIndicesFrom parts i)[k]? = some (i + j) ∧ parts[j]? = some p
        ∧ p.isExternal = true ∧ (parts.take j).countP (fun p => p.isExternal) = k := by
  induction parts with
  | nil => intro i k h; simp at h
  | cons p rest ih =>
    intro i k h
    cases hp : p.isExternal
    · have h2 : k < rest.countP (fun p => p.isExternal) := by
        simpa [List.countP_cons, hp] using h
      obtain ⟨j, q, h1, h3, h4, h5⟩ := ih (i + 1) k h2
      refine ⟨j + 1, q, ?_, ?_, h4, ?_⟩
      · simp only [externalIndicesFrom, hp, Bool.false_eq_true, if_false]
        rw [h1]
        congr 1
        omega
      · simpa using h3
      · simpa [List.countP_cons, hp] using h5
    · cases k with
      | zero =>
        refine ⟨0, p, ?_, ?_, hp, ?_⟩
        · simp [externalIndicesFrom, hp]
        · simp
        · simp
      | succ k =>
        have h2 : k < rest.countP (fun p => p.isExternal) := by
          simpa [List.countP_cons, hp] using h
        obtain ⟨j, q, h1, h3, h4, h5⟩ := ih (i + 1) k h2
        refine ⟨j + 1, q, ?_, ?_, h4, ?_⟩
        · simp only [externalIndicesFrom, hp, if_true, List.getElem?_cons_succ]
          rw [h1]
          congr 1
          omega
        · simpa using h3
        · simpa [List.countP_cons, hp] using h5

theorem getPartId_eq {F : Type} (c : Compound F) (k : Nat) :
    getPartId c k = (c.collisionPartId[k]?).getD 0 := by
  unfold getPartId
  by_cases h : k < c.collisionPartId.length
  · rw [dif_pos h, List.getElem?_eq_getElem h]
    rfl
  · rw [dif_neg h, List.getElem?_eq_none (not_lt.mp h)]
    rfl

/-- After `BuildCollisionShape` on an empty map: one entry per external part, strictly
ascending, each the index of an external part, the `k`-th with `k` external parts before. -/
theorem build_on_empty_map (c : Compound K) (h : c.collisionPartId = []) :
    (BuildCollisionShape c).1.parts = c.parts
    ∧ (BuildCollisionShape c).1.collisionPartId.length
        = c.parts.countP (fun p => p.isExternal)
    ∧ (BuildCollisionShape c).1.collisionPartId.Pairwise (fun a b => a < b)
    ∧ (∀ k1 k2, k1 < k2 → k2 < c.parts.countP (fun p => p.isExternal) →
        getPartId (BuildCollisionShape c).1 k1 < getPartId (BuildCollisionShape c).1 k2)
    ∧ (∀ k, k < c.parts.countP (fun p => p.isExternal) →
        ∃ p, c.parts[getPartId (BuildCollisionShape c).1 k]? = some p ∧ p.isExternal = true
          ∧ (c.parts.take (getPartId (BuildCollisionShape c).1 k)).countP
              (fun p => p.isExternal) = k)
    ∧ (∀ j, j ∈ (BuildCollisionShape c).1.collisionPartId →
        ∃ p, c.parts[j]? = some p ∧ p.isExternal = true) := by
  have hid : (BuildCollisionShape c).1.collisionPartId = externalIndicesFrom c.parts 0 := by
    rw [BuildCollisionShape_ids, h, List.nil_append]
  have hlen := externalIndicesFrom_length c.parts 0
  have hpw := externalIndicesFrom_pairwise c.parts 0
  have hget : ∀ k (hk : k < (externalIndicesFrom c.parts 0).length),
      getPartId (BuildCollisionShape c).1 k = (externalIndicesFrom c.parts 0)[k] := by
    intro k hk
    rw [getPartId_eq, hid, List.getElem?_eq_getElem hk]
    rfl
  refine ⟨rfl, ?_, ?_, ?_, ?_, ?_⟩
  · rw [hid, hlen]
  · rw [hid]
    exact hpw
  · intro k1 k2 h12 h2
    rw [← hlen] at h2
    rw [hget k1 (lt_trans h12 h2), hget k2 h2]
    exact List.pairwise_iff_getElem.mp hpw k1 k2 (lt_trans h12 h2) h2 h12
  · intro k hk
    obtain ⟨j, p, h1, h2, h3, h4⟩ := externalIndicesFrom_entry c.parts 0 k hk
    have hg : getPartId (BuildCollisionShape c).1 k = j := by
      rw [getPartId_eq, hid, h1]
      simp
    rw [hg]
    exact ⟨p, h2, h3, h4⟩
  · intro j hj
    rw [hid] at hj
    obtain ⟨k, hk⟩ := List.mem_iff_getElem?.mp hj
    have hk2 : k < c.parts.countP (fun p => p.isExternal) := by
      rw [← hlen]
      by_contra hc
      rw [List.getElem?_eq_none (not_lt.mp hc)] at hk
      exact Option.noConfusion hk
    obtain ⟨j2, p, h1, h2, h3, _⟩ := externalIndicesFrom_entry c.parts 0 k hk2
    rw [hk] at h1
    have hj2 : j = j2 := by
      have := Option.some.inj h1
      omega
    rw [hj2]
    exact ⟨p, h2, h3⟩

/-- An operation other than `BuildCollisionShape` leaves the collision map as it was. -/
theorem apply_keeps_map (bm : BulletMath K) (c : Compound K) (op : Operation K)
    (h : Operation.isBuild op = false) :
    (Operation.apply bm c op).collisionPartId = c.collisionPartId := by
  cases op with
  | addInternalPart solid origin =>
    cases solid with
    | none => rfl
    | some s => rfl
  | addExternalPart solid origin =>
    cases solid with
    | none => rfl
    | some s => rfl
  | recalculatePhysicalProperties => rfl
  | buildCollisionShape => exact Bool.noConfusion h
  | computeFluidForces env settings liquid =>
    show (ComputeFluidForces env settings liquid c).collisionPartId = _
    rw [computeFluidForces_frame]
    rfl

theorem runOperations_keeps_map (bm : BulletMath K) (ops : List (Operation K)) :
    ∀ c : Compound K, (∀ op ∈ ops, Operation.isBuild op = false) →
      (runOperations bm c ops).collisionPartId = c.collisionPartId := by
  induction ops with
  | nil => intro c _; rfl
  | cons op rest ih =>
    intro c h
    show (runOperations bm (Operation.apply bm c op) rest).collisionPartId = _
    rw [ih _ (fun o ho => h o (List.mem_cons_of_mem _ ho)),
      apply_keeps_map bm c op (h op (List.mem_cons_self _ _))]

theorem newCompound_map (bm : BulletMath K) (first : Option (SolidEntity K))
    (origin : Transform K) (hydro : Bool) :
    (newCompound bm first origin hydro).collisionPartId = [] := by
  cases first <;> rfl

/-- C24: after one `BuildCollisionShape` on a compound whose collision map was empty, the part
list is as before and the map holds one entry per external part, in strictly ascending order;
for every `k` smaller than the number of external parts `getPartId k` is the index of the
`k`-th external part (the part at that index is external and exactly `k` external parts
precede it), and every index listed in the map is the index of an external part, so internal
parts never appear. -/
theorem C24_map_lists_external_parts (c : Compound K) (h : c.collisionPartId = []) :
    (BuildCollisionShape c).1.parts = c.parts
    ∧ (BuildCollisionShape c).1.collisionPartId.length
        = c.parts.countP (fun p => p.isExternal)
    ∧ (BuildCollisionShape c).1.collisionPartId.Pairwise (fun a b => a < b)
    ∧ (∀ k1 k2, k1 < k2 → k2 < c.parts.countP (fun p => p.isExternal) →
        getPartId (BuildCollisionShape c).1 k1 < getPartId (BuildCollisionShape c).1 k2)
    ∧ (∀ k, k < c.parts.countP (fun p => p.isExternal) →
        ∃ p, c.parts[getPartId (BuildCollisionShape c).1 k]? = some p ∧ p.isExternal = true
          ∧ (c.parts.take (getPartId (BuildCollisionShape c).1 k)).countP
              (fun p => p.isExternal) = k)
    ∧ (∀ j, j ∈ (BuildCollisionShape c).1.collisionPartId →
        ∃ p, c.parts[j]? = some p ∧ p.isExternal = true) :=
  build_on_empty_map c h

theorem threePart_parts :
    threePart.parts =
      [ { solid := cylinder, origin := Transform.getIdentity, isExternal := true },
        { solid := batteryPack, origin := translation 0 0 (-3), isExternal := false },
        { solid := cylinder, origin := translation 0 0 2, isExternal := true } ] := rfl

/-- C24 at the three-part sample (external, internal, external): the map starts empty, the
build fills it with `[0, 2]`, collision index 1 maps to part 2, and the internal part 1 is
not listed. -/
theorem C24_map_lists_external_parts_witness :
    threePart.collisionPartId = []
    ∧ (BuildCollisionShape threePart).1.collisionPartId = [0, 2]
    ∧ (BuildCollisionShape threePart).1.collisionPartId.length = 2
    ∧ getPartId (BuildCollisionShape threePart).1 0 < getPartId (BuildCollisionShape threePart).1 1
    ∧ getPartId (BuildCollisionShape threePart).1 1 = 2
    ∧ 1 ∉ (BuildCollisionShape threePart).1.collisionPartId := by
  have h := C24_map_lists_external_parts threePart rfl
  have hn : threePart.parts.countP (fun p => p.isExternal) = 2 := by
    rw [threePart_parts]
    rfl
  have hm : (BuildCollisionShape threePart).1.collisionPartId = [0, 2] := by
    rw [BuildCollisionShape_ids, threePart_parts]
    rfl
  refine ⟨rfl, hm, ?_, ?_, ?_, ?_⟩
  · rw [h.2.1, hn]
  · exact h.2.2.2.1 0 1 (by decide) (by rw [hn]; decide)
  · rw [getPartId_eq, hm]
    rfl
  · intro h1
    obtain ⟨p, hp, he⟩ := h.2.2.2.2.2 1 h1
    rw [threePart_parts] at hp
    have hp2 := Option.some.inj hp
    rw [← hp2] at he
    exact Bool.noConfusion he

/-- C25, the claim refuted at the constructor sample: right after the first external part is
attached there is one external part but the collision map is empty, so the map does not have
one entry per external part and `getPartId 0` is the default `0` of an out-of-range lookup;
the entries appear only with `BuildCollisionShape`, and a second `BuildCollisionShape` appends
the entry of the one external part once more. -/
theorem C25_counterexample :
    freshCompound.parts.countP (fun p => p.isExternal) = 1
    ∧ freshCompound.collisionPartId = []
    ∧ freshCompound.collisionPartId.length ≠ freshCompound.parts.countP (fun p => p.isExternal)
    ∧ (runOperations sampleMath freshCompound sampleOps).parts.countP (fun p => p.isExternal) = 2
    ∧ (runOperations sampleMath freshCompound sampleOps).collisionPartId = []
    ∧ getPartId (runOperations sampleMath freshCompound sampleOps) 1 = 0
    ∧ (BuildCollisionShape (runOperations sampleMath freshCompound sampleOps)).1.collisionPartId
        = [0, 2]
    ∧ (BuildCollisionShape (BuildCollisionShape freshCompound).1).1.collisionPartId
        = [0, 0] := by
  refine ⟨rfl, rfl, ?_, rfl, rfl, rfl, rfl, rfl⟩
  decide

/-- C25 amended: the collision map is filled by `BuildCollisionShape`, not at attach time. A
compound as constructed has an empty map; attaching parts, recalculating and computing fluid
forces leave the map as it is, so before the first `BuildCollisionShape` the map is empty and
`getPartId` returns `0` for every `k`. The first `BuildCollisionShape` gives the map exactly
one entry per external part, in strictly ascending part-index order, and `getPartId k` is
then the index of the `k`-th external part. -/
theorem C25_map_filled_by_first_build (bm : BulletMath K) (first : Option (SolidEntity K))
    (origin : Transform K) (hydro : Bool) (ops : List (Operation K)) (c : Compound K)
    (hops : ∀ op ∈ ops, Operation.isBuild op = false)
    (hc : c = runOperations bm (newCompound bm first origin hydro) ops) :
    (newCompound bm first origin hydro).collisionPartId = []
    ∧ (∀ op : Operation K, Operation.isBuild op = false →
        (Operation.apply bm c op).collisionPartId = c.collisionPartId)
    ∧ c.collisionPartId = []
    ∧ (∀ k, getPartId c k = 0)
    ∧ (BuildCollisionShape c).1.parts = c.parts
    ∧ (BuildCollisionShape c).1.collisionPartId.length
        = c.parts.countP (fun p => p.isExternal)
    ∧ (BuildCollisionShape c).1.collisionPartId.Pairwise (fun a b => a < b)
    ∧ (∀ k, k < c.parts.countP (fun p => p.isExternal) →
        ∃ p, c.parts[getPartId (BuildCollisionShape c).1 k]? = some p ∧ p.isExternal = true
          ∧ (c.parts.take (getPartId (BuildCollisionShape c).1 k)).countP
              (fun p => p.isExternal) = k) := by
  have hmap : c.collisionPartId = [] := by
    rw [hc, runOperations_keeps_map bm ops _ hops, newCompound_map]
  have hb := build_on_empty_map c hmap
  refine ⟨newCompound_map bm first origin hydro, fun op h => apply_keeps_map bm c op h, hmap,
    ?_, hb.1, hb.2.1, hb.2.2.1, hb.2.2.2.2.1⟩
  intro k
  rw [getPartId_eq, hmap]
  rfl

/-- C25 amended, at the constructor sample followed by two attach operations (external,
internal, external): the operations are attaches, the map is still empty before the build,
and the build gives it two entries, one per external part. -/
theorem C25_map_filled_by_first_build_witness :
    (∀ op ∈ sampleOps, Operation.isBuild op = false)
    ∧ (runOperations sampleMath freshCompound sampleOps).collisionPartId = []
    ∧ getPartId (runOperations sampleMath freshCompound sampleOps) 1 = 0
    ∧ (BuildCollisionShape (runOperations sampleMath freshCompound sampleOps)).1.collisionPartId.length
        = (runOperations sampleMath freshCompound sampleOps).parts.countP (fun p => p.isExternal)
    ∧ (runOperations sampleMath freshCompound sampleOps).parts.countP (fun p => p.isExternal)
        = 2 := by
  have hops : ∀ op ∈ sampleOps, Operation.isBuild op = false := by
    intro op hop
    simp only [sampleOps, List.mem_cons, List.mem_singleton, List.not_mem_nil, or_false] at hop
    rcases hop with rfl | rfl <;> rfl
  have h := C25_map_filled_by_first_build sampleMath (some cylinder) Transform.getIdentity true
    sampleOps (runOperations sampleMath freshCompound sampleOps) hops rfl
  exact ⟨hops, h.2.2.1, h.2.2.2.1 1, h.2.2.2.2.2.1, rfl⟩

/-- For a symmetric matrix with a non-zero off-diagonal entry `T*T - 3*II` is positive. -/
theorem trace_sq_pos (I : Matrix3 K)
    (hsym : I.at 1 0 = I.at 0 1 ∧ I.at 2 0 = I.at 0 2 ∧ I.at 2 1 = I.at 1 2)
    (hoff : ∃ i j : Fin 3, i ≠ j ∧ I.at i j ≠ 0) :
    0 < traceT I * traceT I - 3 * minorsII I := by
  obtain ⟨⟨a, d, e⟩, ⟨d1, b, f⟩, ⟨e1, f1, c⟩⟩ := I
  obtain ⟨h1, h2, h3⟩ := hsym
  simp only [mat_at_10, mat_at_01, mat_at_20, mat_at_02, mat_at_21, mat_at_12] at h1 h2 h3
  subst h1 h2 h3
  have hpos : 0 < d1 * d1 + e1 * e1 + f1 * f1 := by
    obtain ⟨i, j, hij, hne⟩ := hoff
    have hd := mul_self_nonneg d1
    have he := mul_self_nonneg e1
    have hf := mul_self_nonneg f1
    fin_cases i <;> fin_cases j <;>
      simp only [Fin.zero_eta, Fin.mk_one, Fin.reduceFinMk, mat_at_00, mat_at_01, mat_at_02,
        mat_at_10, mat_at_11, mat_at_12, mat_at_20, mat_at_21, mat_at_22, Fin.isValue, ne_eq,
        not_true_eq_false] at hij hne
    · have := mul_self_pos.mpr hne; linarith
    · have := mul_self_pos.mpr hne; linarith
    · have := mul_self_pos.mpr hne; linarith
    · have := mul_self_pos.mpr hne; linarith
    · have := mul_self_pos.mpr hne; linarith
    · have := mul_self_pos.mpr hne; linarith
  have hid : traceT (⟨⟨a, d1, e1⟩, ⟨d1, b, f1⟩, ⟨e1, f1, c⟩⟩ : Matrix3 K)
        * traceT (⟨⟨a, d1, e1⟩, ⟨d1, b, f1⟩, ⟨e1, f1, c⟩⟩ : Matrix3 K)
      - 3 * minorsII (⟨⟨a, d1, e1⟩, ⟨d1, b, f1⟩, ⟨e1, f1, c⟩⟩ : Matrix3 K)
      = ((a - b) * (a - b) + (a - c) * (a - c) + (b - c) * (b - c)) / 2
        + 3 * (d1 * d1 + e1 * e1 + f1 * f1) := by
    simp only [traceT, minorsII, mat_at_00, mat_at_01, mat_at_02, mat_at_11, mat_at_12,
      mat_at_22]
    ring
  rw [hid]
  have h1 := mul_self_nonneg (a - b)
  have h2 := mul_self_nonneg (a - c)
  have h3 := mul_self_nonneg (b - c)
  have h4 : 0 ≤ ((a - b) * (a - b) + (a - c) * (a - c) + (b - c) * (b - c)) / 2 := by
    apply div_nonneg
    · linarith
    · norm_num
  linarith

/-- With a positive tolerance the non-diagonal branch is entered only when some off-diagonal
entry is non-zero. -/
theorem offdiag_of_not_isDiagonal (bm : BulletMath K) (I : Matrix3 K)
    (heps : 0 < bm.SIMD_EPSILON) (hd : isDiagonal bm I = false) :
    ∃ i j : Fin 3, i ≠ j ∧ I.at i j ≠ 0 := by
  by_contra hno
  have hall : ∀ i j : Fin 3, i ≠ j → |I.at i j| < bm.SIMD_EPSILON := by
    intro i j hij
    have hz : I.at i j = 0 := by
      by_contra hne
      exact hno ⟨i, j, hij, hne⟩
    rw [hz, abs_zero]
    exact heps
  rw [isDiagonal_of_small bm I hall] at hd
  exact Bool.noConfusion hd

/-- Over the reals: `U` is positive and the divisor `54 U³` non-zero for a symmetric matrix
with a non-zero off-diagonal entry. -/
theorem momentU_pos (eps : ℝ) (axis : Matrix3 ℝ → ℝ → Vector3 ℝ) (I : Matrix3 ℝ)
    (hsym : I.at 1 0 = I.at 0 1 ∧ I.at 2 0 = I.at 0 2 ∧ I.at 2 1 = I.at 1 2)
    (hoff : ∃ i j : Fin 3, i ≠ j ∧ I.at i j ≠ 0) :
    0 < momentU (realMath eps axis) I
    ∧ 54 * momentU (realMath eps axis) I * momentU (realMath eps axis) I
        * momentU (realMath eps axis) I ≠ 0 := by
  have hU : 0 < momentU (realMath eps axis) I := by
    show 0 < Real.sqrt (traceT I * traceT I - 3 * minorsII I) / 3
    exact div_pos (Real.sqrt_pos.mpr (trace_sq_pos I hsym hoff)) (by norm_num)
  refine ⟨hU, ?_⟩
  have h3 : 0 < 54 * momentU (realMath eps axis) I * momentU (realMath eps axis) I
      * momentU (realMath eps axis) I := by positivity
  exact ne_of_gt h3

/-- In exact real arithmetic: for every symmetric matrix `I` with a non-zero off-diagonal
entry `T*T - 3*II` is positive, so `U` is positive and `54*U*U*U` is not zero; with a positive
tolerance the non-diagonal branch is entered only for such a matrix. Rounding is not part of
this statement. -/
theorem exact_divisor_nonzero (eps : ℝ) (axis : Matrix3 ℝ → ℝ → Vector3 ℝ) (I : Matrix3 ℝ)
    (hsym : I.at 1 0 = I.at 0 1 ∧ I.at 2 0 = I.at 0 2 ∧ I.at 2 1 = I.at 1 2)
    (hoff : ∃ i j : Fin 3, i ≠ j ∧ I.at i j ≠ 0) :
    0 < traceT I * traceT I - 3 * minorsII I
    ∧ 0 < momentU (realMath eps axis) I
    ∧ 54 * momentU (realMath eps axis) I * momentU (realMath eps axis) I
        * momentU (realMath eps axis) I ≠ 0
    ∧ (∀ J : Matrix3 ℝ, 0 < eps → isDiagonal (realMath eps axis) J = false →
        ∃ i j : Fin 3, i ≠ j ∧ J.at i j ≠ 0)
    ∧ (∀ parts : List (CompoundPart ℝ), 0 < eps →
        isDiagonal (realMath eps axis) (compoundInertia parts) = false →
        54 * momentU (realMath eps axis) (compoundInertia parts)
          * momentU (realMath eps axis) (compoundInertia parts)
          * momentU (realMath eps axis) (compoundInertia parts) ≠ 0) := by
  refine ⟨trace_sq_pos I hsym hoff, (momentU_pos eps axis I hsym hoff).1,
    (momentU_pos eps axis I hsym hoff).2, ?_, ?_⟩
  · intro J heps hd
    exact offdiag_of_not_isDiagonal (realMath eps axis) J heps hd
  · intro parts heps hd
    exact (momentU_pos eps axis (compoundInertia parts)
      ⟨compoundInertia_symm parts 1 0, compoundInertia_symm parts 2 0,
        compoundInertia_symm parts 2 1⟩
      (offdiag_of_not_isDiagonal (realMath eps axis) _ heps hd)).2


/-- The tilted part alone takes the non-diagonal branch, and `rotMat` has the vector that the
axis search returns for the double moment as first column and two zero columns. -/
theorem tilted_axes (axis : Matrix3 ℝ → ℝ → Vector3 ℝ) :
    isDiagonal (realMath (1 / 1000000) axis)
        (compoundInertia (tiltedBody : Compound ℝ).parts) = false
    ∧ ∃ a : Vector3 ℝ,
        principalAxes (realMath (1 / 1000000) axis)
            (compoundInertia (tiltedBody : Compound ℝ).parts)
          = Matrix3.mk9 a.x 0 0 a.y 0 0 a.z 0 0 := by
  have hI : compoundInertia (tiltedBody : Compound ℝ).parts
      = Matrix3.mk9 (66 / 25) (-12 / 25) 0 (-12 / 25) (59 / 25) 0 0 0 2 := tilted_inertia
  refine ⟨?_, ?_⟩
  · rw [hI]
    simp only [isDiagonal, btFuzzyZero, Matrix3.getRow, Matrix3.mk9, realMath]
    norm_num [abs_lt]
  · rw [principalAxes_eq, hI, tilted_moments_tie, axesMatrix_self]
    exact ⟨_, rfl⟩

/-- A matrix with a zero second column has no left inverse. -/
theorem no_left_inverse (a : Vector3 K) (M : Matrix3 K) :
    M * Matrix3.mk9 a.x 0 0 a.y 0 0 a.z 0 0 ≠ Matrix3.identity := by
  intro h
  have h11 := congrArg (fun m : Matrix3 K => m.at 1 1) h
  simp only [mat_mul_def, Matrix3.mk9, Matrix3.identity, Matrix3.getColumn, mat_at_11,
    Vector3.dot, vec_get_1, mul_zero, add_zero] at h11
  exact zero_ne_one h11

/-- C12 at the tilted part alone (mass 1, principal moments `(2, 3, 2)`, turned about `z`):
whatever the axis search is, `rotMat` has two zero columns, so it is no rotation, its
determinant is 0 and no matrix is its inverse; the basis of the final `T_CG2O` is the
transposed `rotMat` and, multiplied with `rotMat`, does not give the identity; and the frame
maps the point `rotMat * (0, 1, 0) + compoundCG` to the origin, not back to `(0, 1, 0)`. -/
theorem C12_frame_not_inverse_at_tie :
    ∀ axis : Matrix3 ℝ → ℝ → Vector3 ℝ,
      isDiagonal (realMath (1 / 1000000) axis)
          (compoundInertia (tiltedBody : Compound ℝ).parts) = false
      ∧ (∃ a : Vector3 ℝ,
          principalAxes (realMath (1 / 1000000) axis)
              (compoundInertia (tiltedBody : Compound ℝ).parts)
            = Matrix3.mk9 a.x 0 0 a.y 0 0 a.z 0 0)
      ∧ (principalAxes (realMath (1 / 1000000) axis)
            (compoundInertia (tiltedBody : Compound ℝ).parts)).determinant = 0
      ∧ (∀ M : Matrix3 ℝ,
          M * principalAxes (realMath (1 / 1000000) axis)
                (compoundInertia (tiltedBody : Compound ℝ).parts) ≠ Matrix3.identity)
      ∧ (RecalculatePhysicalProperties (realMath (1 / 1000000) axis) tiltedBody).T_CG2O.basis
          = (principalAxes (realMath (1 / 1000000) axis)
              (compoundInertia (tiltedBody : Compound ℝ).parts)).transpose
      ∧ (RecalculatePhysicalProperties (realMath (1 / 1000000) axis) tiltedBody).T_CG2O.basis
            * principalAxes (realMath (1 / 1000000) axis)
                (compoundInertia (tiltedBody : Compound ℝ).parts) ≠ Matrix3.identity
      ∧ (RecalculatePhysicalProperties (realMath (1 / 1000000) axis) tiltedBody).T_CG2O
            * (principalAxes (realMath (1 / 1000000) axis)
                  (compoundInertia (tiltedBody : Compound ℝ).parts) * (⟨0, 1, 0⟩ : Vector3 ℝ)
                + (massCentres (tiltedBody : Compound ℝ).parts).compoundCG)
          = 0
      ∧ (RecalculatePhysicalProperties (realMath (1 / 1000000) axis) tiltedBody).T_CG2O
            * (principalAxes (realMath (1 / 1000000) axis)
                  (compoundInertia (tiltedBody : Compound ℝ).parts) * (⟨0, 1, 0⟩ : Vector3 ℝ)
                + (massCentres (tiltedBody : Compound ℝ).parts).compoundCG)
          ≠ (⟨0, 1, 0⟩ : Vector3 ℝ) := by
  intro axis
  obtain ⟨hd, a, ha⟩ := tilted_axes axis
  have hf := nondiagonal_frame (realMath (1 / 1000000) axis) tiltedBody hd
  have hmap : (RecalculatePhysicalProperties (realMath (1 / 1000000) axis) tiltedBody).T_CG2O
        * (principalAxes (realMath (1 / 1000000) axis)
              (compoundInertia (tiltedBody : Compound ℝ).parts) * (⟨0, 1, 0⟩ : Vector3 ℝ)
            + (massCentres (tiltedBody : Compound ℝ).parts).compoundCG)
      = 0 := by
    rw [hf.2.2.2.1, vec_add_sub_cancel, ha]
    obtain ⟨x, y, z⟩ := a
    simp [mat_mul_vec_def, Matrix3.mk9, Matrix3.transpose, Matrix3.getColumn, Vector3.dot,
      vec_get_0, vec_get_1, vec_get_2, vec_zero_def]
  refine ⟨hd, ⟨a, ha⟩, ?_, ?_, hf.2.1, ?_, hmap, ?_⟩
  · rw [ha]
    simp [Matrix3.determinant, Matrix3.mk9, Vector3.dot, Vector3.cross]
  · intro M
    rw [ha]
    exact no_left_inverse a M
  · rw [hf.2.1, ha]
    exact no_left_inverse a _
  · rw [hmap]
    intro h
    have hy := congrArg Vector3.y h
    simp [vec_zero_def] at hy

theorem nearDiagonal_traceT64 : traceT64 nearDiagonalInertia64 = ⟨3, 0⟩ := by decide

theorem nearDiagonal_minorsII64 : minorsII64 nearDiagonalInertia64 = ⟨3, 0⟩ := by decide

theorem nearDiagonal_radicand64 : radicand64 nearDiagonalInertia64 = ⟨0, 0⟩ := by
  unfold radicand64
  rw [nearDiagonal_traceT64, nearDiagonal_minorsII64]
  decide

theorem nearDiagonal_momentU64 :
    momentU64 nearDiagonalInertia64 = ScalarResult.finite ⟨0, 0⟩ := by
  unfold momentU64
  rw [nearDiagonal_radicand64]
  decide

theorem nearDiagonal_determinant64 : determinant64 nearDiagonalInertia64 = ⟨1, 0⟩ := by decide

theorem nearDiagonal_numerator64 : numerator64 nearDiagonalInertia64 = ⟨0, 0⟩ := by
  unfold numerator64
  rw [nearDiagonal_traceT64, nearDiagonal_minorsII64, nearDiagonal_determinant64]
  decide

theorem nearDiagonal_acosArgument64 :
    acosArgument64 nearDiagonalInertia64 = ScalarResult.nan := by
  unfold acosArgument64
  rw [nearDiagonal_momentU64, nearDiagonal_numerator64]
  decide

theorem nearDiagonal_values (i j : Fin 3) :
    (nearDiagonalInertia64.at i j).toRat = nearDiagonalInertia.at i j := by
  fin_cases i <;> fin_cases j <;>
    norm_num [nearDiagonalInertia64, nearDiagonalInertia, Matrix3.mk9, Matrix3.at,
      Matrix3.getRow, Vector3.get, Dyadic.toRat]

/-- The part frame of a sample part is its placement. -/
theorem nearDiagonalPart_frame (s : ℚ) :
    partFrame (nearDiagonalPart s) = ⟨Matrix3.identity, ⟨s / 2 ^ 15, -s / 2 ^ 15, 0⟩⟩ := by
  simp [nearDiagonalPart, partFrame, translation, tf_mul_def, tf_apply_def, Transform.inverse,
    Transform.getIdentity, mat_mul_vec_def, mat_mul_def, Matrix3.identity, Matrix3.mk9,
    Matrix3.transpose, Matrix3.getColumn, Vector3.get, Vector3.dot, vec_neg_def,
    vec_add_def, vec_zero_def]

theorem nearDiagonal_cg : (massCentres nearDiagonalParts).compoundCG = 0 := by
  simp only [massCentres, massLoop_eq, nearDiagonalParts, List.map_cons, List.map_nil,
    List.sum_cons, List.sum_nil, nearDiagonalPart_frame]
  simp [nearDiagonalPart, vec_div_scalar_def, vec_mul_scalar_def, vec_add_def, vec_zero_def]
  norm_num

/-- In exact arithmetic the inertia matrix of the sample part list is `nearDiagonalInertia`. -/
theorem nearDiagonal_inertia : compoundInertia nearDiagonalParts = nearDiagonalInertia := by
  apply mat_ext_at
  intro i j
  have hm : ∀ s : ℚ, (nearDiagonalPart s).solid.getMass = 1 / 2 := fun _ => rfl
  have hJ : ∀ s : ℚ, (nearDiagonalPart s).solid.getInertia
      = ⟨1 / 2 - 1 / 2 ^ 31, 1 / 2 - 1 / 2 ^ 31, 1 / 2 - 1 / 2 ^ 30⟩ := fun _ => rfl
  rw [compoundInertia_eq, mat_sum_at, List.map_map]
  simp only [originFrame, nearDiagonal_cg, Function.comp_def, inertiaStep_at]
  simp only [nearDiagonalParts, List.map_cons, List.map_nil, List.sum_cons, List.sum_nil,
    partInertiaEntry, nearDiagonalPart_frame, hm, hJ, nearDiagonalInertia]
  fin_cases i <;> fin_cases j <;>
    simp only [Fin.zero_eta, Fin.mk_one, Fin.reduceFinMk, mat_at_00, mat_at_01, mat_at_02,
      mat_at_10, mat_at_11, mat_at_12, mat_at_20, mat_at_21, mat_at_22, vec_get_0,
      vec_get_1, vec_get_2, Matrix3.identity, Matrix3.mk9, vec_zero_def, vec_sub_def,
      Vector3.dot, Fin.isValue, Fin.reduceEq, if_true, if_false] <;>
    norm_num

/-- The floating-point operations reproduce well-known double-precision values:
`0.1 + 0.2` is `0.30000000000000004`, ties go to the even neighbour (`2⁵³ + 1` gives `2⁵³`,
`2⁵³ + 3` gives `2⁵³ + 4`), `1 / 3`, `1 / 10` and `sqrt 2` are the nearest doubles, and
`3 - 2⁻⁶⁰` is `3`. -/
theorem rounding_known_values :
    flAdd 53 ⟨3602879701896397, -55⟩ ⟨3602879701896397, -54⟩ = ⟨1351079888211149, -52⟩
    ∧ flAdd 53 ⟨1, 53⟩ ⟨1, 0⟩ = ⟨1, 53⟩
    ∧ flAdd 53 ⟨1, 53⟩ ⟨3, 0⟩ = ⟨2 ^ 51 + 1, 2⟩
    ∧ flDiv 53 ⟨1, 0⟩ ⟨3, 0⟩ = ScalarResult.finite ⟨6004799503160661, -54⟩
    ∧ flDiv 53 ⟨1, 0⟩ ⟨10, 0⟩ = ScalarResult.finite ⟨3602879701896397, -55⟩
    ∧ flSqrt 53 ⟨2, 0⟩ = ScalarResult.finite ⟨6369051672525773, -52⟩
    ∧ flSub 53 ⟨3, 0⟩ ⟨1, -60⟩ = ⟨3, 0⟩ := by
  refine ⟨by decide, by decide, by decide, by decide, by decide, ?_, by decide⟩
  set_option maxRecDepth 4000 in decide

/-- A division by a zero divisor never gives a finite number. -/
theorem flDiv_zero_divisor (p : Nat) (x d : Dyadic) :
    flDiv p x ⟨0, 0⟩ ≠ ScalarResult.finite d := by
  unfold flDiv
  by_cases hx : x.m = 0
  · simp [hx]
  · simp [hx]

/-- C29 at two equal parts of mass `1/2` and principal moments
`(1/2 - 2⁻³¹, 1/2 - 2⁻³¹, 1/2 - 2⁻³⁰)`, not turned, placed at `(2⁻¹⁵, -2⁻¹⁵, 0)` and
`(-2⁻¹⁵, 2⁻¹⁵, 0)`. The inertia matrix `I` is the identity with `2⁻³⁰` at `(0, 1)` and
`(1, 0)`: symmetric with a non-zero off-diagonal entry, and in exact arithmetic
`T*T - 3*II = 3 * 2⁻⁶⁰ > 0`. In double precision the entry is not a fuzzy zero, so the
non-diagonal branch is entered, but `II` is rounded to `3`, so `T*T - 3*II` is exactly `0`,
`U = btSqrt(0)/3` is `0`, the divisor `54*U*U*U` is `0`, and a division by it gives no finite
number. -/
theorem C29_zero_divisor_in_double_precision :
    compoundInertia nearDiagonalParts = nearDiagonalInertia
    ∧ (nearDiagonalInertia.at 1 0 = nearDiagonalInertia.at 0 1
      ∧ nearDiagonalInertia.at 2 0 = nearDiagonalInertia.at 0 2
      ∧ nearDiagonalInertia.at 2 1 = nearDiagonalInertia.at 1 2)
    ∧ nearDiagonalInertia.at 0 1 ≠ 0
    ∧ traceT nearDiagonalInertia * traceT nearDiagonalInertia - 3 * minorsII nearDiagonalInertia
        = 3 / 2 ^ 60
    ∧ (∀ i j : Fin 3, (nearDiagonalInertia64.at i j).toRat = nearDiagonalInertia.at i j)
    ∧ isDiagonal64 nearDiagonalInertia64 = false
    ∧ traceT64 nearDiagonalInertia64 = ⟨3, 0⟩
    ∧ minorsII64 nearDiagonalInertia64 = ⟨3, 0⟩
    ∧ radicand64 nearDiagonalInertia64 = ⟨0, 0⟩
    ∧ momentU64 nearDiagonalInertia64 = ScalarResult.finite ⟨0, 0⟩
    ∧ divisor64 ⟨0, 0⟩ = ⟨0, 0⟩
    ∧ (∀ x d : Dyadic, flDiv scalarBits x (divisor64 ⟨0, 0⟩) ≠ ScalarResult.finite d) := by
  have hdiv : divisor64 ⟨0, 0⟩ = ⟨0, 0⟩ := by decide
  refine ⟨nearDiagonal_inertia, ⟨rfl, rfl, rfl⟩, ?_, ?_, nearDiagonal_values, by decide,
    nearDiagonal_traceT64, nearDiagonal_minorsII64, nearDiagonal_radicand64,
    nearDiagonal_momentU64, hdiv, ?_⟩
  · norm_num [nearDiagonalInertia, mat_at_01, Matrix3.mk9]
  · norm_num [nearDiagonalInertia, traceT, minorsII, mat_at_00, mat_at_01, mat_at_02, mat_at_11,
      mat_at_12, mat_at_22, Matrix3.mk9]
  · intro x d
    rw [hdiv]
    exact flDiv_zero_divisor _ x d

/-- C14 at the same two parts: every mass is non-negative with total mass `1`, every
principal moment of a part is non-negative, and the placements are not turned, so the part
list is physically valid. In double precision the non-diagonal branch is entered, the
dividend and the divisor of line 186 are both `0`, and the argument of `btAcos` is `0 / 0`,
not a number. -/
theorem C14_moments_not_a_number_in_double_precision :
    (∀ p ∈ nearDiagonalParts, 0 ≤ p.solid.getMass)
    ∧ (nearDiagonalParts.map (fun p => p.solid.getMass)).sum = 1
    ∧ (∀ p ∈ nearDiagonalParts,
        0 ≤ p.solid.getInertia.x ∧ 0 ≤ p.solid.getInertia.y ∧ 0 ≤ p.solid.getInertia.z)
    ∧ (∀ p ∈ nearDiagonalParts, Matrix3.orthonormal p.origin.basis)
    ∧ compoundInertia nearDiagonalParts = nearDiagonalInertia
    ∧ (∀ i j : Fin 3, (nearDiagonalInertia64.at i j).toRat = nearDiagonalInertia.at i j)
    ∧ isDiagonal64 nearDiagonalInertia64 = false
    ∧ determinant64 nearDiagonalInertia64 = ⟨1, 0⟩
    ∧ numerator64 nearDiagonalInertia64 = ⟨0, 0⟩
    ∧ (∃ U : Dyadic, momentU64 nearDiagonalInertia64 = ScalarResult.finite U
        ∧ divisor64 U = ⟨0, 0⟩)
    ∧ acosArgument64 nearDiagonalInertia64 = ScalarResult.nan := by
  have hmem : ∀ p ∈ nearDiagonalParts, p = nearDiagonalPart 1 ∨ p = nearDiagonalPart (-1) := by
    intro p hp
    simpa [nearDiagonalParts] using hp
  refine ⟨?_, ?_, ?_, ?_, nearDiagonal_inertia, nearDiagonal_values, by decide,
    nearDiagonal_determinant64, nearDiagonal_numerator64,
    ⟨⟨0, 0⟩, nearDiagonal_momentU64, by decide⟩, nearDiagonal_acosArgument64⟩
  · intro p hp
    rcases hmem p hp with rfl | rfl <;> norm_num [nearDiagonalPart]
  · norm_num [nearDiagonalParts, nearDiagonalPart]
  · intro p hp
    rcases hmem p hp with rfl | rfl <;> norm_num [nearDiagonalPart]
  · intro p hp
    rcases hmem p hp with rfl | rfl <;> exact identity_orthonormal

end Claims

end sf
